import Mathlib

/-!
# SubscriptionRegistry

A shallow embedding of `include/vcmi/events/SubscriptionRegistry.h`: the template
`events::SubscriptionRegistry<E>` with its two collections `preHandlers` and
`postHandlers`, the operations `subscribeBefore`, `subscribeAfter`, `executeEvent`
and the destructors of `PreSubscription` and `PostSubscription`.

Conventions of the embedding.

* A pointer is the natural number of its address. `BusTag = const void *` and
  `const Environment *` are never dereferenced by the registry.
* `E` is the event kind, `W` stands for everything outside the registry that a
  callback can read or change, `X` is the type of thrown exceptions.
* A `std::function<void(...)>` is a function returning what the call leaves behind:
  the event and the outside state as they are when the call returns or throws, and
  the exception, if one was thrown.
* A `std::shared_ptr<HandlerStorage<T>>` is the address of the storage object
  together with the callback kept in it; two shared pointers are equal exactly when
  their addresses are.
* A `std::map<BusTag, std::vector<...>>` is a function from keys to optional
  vectors: `none` for a key that is absent, `some v` for a key mapped to `v`.
* The mutex is not modelled: every operation runs as one atomic step, and callbacks
  do not call back into the registry.
-/

namespace events

/-- The type `BusTag = const void *`: an address, used only as a key. -/
abbrev BusTag := Nat

/-- The type `const Environment *`: an address handed through to the callbacks. -/
abbrev Environment := Nat

/-- What a call of a callback taking `E &` leaves behind: the event and the outside
state as they are when the call returns or throws, and the exception thrown, if any. -/
structure Outcome (E W X : Type) where
  event : E
  world : W
  thrown : Option X

/-- `PreHandler = std::function<void(const Environment *, const EventBus *, E &)>`. -/
abbrev PreHandler (E W X : Type) := Environment → BusTag → E → W → Outcome E W X

/-- `PostHandler = std::function<void(const Environment *, const EventBus *, const E &)>`.
The const reference the callback is handed refers to the caller's event, which is not a
const object: a callback that casts the const away, writes a mutable member or holds
another reference to the event changes it. What the call leaves behind is therefore an
event as well; a callback that only reads returns the event it was given. -/
abbrev PostHandler (E W X : Type) := Environment → BusTag → E → W → Outcome E W X

/-- The member `void E::execute(const Environment *, const EventBus *)` of the event
kind, which the registry only calls. -/
abbrev Execute (E W X : Type) := Environment → BusTag → E → W → Outcome E W X

/-- A `std::shared_ptr<HandlerStorage<T>>`: the address of the storage object made by
`std::make_shared` and the callback `cb` kept in it. -/
structure HandlerStorage (T : Type) where
  addr : Nat
  cb : T

/-- `PreHandlerStorage = HandlerStorage<PreHandler>`. -/
abbrev PreHandlerStorage (E W X : Type) := HandlerStorage (PreHandler E W X)

/-- `PostHandlerStorage = HandlerStorage<PostHandler>`. -/
abbrev PostHandlerStorage (E W X : Type) := HandlerStorage (PostHandler E W X)

/-- `HandlerStorage::operator()` for a pre-handler: `cb(env, bus, event)`. -/
def PreHandlerStorage.call {E W X : Type} (h : PreHandlerStorage E W X)
    (env : Environment) (bus : BusTag) (event : E) (w : W) : Outcome E W X :=
  h.cb env bus event w

/-- `HandlerStorage::operator()` for a post-handler: `cb(env, bus, event)`, where
`event` is the `E &` that `executeEvent` passes on and `cb` takes it as `const E &`. -/
def PostHandlerStorage.call {E W X : Type} (h : PostHandlerStorage E W X)
    (env : Environment) (bus : BusTag) (event : E) (w : W) : Outcome E W X :=
  h.cb env bus event w

/-- A `std::map<BusTag, std::vector<std::shared_ptr<HandlerStorage<T>>>>`. -/
abbrev HandlerMap (T : Type) := BusTag → Option (List (HandlerStorage T))

/-- The empty map. -/
def HandlerMap.empty {T : Type} : HandlerMap T := fun _ => none

/-- `m.find(key)`: `none` stands for `std::end(m)`, `some v` for an iterator whose
`second` is `v`. -/
def HandlerMap.find {T : Type} (m : HandlerMap T) (key : BusTag) :
    Option (List (HandlerStorage T)) :=
  m key

/-- The map after `m[key]` was evaluated: an absent key is inserted with an empty
vector, a present key keeps its vector. -/
def HandlerMap.subscript {T : Type} (m : HandlerMap T) (key : BusTag) : HandlerMap T :=
  fun k => if k = key then some ((m key).getD []) else m k

/-- Assignment through a reference to the vector mapped to `key`. -/
def HandlerMap.assign {T : Type} (m : HandlerMap T) (key : BusTag)
    (v : List (HandlerStorage T)) : HandlerMap T :=
  fun k => if k = key then some v else m k

/-- `m[key].push_back(storage)`. -/
def HandlerMap.pushBack {T : Type} (m : HandlerMap T) (key : BusTag)
    (storage : HandlerStorage T) : HandlerMap T :=
  let m1 := m.subscript key
  match m1.find key with
  | some v => m1.assign key (v ++ [storage])
  | none => m1

/-- The vector mapped to a key, the empty vector for an absent key. -/
def HandlerMap.handlers {T : Type} (m : HandlerMap T) (key : BusTag) :
    List (HandlerStorage T) :=
  (m key).getD []

/-- Modelled from the spec: `operator-=` on a vector and an element (`it->second -= cb`),
which is declared outside this header. The spec has disposal remove the slot of the
subscription "if still present", "at most one slot", found by identity "(same slot
instance), not content-based": the first element whose address is that of `item` is
erased, and a vector without such an element stays as it is. -/
def minusEq {T : Type} : List (HandlerStorage T) → HandlerStorage T → List (HandlerStorage T)
  | [], _ => []
  | h :: rest, item => if h.addr = item.addr then rest else h :: minusEq rest item

/-- The data members `preHandlers` and `postHandlers` of `SubscriptionRegistry<E>`. -/
structure SubscriptionRegistry (E W X : Type) where
  preHandlers : HandlerMap (PreHandler E W X)
  postHandlers : HandlerMap (PostHandler E W X)

/-- A registry as constructed: both maps empty. -/
def SubscriptionRegistry.empty {E W X : Type} : SubscriptionRegistry E W X :=
  ⟨HandlerMap.empty, HandlerMap.empty⟩

/-- The data members `cb` and `tag` of `PreSubscription`. -/
structure PreSubscription (E W X : Type) where
  cb : PreHandlerStorage E W X
  tag : BusTag

/-- The data members `tag` and `cb` of `PostSubscription`. -/
structure PostSubscription (E W X : Type) where
  tag : BusTag
  cb : PostHandlerStorage E W X

/-- `SubscriptionRegistry::subscribeBefore(tag, cb)`. The argument `addr` is the
address of the object that `std::make_shared<PreHandlerStorage>` returns; the result is
the registry afterwards and the subscription handed to the caller. -/
def subscribeBefore {E W X : Type} (reg : SubscriptionRegistry E W X) (tag : BusTag)
    (cb : PreHandler E W X) (addr : Nat) :
    SubscriptionRegistry E W X × PreSubscription E W X :=
  let storage : PreHandlerStorage E W X := ⟨addr, cb⟩
  ({ reg with preHandlers := reg.preHandlers.pushBack tag storage }, ⟨storage, tag⟩)

/-- `SubscriptionRegistry::subscribeAfter(tag, cb)`, with `addr` the address of the
object that `std::make_shared<PostHandlerStorage>` returns. -/
def subscribeAfter {E W X : Type} (reg : SubscriptionRegistry E W X) (tag : BusTag)
    (cb : PostHandler E W X) (addr : Nat) :
    SubscriptionRegistry E W X × PostSubscription E W X :=
  let storage : PostHandlerStorage E W X := ⟨addr, cb⟩
  ({ reg with postHandlers := reg.postHandlers.pushBack tag storage }, ⟨tag, storage⟩)

/-- `PreSubscription::~PreSubscription()`. The argument `registry` is the registry that
`E::getRegistry()` returns, the result is that registry afterwards. -/
def PreSubscription.destructor {E W X : Type} (sub : PreSubscription E W X)
    (registry : SubscriptionRegistry E W X) : SubscriptionRegistry E W X :=
  let handlers := registry.preHandlers
  match handlers.find sub.tag with
  | some v => { registry with preHandlers := handlers.assign sub.tag (minusEq v sub.cb) }
  | none => registry

/-- `PostSubscription::~PostSubscription()`. The argument `registry` is the registry
that `E::getRegistry()` returns, the result is that registry afterwards. -/
def PostSubscription.destructor {E W X : Type} (sub : PostSubscription E W X)
    (registry : SubscriptionRegistry E W X) : SubscriptionRegistry E W X :=
  let handlers := registry.postHandlers
  match handlers.find sub.tag with
  | some v => { registry with postHandlers := handlers.assign sub.tag (minusEq v sub.cb) }
  | none => registry

/-- One call made by `executeEvent`: of a pre-handler slot, of the event's own
`execute`, or of a post-handler slot. -/
inductive Call (E W X : Type) where
  | pre (h : PreHandlerStorage E W X)
  | execute
  | post (h : PostHandlerStorage E W X)

/-- A call with the slot reduced to its address. -/
inductive CallId where
  | pre (addr : Nat)
  | execute
  | post (addr : Nat)
  deriving DecidableEq

/-- The address form of a call. -/
def Call.id {E W X : Type} : Call E W X → CallId
  | Call.pre h => CallId.pre h.addr
  | Call.execute => CallId.execute
  | Call.post h => CallId.post h.addr

/-- The slot of a call of a pre-handler. -/
def Call.preSlot {E W X : Type} : Call E W X → Option (PreHandlerStorage E W X)
  | Call.pre h => some h
  | _ => none

/-- The slot of a call of a post-handler. -/
def Call.postSlot {E W X : Type} : Call E W X → Option (PostHandlerStorage E W X)
  | Call.post h => some h
  | _ => none

/-- The progress of one `executeEvent`: the calls made so far, in order, the event and
the outside state as they are now, and the exception that left the function, if any. -/
structure Dispatch (E W X : Type) where
  trace : List (Call E W X)
  event : E
  world : W
  thrown : Option X

/-- The loop `for(auto & h : it->second) (*h)(env, bus, event);` over the pre-handlers:
an exception thrown by a call leaves the loop and the function. -/
def forEachPre {E W X : Type} (env : Environment) (bus : BusTag) :
    List (PreHandlerStorage E W X) → Dispatch E W X → Dispatch E W X
  | [], d => d
  | h :: rest, d =>
    let o := h.call env bus d.event d.world
    let d1 : Dispatch E W X := ⟨d.trace ++ [Call.pre h], o.event, o.world, o.thrown⟩
    match o.thrown with
    | some _ => d1
    | none => forEachPre env bus rest d1

/-- The loop `for(auto & h : it->second) (*h)(env, bus, event);` over the
post-handlers. -/
def forEachPost {E W X : Type} (env : Environment) (bus : BusTag) :
    List (PostHandlerStorage E W X) → Dispatch E W X → Dispatch E W X
  | [], d => d
  | h :: rest, d =>
    let o := h.call env bus d.event d.world
    let d1 : Dispatch E W X := ⟨d.trace ++ [Call.post h], o.event, o.world, o.thrown⟩
    match o.thrown with
    | some _ => d1
    | none => forEachPost env bus rest d1

/-- The first block of `executeEvent`: `preHandlers.find(bus)` and the loop over the
vector found. -/
def prePhase {E W X : Type} (reg : SubscriptionRegistry E W X) (env : Environment)
    (bus : BusTag) (d : Dispatch E W X) : Dispatch E W X :=
  match reg.preHandlers.find bus with
  | some v => forEachPre env bus v d
  | none => d

/-- The statement `event.execute(env, bus);` of `executeEvent`. -/
def executePhase {E W X : Type} (execute : Execute E W X) (env : Environment)
    (bus : BusTag) (d : Dispatch E W X) : Dispatch E W X :=
  let o := execute env bus d.event d.world
  ⟨d.trace ++ [Call.execute], o.event, o.world, o.thrown⟩

/-- The last block of `executeEvent`: `postHandlers.find(bus)` and the loop over the
vector found. -/
def postPhase {E W X : Type} (reg : SubscriptionRegistry E W X) (env : Environment)
    (bus : BusTag) (d : Dispatch E W X) : Dispatch E W X :=
  match reg.postHandlers.find bus with
  | some v => forEachPost env bus v d
  | none => d

/-- `SubscriptionRegistry::executeEvent(env, bus, event)`, with `execute` the member
`E::execute` and `w` the outside state at the call. The three blocks run in order and an
exception thrown in one of them leaves the function at once. -/
def executeEvent {E W X : Type} (reg : SubscriptionRegistry E W X) (execute : Execute E W X)
    (env : Environment) (bus : BusTag) (event : E) (w : W) : Dispatch E W X :=
  let d1 := prePhase reg env bus ⟨[], event, w, none⟩
  match d1.thrown with
  | some _ => d1
  | none =>
    let d2 := executePhase execute env bus d1
    match d2.thrown with
    | some _ => d2
    | none => postPhase reg env bus d2

/-- The trace of a dispatch in which every call is made: the pre-handlers in order, the
event's own `execute`, the post-handlers in order. -/
def fullTrace {E W X : Type} (pre : List (PreHandlerStorage E W X))
    (post : List (PostHandlerStorage E W X)) : List (Call E W X) :=
  pre.map Call.pre ++ [Call.execute] ++ post.map Call.post

/-- One call of `subscribeBefore` or `subscribeAfter`, with the address that
`std::make_shared` returns in it. -/
inductive Registration (E W X : Type) where
  | before (tag : BusTag) (cb : PreHandler E W X) (addr : Nat)
  | after (tag : BusTag) (cb : PostHandler E W X) (addr : Nat)

/-- The registry after one registration; the subscription returned is kept alive by
the caller. -/
def Registration.apply {E W X : Type} (reg : SubscriptionRegistry E W X) :
    Registration E W X → SubscriptionRegistry E W X
  | Registration.before tag cb addr => (subscribeBefore reg tag cb addr).1
  | Registration.after tag cb addr => (subscribeAfter reg tag cb addr).1

/-- The registry after a sequence of registrations, made in the order of the list. -/
def registerAll {E W X : Type} (regs : List (Registration E W X))
    (reg : SubscriptionRegistry E W X) : SubscriptionRegistry E W X :=
  regs.foldl Registration.apply reg

/-- The slots that the `subscribeBefore` calls of a sequence made for a tag, in the
order of the calls. -/
def registeredBefore {E W X : Type} (tag : BusTag) :
    List (Registration E W X) → List (PreHandlerStorage E W X)
  | [] => []
  | Registration.before t cb addr :: rest =>
    if t = tag then ⟨addr, cb⟩ :: registeredBefore tag rest else registeredBefore tag rest
  | Registration.after _ _ _ :: rest => registeredBefore tag rest

/-- The slots that the `subscribeAfter` calls of a sequence made for a tag, in the
order of the calls. -/
def registeredAfter {E W X : Type} (tag : BusTag) :
    List (Registration E W X) → List (PostHandlerStorage E W X)
  | [] => []
  | Registration.before _ _ _ :: rest => registeredAfter tag rest
  | Registration.after t cb addr :: rest =>
    if t = tag then ⟨addr, cb⟩ :: registeredAfter tag rest else registeredAfter tag rest

/-- A registry in which what is stored under one tag is replaced, in both collections,
and everything else is kept. -/
def SubscriptionRegistry.replaceTag {E W X : Type} (reg : SubscriptionRegistry E W X)
    (tag : BusTag) (pre : Option (List (PreHandlerStorage E W X)))
    (post : Option (List (PostHandlerStorage E W X))) : SubscriptionRegistry E W X :=
  ⟨fun k => if k = tag then pre else reg.preHandlers k,
   fun k => if k = tag then post else reg.postHandlers k⟩

/-- The registry that `E::getRegistry()` returns together with the subscriptions it
has issued that are still alive. -/
structure System (E W X : Type) where
  registry : SubscriptionRegistry E W X
  preSubs : List (PreSubscription E W X)
  postSubs : List (PostSubscription E W X)

/-- The system at start: an empty registry and no subscription. -/
def System.init {E W X : Type} : System E W X :=
  ⟨SubscriptionRegistry.empty, [], []⟩

/-- An address that `std::make_shared` may return: the storage objects that live
subscriptions keep alive are at other addresses. -/
def System.fresh {E W X : Type} (s : System E W X) (addr : Nat) : Prop :=
  (∀ sub ∈ s.preSubs, sub.cb.addr ≠ addr) ∧ (∀ sub ∈ s.postSubs, sub.cb.addr ≠ addr)

/-- The system after a call of `subscribeBefore` whose result the caller keeps. -/
def System.subscribeBefore {E W X : Type} (s : System E W X) (tag : BusTag)
    (cb : PreHandler E W X) (addr : Nat) : System E W X :=
  ⟨(events.subscribeBefore s.registry tag cb addr).1,
   s.preSubs ++ [(events.subscribeBefore s.registry tag cb addr).2], s.postSubs⟩

/-- The system after a call of `subscribeAfter` whose result the caller keeps. -/
def System.subscribeAfter {E W X : Type} (s : System E W X) (tag : BusTag)
    (cb : PostHandler E W X) (addr : Nat) : System E W X :=
  ⟨(events.subscribeAfter s.registry tag cb addr).1, s.preSubs,
   s.postSubs ++ [(events.subscribeAfter s.registry tag cb addr).2]⟩

/-- The system after a live `PreSubscription` is destroyed. -/
def System.disposePre {E W X : Type} (s : System E W X) (sub : PreSubscription E W X) :
    System E W X :=
  ⟨sub.destructor s.registry, s.preSubs.filter (fun x => x.cb.addr != sub.cb.addr),
   s.postSubs⟩

/-- The system after a live `PostSubscription` is destroyed. -/
def System.disposePost {E W X : Type} (s : System E W X) (sub : PostSubscription E W X) :
    System E W X :=
  ⟨sub.destructor s.registry, s.preSubs,
   s.postSubs.filter (fun x => x.cb.addr != sub.cb.addr)⟩

/-- The systems reached from the start by subscribing and by destroying live
subscriptions. -/
inductive Reachable {E W X : Type} : System E W X → Prop where
  | init : Reachable System.init
  | subscribeBefore (s : System E W X) (tag : BusTag) (cb : PreHandler E W X) (addr : Nat) :
      Reachable s → s.fresh addr → Reachable (s.subscribeBefore tag cb addr)
  | subscribeAfter (s : System E W X) (tag : BusTag) (cb : PostHandler E W X) (addr : Nat) :
      Reachable s → s.fresh addr → Reachable (s.subscribeAfter tag cb addr)
  | disposePre (s : System E W X) (sub : PreSubscription E W X) :
      Reachable s → sub ∈ s.preSubs → Reachable (s.disposePre sub)
  | disposePost (s : System E W X) (sub : PostSubscription E W X) :
      Reachable s → sub ∈ s.postSubs → Reachable (s.disposePost sub)

/-! ### Sample callbacks over `E = W = X = Nat` -/

/-- A pre-handler that adds one to the event. -/
def incr : PreHandler Nat Nat Nat := fun _ _ e w => ⟨e + 1, w, none⟩

/-- A pre-handler that throws `7`. -/
def failing : PreHandler Nat Nat Nat := fun _ _ e w => ⟨e, w, some 7⟩

/-- A post-handler that only reads the event: it adds it to the outside state. -/
def observe : PostHandler Nat Nat Nat := fun _ _ e w => ⟨e, w + e, none⟩

/-- A post-handler that throws `9`. -/
def failingPost : PostHandler Nat Nat Nat := fun _ _ e w => ⟨e, w, some 9⟩

/-- A post-handler that writes to the event through its const reference: it adds `100`
to it. -/
def overwrite : PostHandler Nat Nat Nat := fun _ _ e w => ⟨e + 100, w, none⟩

/-- An `execute` that doubles the event. -/
def double : Execute Nat Nat Nat := fun _ _ e w => ⟨e * 2, w, none⟩

/-- An `execute` that throws `8`. -/
def failingExecute : Execute Nat Nat Nat := fun _ _ e w => ⟨e, w, some 8⟩

/-! ### Sample inputs -/

/-- Two `subscribeBefore` calls for tag `1`: first `failing`, then `incr`. -/
def failThenIncr : List (Registration Nat Nat Nat) :=
  [Registration.before 1 failing 10, Registration.before 1 incr 11]

/-- One `subscribeBefore` and one `subscribeAfter` call for tag `1`, one
`subscribeBefore` call for tag `2`. -/
def mixedRegs : List (Registration Nat Nat Nat) :=
  [Registration.before 1 incr 10, Registration.after 1 observe 20,
   Registration.before 2 incr 11]

/-- A registry with the one post-handler `observe` under tag `3`. -/
def observeOnly : SubscriptionRegistry Nat Nat Nat :=
  (subscribeAfter SubscriptionRegistry.empty 3 observe 20).1

/-- A registry with `incr` under tag `1` before and `observe` under tag `1` after. -/
def incrObserve : SubscriptionRegistry Nat Nat Nat :=
  registerAll [Registration.before 1 incr 10, Registration.after 1 observe 20]
    SubscriptionRegistry.empty

/-- A registry with the one pre-handler `failing` under tag `1` and nothing else. -/
def failingOnly : SubscriptionRegistry Nat Nat Nat :=
  (subscribeBefore SubscriptionRegistry.empty 1 failing 10).1

/-- A registry with `incr`, `failing`, `incr` before and `observe` after under tag `1`. -/
def failingSecond : SubscriptionRegistry Nat Nat Nat :=
  registerAll [Registration.before 1 incr 10, Registration.before 1 failing 11,
    Registration.before 1 incr 12, Registration.after 1 observe 20] SubscriptionRegistry.empty

/-- A registry with `incr` before and `observe`, `failingPost`, `observe` after under
tag `1`. -/
def failingPostSecond : SubscriptionRegistry Nat Nat Nat :=
  registerAll [Registration.before 1 incr 10, Registration.after 1 observe 20,
    Registration.after 1 failingPost 21, Registration.after 1 observe 22]
    SubscriptionRegistry.empty

/-- The system after `incr` is subscribed twice before under tag `1`, and `observe`
once after. -/
def twoLive : System Nat Nat Nat :=
  ((System.init.subscribeBefore 1 incr 10).subscribeBefore 1 incr 11).subscribeAfter 1 observe 20

/-- A pre-handler that throws `7` when the event is `5` and returns otherwise. -/
def failsOnFive : PreHandler Nat Nat Nat :=
  fun _ _ e w => ⟨e, w, if e = 5 then some 7 else none⟩

/-- The system after `incr`, `failsOnFive`, `incr` are subscribed before under tag `1`. -/
def guarded : System Nat Nat Nat :=
  ((System.init.subscribeBefore 1 incr 10).subscribeBefore 1 failsOnFive 11).subscribeBefore 1
    incr 12

/-- A pre-subscription for tag `1` holding the storage object at `10`. -/
def firstSub : PreSubscription Nat Nat Nat := ⟨⟨10, incr⟩, 1⟩

/-- A post-subscription for tag `1` holding the storage object at `20`. -/
def firstPostSub : PostSubscription Nat Nat Nat := ⟨1, ⟨20, observe⟩⟩

/-- The `preHandlers` side of a system is consistent: live pre-subscriptions hold
distinct storage objects, each of them is stored under its tag, no vector holds a
storage object twice, and every stored slot belongs to a live subscription for the tag
it is stored under. -/
def System.PreConsistent {E W X : Type} (s : System E W X) : Prop :=
  (s.preSubs.map (fun sub => sub.cb.addr)).Nodup ∧
  (∀ sub ∈ s.preSubs, sub.cb ∈ s.registry.preHandlers.handlers sub.tag) ∧
  (∀ t, ((s.registry.preHandlers.handlers t).map HandlerStorage.addr).Nodup) ∧
  (∀ t, ∀ h ∈ s.registry.preHandlers.handlers t,
    ({ cb := h, tag := t } : PreSubscription E W X) ∈ s.preSubs)

/-- The `postHandlers` side of a system is consistent, in the same sense. -/
def System.PostConsistent {E W X : Type} (s : System E W X) : Prop :=
  (s.postSubs.map (fun sub => sub.cb.addr)).Nodup ∧
  (∀ sub ∈ s.postSubs, sub.cb ∈ s.registry.postHandlers.handlers sub.tag) ∧
  (∀ t, ((s.registry.postHandlers.handlers t).map HandlerStorage.addr).Nodup) ∧
  (∀ t, ∀ h ∈ s.registry.postHandlers.handlers t,
    ({ cb := h, tag := t } : PostSubscription E W X) ∈ s.postSubs)

/-- The registry after `subscribeBefore(tag, cb)` and then the destruction of the
subscription it returned. -/
def subscribeBeforeThenDispose {E W X : Type} (reg : SubscriptionRegistry E W X)
    (tag : BusTag) (cb : PreHandler E W X) (addr : Nat) : SubscriptionRegistry E W X :=
  (subscribeBefore reg tag cb addr).2.destructor (subscribeBefore reg tag cb addr).1

/-- The registry after `subscribeAfter(tag, cb)` and then the destruction of the
subscription it returned. -/
def subscribeAfterThenDispose {E W X : Type} (reg : SubscriptionRegistry E W X)
    (tag : BusTag) (cb : PostHandler E W X) (addr : Nat) : SubscriptionRegistry E W X :=
  (subscribeAfter reg tag cb addr).2.destructor (subscribeAfter reg tag cb addr).1

/-- The same callback subscribed twice before under one tag: the registry afterwards,
the first subscription and the second. -/
def twiceBefore {E W X : Type} (reg : SubscriptionRegistry E W X) (tag : BusTag)
    (cb : PreHandler E W X) (a1 a2 : Nat) :
    SubscriptionRegistry E W X × PreSubscription E W X × PreSubscription E W X :=
  let r1 := subscribeBefore reg tag cb a1
  let r2 := subscribeBefore r1.1 tag cb a2
  (r2.1, r1.2, r2.2)

/-- The same callback subscribed twice after under one tag: the registry afterwards, the
first subscription and the second. -/
def twiceAfter {E W X : Type} (reg : SubscriptionRegistry E W X) (tag : BusTag)
    (cb : PostHandler E W X) (a1 a2 : Nat) :
    SubscriptionRegistry E W X × PostSubscription E W X × PostSubscription E W X :=
  let r1 := subscribeAfter reg tag cb a1
  let r2 := subscribeAfter r1.1 tag cb a2
  (r2.1, r1.2, r2.2)

/-- The same callback subscribed before under two tags: the registry afterwards, the
first subscription and the second. -/
def underTwoTags {E W X : Type} (reg : SubscriptionRegistry E W X) (t1 t2 : BusTag)
    (cb : PreHandler E W X) (a1 a2 : Nat) :
    SubscriptionRegistry E W X × PreSubscription E W X × PreSubscription E W X :=
  let r1 := subscribeBefore reg t1 cb a1
  let r2 := subscribeBefore r1.1 t2 cb a2
  (r2.1, r1.2, r2.2)

/-- The same callback subscribed after under two tags: the registry afterwards, the
first subscription and the second. -/
def underTwoTagsAfter {E W X : Type} (reg : SubscriptionRegistry E W X) (t1 t2 : BusTag)
    (cb : PostHandler E W X) (a1 a2 : Nat) :
    SubscriptionRegistry E W X × PostSubscription E W X × PostSubscription E W X :=
  let r1 := subscribeAfter reg t1 cb a1
  let r2 := subscribeAfter r1.1 t2 cb a2
  (r2.1, r1.2, r2.2)

/-- The number of calls of the pre-handler slot at the address `a` that a dispatch
made. -/
def Dispatch.preCalls {E W X : Type} (d : Dispatch E W X) (a : Nat) : Nat :=
  (d.trace.map Call.id).count (CallId.pre a)

/-- The number of calls of the post-handler slot at the address `a` that a dispatch
made. -/
def Dispatch.postCalls {E W X : Type} (d : Dispatch E W X) (a : Nat) : Nat :=
  (d.trace.map Call.id).count (CallId.post a)

/-- Whether a tag is a key of a map. -/
def HandlerMap.isKey {T : Type} (m : HandlerMap T) (key : BusTag) : Bool :=
  (m key).isSome

/-- `m.find(key)` as an operation on the map: the iterator it returns and the map it
leaves, which is the map it was called on (`find` inserts nothing and erases nothing). -/
def HandlerMap.findOp {T : Type} (m : HandlerMap T) (key : BusTag) :
    Option (List (HandlerStorage T)) × HandlerMap T :=
  (m.find key, m)

/-- `SubscriptionRegistry::executeEvent(env, bus, event)` as a step on the registry: the
registry the call leaves, also when it ends by an exception, and the dispatch. The
function reaches the two maps through `find` only, the loops call the elements of the
vector found and assign nothing, and the callbacks are not handed the registry. -/
def executeEventOn {E W X : Type} (reg : SubscriptionRegistry E W X) (execute : Execute E W X)
    (env : Environment) (bus : BusTag) (event : E) (w : W) :
    SubscriptionRegistry E W X × Dispatch E W X :=
  let it1 := reg.preHandlers.findOp bus
  let reg1 : SubscriptionRegistry E W X := ⟨it1.2, reg.postHandlers⟩
  let d1 : Dispatch E W X :=
    match it1.1 with
    | some v => forEachPre env bus v ⟨[], event, w, none⟩
    | none => ⟨[], event, w, none⟩
  match d1.thrown with
  | some _ => (reg1, d1)
  | none =>
    let d2 := executePhase execute env bus d1
    match d2.thrown with
    | some _ => (reg1, d2)
    | none =>
      let it2 := reg1.postHandlers.findOp bus
      let reg2 : SubscriptionRegistry E W X := ⟨reg1.preHandlers, it2.2⟩
      match it2.1 with
      | some v => (reg2, forEachPost env bus v d2)
      | none => (reg2, d2)

/-- A pre-subscription for tag `1` holding the storage object of `failing` at `10`. -/
def failingSub : PreSubscription Nat Nat Nat := ⟨⟨10, failing⟩, 1⟩

/-- Two instances of `SubscriptionRegistry<E>`: the one that `E::getRegistry()` returns,
and another instance, which any code may construct. -/
structure Instances (E W X : Type) where
  getRegistry : SubscriptionRegistry E W X
  other : SubscriptionRegistry E W X

/-- A call `other.subscribeBefore(tag, cb)` on the instance that is not the one of
`E::getRegistry()`. -/
def Instances.subscribeBeforeOnOther {E W X : Type} (i : Instances E W X) (tag : BusTag)
    (cb : PreHandler E W X) (addr : Nat) : Instances E W X × PreSubscription E W X :=
  (⟨i.getRegistry, (subscribeBefore i.other tag cb addr).1⟩,
   (subscribeBefore i.other tag cb addr).2)

/-- A call `other.subscribeAfter(tag, cb)` on the instance that is not the one of
`E::getRegistry()`. -/
def Instances.subscribeAfterOnOther {E W X : Type} (i : Instances E W X) (tag : BusTag)
    (cb : PostHandler E W X) (addr : Nat) : Instances E W X × PostSubscription E W X :=
  (⟨i.getRegistry, (subscribeAfter i.other tag cb addr).1⟩,
   (subscribeAfter i.other tag cb addr).2)

/-- A call `E::getRegistry()->subscribeBefore(tag, cb)`. -/
def Instances.subscribeBeforeOnGetRegistry {E W X : Type} (i : Instances E W X)
    (tag : BusTag) (cb : PreHandler E W X) (addr : Nat) :
    Instances E W X × PreSubscription E W X :=
  (⟨(subscribeBefore i.getRegistry tag cb addr).1, i.other⟩,
   (subscribeBefore i.getRegistry tag cb addr).2)

/-- A call `E::getRegistry()->subscribeAfter(tag, cb)`. -/
def Instances.subscribeAfterOnGetRegistry {E W X : Type} (i : Instances E W X)
    (tag : BusTag) (cb : PostHandler E W X) (addr : Nat) :
    Instances E W X × PostSubscription E W X :=
  (⟨(subscribeAfter i.getRegistry tag cb addr).1, i.other⟩,
   (subscribeAfter i.getRegistry tag cb addr).2)

/-- The destruction of a `PreSubscription`, whichever instance issued it: the destructor
works on `E::getRegistry()->preHandlers`. -/
def Instances.destroyPre {E W X : Type} (i : Instances E W X)
    (sub : PreSubscription E W X) : Instances E W X :=
  ⟨sub.destructor i.getRegistry, i.other⟩

/-- The destruction of a `PostSubscription`, whichever instance issued it: the destructor
works on `E::getRegistry()->postHandlers`. -/
def Instances.destroyPost {E W X : Type} (i : Instances E W X)
    (sub : PostSubscription E W X) : Instances E W X :=
  ⟨sub.destructor i.getRegistry, i.other⟩

/-- Two instances, the one of `E::getRegistry()` empty and the other one `incrObserve`. -/
def twoInstances : Instances Nat Nat Nat :=
  ⟨SubscriptionRegistry.empty, incrObserve⟩

/-- Two instances, the one of `E::getRegistry()` empty and the other one `failingOnly`. -/
def failingInstances : Instances Nat Nat Nat :=
  ⟨SubscriptionRegistry.empty, failingOnly⟩

/-- The slots of the live pre-subscriptions for a tag, in the order in which the
subscriptions were issued. -/
def System.liveBefore {E W X : Type} (s : System E W X) (tag : BusTag) :
    List (PreHandlerStorage E W X) :=
  (s.preSubs.filter (fun sub => sub.tag == tag)).map (fun sub => sub.cb)

/-- The slots of the live post-subscriptions for a tag, in the order in which the
subscriptions were issued. -/
def System.liveAfter {E W X : Type} (s : System E W X) (tag : BusTag) :
    List (PostHandlerStorage E W X) :=
  (s.postSubs.filter (fun sub => sub.tag == tag)).map (fun sub => sub.cb)

/-- The system after `failing` and then `incr` are subscribed before under tag `1`. -/
def failingFirst : System Nat Nat Nat :=
  (System.init.subscribeBefore 1 failing 10).subscribeBefore 1 incr 11

/-- A pre-subscription for tag `1` holding the storage object of `incr` at `11`. -/
def secondSub : PreSubscription Nat Nat Nat := ⟨⟨11, incr⟩, 1⟩

/-- A registry with the one post-handler `overwrite` under tag `1`. -/
def overwriteOnly : SubscriptionRegistry Nat Nat Nat :=
  (subscribeAfter SubscriptionRegistry.empty 1 overwrite 20).1

/-! ### The map operations -/

@[simp]
theorem HandlerMap.pushBack_same {T : Type} (m : HandlerMap T) (key : BusTag)
    (s : HandlerStorage T) : m.pushBack key s key = some (m.handlers key ++ [s]) := by
  simp [HandlerMap.pushBack, HandlerMap.subscript, HandlerMap.find, HandlerMap.assign,
    HandlerMap.handlers]

@[simp]
theorem HandlerMap.pushBack_other {T : Type} (m : HandlerMap T) (key k : BusTag)
    (s : HandlerStorage T) (hk : k ≠ key) : m.pushBack key s k = m k := by
  simp [HandlerMap.pushBack, HandlerMap.subscript, HandlerMap.find, HandlerMap.assign, hk]

theorem HandlerMap.handlers_pushBack_same {T : Type} (m : HandlerMap T) (key : BusTag)
    (s : HandlerStorage T) : (m.pushBack key s).handlers key = m.handlers key ++ [s] := by
  simp [HandlerMap.handlers]

theorem HandlerMap.handlers_pushBack_other {T : Type} (m : HandlerMap T) (key k : BusTag)
    (s : HandlerStorage T) (hk : k ≠ key) : (m.pushBack key s).handlers k = m.handlers k := by
  unfold HandlerMap.handlers
  rw [HandlerMap.pushBack_other m key k s hk]

/-! ### The loops of `executeEvent` -/

theorem forEachPre_complete {E W X : Type} (env : Environment) (bus : BusTag)
    (l : List (PreHandlerStorage E W X)) :
    ∀ d : Dispatch E W X, (forEachPre env bus l d).thrown = none →
      (forEachPre env bus l d).trace = d.trace ++ l.map Call.pre := by
  induction l with
  | nil => intro d _; simp [forEachPre]
  | cons h rest ih =>
    intro d hd
    unfold forEachPre at hd ⊢
    cases ho : (h.call env bus d.event d.world).thrown with
    | some x => simp [ho] at hd
    | none =>
      simp only [ho] at hd ⊢
      rw [ih _ hd]
      simp

theorem forEachPost_complete {E W X : Type} (env : Environment) (bus : BusTag)
    (l : List (PostHandlerStorage E W X)) :
    ∀ d : Dispatch E W X, (forEachPost env bus l d).thrown = none →
      (forEachPost env bus l d).trace = d.trace ++ l.map Call.post := by
  induction l with
  | nil => intro d _; simp [forEachPost]
  | cons h rest ih =>
    intro d hd
    unfold forEachPost at hd ⊢
    cases ho : (h.call env bus d.event d.world).thrown with
    | some x => simp [ho] at hd
    | none =>
      simp only [ho] at hd ⊢
      rw [ih _ hd]
      simp

theorem forEachPre_initial {E W X : Type} (env : Environment) (bus : BusTag)
    (l : List (PreHandlerStorage E W X)) :
    ∀ d : Dispatch E W X, ∃ k, k ≤ l.length ∧
      (forEachPre env bus l d).trace = d.trace ++ (l.take k).map Call.pre := by
  induction l with
  | nil => intro d; exact ⟨0, by simp, by simp [forEachPre]⟩
  | cons h rest ih =>
    intro d
    unfold forEachPre
    cases ho : (h.call env bus d.event d.world).thrown with
    | some x => exact ⟨1, by simp, by simp [ho]⟩
    | none =>
      obtain ⟨k, hk, hk2⟩ := ih ⟨d.trace ++ [Call.pre h], (h.call env bus d.event d.world).event,
        (h.call env bus d.event d.world).world, (h.call env bus d.event d.world).thrown⟩
      refine ⟨k + 1, by simpa using hk, ?_⟩
      simp only [ho] at hk2 ⊢
      rw [hk2]
      simp

theorem forEachPost_initial {E W X : Type} (env : Environment) (bus : BusTag)
    (l : List (PostHandlerStorage E W X)) :
    ∀ d : Dispatch E W X, ∃ k, k ≤ l.length ∧
      (forEachPost env bus l d).trace = d.trace ++ (l.take k).map Call.post := by
  induction l with
  | nil => intro d; exact ⟨0, by simp, by simp [forEachPost]⟩
  | cons h rest ih =>
    intro d
    unfold forEachPost
    cases ho : (h.call env bus d.event d.world).thrown with
    | some x => exact ⟨1, by simp, by simp [ho]⟩
    | none =>
      obtain ⟨k, hk, hk2⟩ := ih ⟨d.trace ++ [Call.post h], (h.call env bus d.event d.world).event,
        (h.call env bus d.event d.world).world, (h.call env bus d.event d.world).thrown⟩
      refine ⟨k + 1, by simpa using hk, ?_⟩
      simp only [ho] at hk2 ⊢
      rw [hk2]
      simp

theorem prePhase_eq {E W X : Type} (reg : SubscriptionRegistry E W X) (env : Environment)
    (bus : BusTag) (d : Dispatch E W X) :
    prePhase reg env bus d = forEachPre env bus (reg.preHandlers.handlers bus) d := by
  unfold prePhase HandlerMap.find HandlerMap.handlers
  cases reg.preHandlers bus <;> simp [forEachPre]

theorem postPhase_eq {E W X : Type} (reg : SubscriptionRegistry E W X) (env : Environment)
    (bus : BusTag) (d : Dispatch E W X) :
    postPhase reg env bus d = forEachPost env bus (reg.postHandlers.handlers bus) d := by
  unfold postPhase HandlerMap.find HandlerMap.handlers
  cases reg.postHandlers bus <;> simp [forEachPost]

/-- The three ways `executeEvent` ends: in the first block, in `execute`, or in or after
the last block. -/
theorem executeEvent_cases {E W X : Type} (reg : SubscriptionRegistry E W X)
    (execute : Execute E W X) (env : Environment) (bus : BusTag) (event : E) (w : W) :
    let d1 := forEachPre env bus (reg.preHandlers.handlers bus) ⟨[], event, w, none⟩
    let d2 := executePhase execute env bus d1
    let d3 := forEachPost env bus (reg.postHandlers.handlers bus) d2
    (d1.thrown ≠ none ∧ executeEvent reg execute env bus event w = d1) ∨
    (d1.thrown = none ∧ d2.thrown ≠ none ∧ executeEvent reg execute env bus event w = d2) ∨
    (d1.thrown = none ∧ d2.thrown = none ∧ executeEvent reg execute env bus event w = d3) := by
  intro d1 d2 d3
  unfold executeEvent
  rw [prePhase_eq]
  cases h1 : d1.thrown with
  | some x => left; simp only [d1] at h1; simp [h1]
  | none =>
    right
    cases h2 : d2.thrown with
    | some y => left; simp only [d1, d2] at h1 h2; simp [h1, h2]
    | none => right; simp only [d1, d2] at h1 h2; simp [h1, h2, postPhase_eq, d3, d2, d1]

theorem executePhase_trace {E W X : Type} (execute : Execute E W X) (env : Environment)
    (bus : BusTag) (d : Dispatch E W X) :
    (executePhase execute env bus d).trace = d.trace ++ [Call.execute] := rfl

theorem executeEvent_trace_initial {E W X : Type} (reg : SubscriptionRegistry E W X)
    (execute : Execute E W X) (env : Environment) (bus : BusTag) (event : E) (w : W) :
    (executeEvent reg execute env bus event w).trace <+:
      fullTrace (reg.preHandlers.handlers bus) (reg.postHandlers.handlers bus) := by
  rcases executeEvent_cases reg execute env bus event w with ⟨_, h⟩ | ⟨h1, _, h⟩ | ⟨h1, _, h⟩
  · rw [h]
    obtain ⟨k, _, hk⟩ := forEachPre_initial env bus (reg.preHandlers.handlers bus)
      ⟨[], event, w, none⟩
    rw [hk]
    refine ⟨((reg.preHandlers.handlers bus).drop k).map Call.pre ++ [Call.execute] ++
      (reg.postHandlers.handlers bus).map Call.post, ?_⟩
    simp only [fullTrace, List.nil_append, ← List.append_assoc, ← List.map_append,
      List.take_append_drop]
  · rw [h, executePhase_trace, forEachPre_complete env bus _ _ h1]
    exact ⟨(reg.postHandlers.handlers bus).map Call.post, by simp [fullTrace]⟩
  · rw [h]
    obtain ⟨k, _, hk⟩ := forEachPost_initial env bus (reg.postHandlers.handlers bus)
      (executePhase execute env bus
        (forEachPre env bus (reg.preHandlers.handlers bus) ⟨[], event, w, none⟩))
    rw [hk, executePhase_trace, forEachPre_complete env bus _ _ h1]
    refine ⟨((reg.postHandlers.handlers bus).drop k).map Call.post, ?_⟩
    simp only [fullTrace, List.nil_append, List.append_assoc, ← List.map_append,
      List.take_append_drop]

theorem executeEvent_trace_complete {E W X : Type} (reg : SubscriptionRegistry E W X)
    (execute : Execute E W X) (env : Environment) (bus : BusTag) (event : E) (w : W)
    (hok : (executeEvent reg execute env bus event w).thrown = none) :
    (executeEvent reg execute env bus event w).trace =
      fullTrace (reg.preHandlers.handlers bus) (reg.postHandlers.handlers bus) := by
  rcases executeEvent_cases reg execute env bus event w with ⟨h1, h⟩ | ⟨_, h2, h⟩ | ⟨h1, _, h⟩
  · rw [h] at hok; exact absurd hok h1
  · rw [h] at hok; exact absurd hok h2
  · rw [h] at hok ⊢
    rw [forEachPost_complete env bus _ _ hok, executePhase_trace,
      forEachPre_complete env bus _ _ h1]
    simp [fullTrace]

theorem fullTrace_count_execute {E W X : Type} (pre : List (PreHandlerStorage E W X))
    (post : List (PostHandlerStorage E W X)) :
    ((fullTrace pre post).map Call.id).count CallId.execute = 1 := by
  have hpre : ∀ l : List (PreHandlerStorage E W X),
      ((l.map Call.pre).map Call.id).count CallId.execute = 0 := by
    intro l
    induction l with
    | nil => rfl
    | cons h t ih => simpa [Call.id] using ih
  have hpost : ∀ l : List (PostHandlerStorage E W X),
      ((l.map Call.post).map Call.id).count CallId.execute = 0 := by
    intro l
    induction l with
    | nil => rfl
    | cons h t ih => simpa [Call.id] using ih
  unfold fullTrace
  rw [List.map_append, List.map_append, List.count_append, List.count_append, hpre, hpost]
  simp [Call.id]

/-! ### Registration -/

theorem registerAll_preHandlers {E W X : Type} (tag : BusTag)
    (regs : List (Registration E W X)) :
    ∀ reg : SubscriptionRegistry E W X,
      (registerAll regs reg).preHandlers.handlers tag =
        reg.preHandlers.handlers tag ++ registeredBefore tag regs := by
  induction regs with
  | nil => intro reg; simp [registerAll, registeredBefore]
  | cons r rest ih =>
    intro reg
    have hstep : registerAll (r :: rest) reg = registerAll rest (Registration.apply reg r) := rfl
    rw [hstep, ih]
    cases r with
    | before t cb addr =>
      by_cases ht : t = tag
      · subst ht
        simp [Registration.apply, subscribeBefore, registeredBefore,
          HandlerMap.handlers_pushBack_same]
      · have ht2 : tag ≠ t := fun h => ht h.symm
        simp [Registration.apply, subscribeBefore, registeredBefore, ht,
          HandlerMap.handlers_pushBack_other _ _ _ _ ht2]
    | after t cb addr =>
      simp [Registration.apply, subscribeAfter, registeredBefore]

theorem registerAll_postHandlers {E W X : Type} (tag : BusTag)
    (regs : List (Registration E W X)) :
    ∀ reg : SubscriptionRegistry E W X,
      (registerAll regs reg).postHandlers.handlers tag =
        reg.postHandlers.handlers tag ++ registeredAfter tag regs := by
  induction regs with
  | nil => intro reg; simp [registerAll, registeredAfter]
  | cons r rest ih =>
    intro reg
    have hstep : registerAll (r :: rest) reg = registerAll rest (Registration.apply reg r) := rfl
    rw [hstep, ih]
    cases r with
    | before t cb addr =>
      simp [Registration.apply, subscribeBefore, registeredAfter]
    | after t cb addr =>
      by_cases ht : t = tag
      · subst ht
        simp [Registration.apply, subscribeAfter, registeredAfter,
          HandlerMap.handlers_pushBack_same]
      · have ht2 : tag ≠ t := fun h => ht h.symm
        simp [Registration.apply, subscribeAfter, registeredAfter, ht,
          HandlerMap.handlers_pushBack_other _ _ _ _ ht2]

theorem forEachPre_cons_throw {E W X : Type} (env : Environment) (bus : BusTag)
    (h : PreHandlerStorage E W X) (rest : List (PreHandlerStorage E W X)) (d : Dispatch E W X)
    (x : X) (hx : (h.call env bus d.event d.world).thrown = some x) :
    forEachPre env bus (h :: rest) d =
      ⟨d.trace ++ [Call.pre h], (h.call env bus d.event d.world).event,
        (h.call env bus d.event d.world).world, some x⟩ := by
  unfold forEachPre
  simp [hx]

theorem forEachPost_cons_throw {E W X : Type} (env : Environment) (bus : BusTag)
    (h : PostHandlerStorage E W X) (rest : List (PostHandlerStorage E W X)) (d : Dispatch E W X)
    (x : X) (hx : (h.call env bus d.event d.world).thrown = some x) :
    forEachPost env bus (h :: rest) d =
      ⟨d.trace ++ [Call.post h], (h.call env bus d.event d.world).event,
        (h.call env bus d.event d.world).world, some x⟩ := by
  unfold forEachPost
  simp [hx]

theorem forEachPre_cons_ok {E W X : Type} (env : Environment) (bus : BusTag)
    (h : PreHandlerStorage E W X) (rest : List (PreHandlerStorage E W X)) (d : Dispatch E W X)
    (hx : (h.call env bus d.event d.world).thrown = none) :
    forEachPre env bus (h :: rest) d =
      forEachPre env bus rest ⟨d.trace ++ [Call.pre h], (h.call env bus d.event d.world).event,
        (h.call env bus d.event d.world).world, none⟩ := by
  rw [forEachPre]
  simp [hx]

theorem forEachPost_cons_ok {E W X : Type} (env : Environment) (bus : BusTag)
    (h : PostHandlerStorage E W X) (rest : List (PostHandlerStorage E W X)) (d : Dispatch E W X)
    (hx : (h.call env bus d.event d.world).thrown = none) :
    forEachPost env bus (h :: rest) d =
      forEachPost env bus rest ⟨d.trace ++ [Call.post h], (h.call env bus d.event d.world).event,
        (h.call env bus d.event d.world).world, none⟩ := by
  rw [forEachPost]
  simp [hx]

theorem forEachPre_append {E W X : Type} (env : Environment) (bus : BusTag)
    (l1 l2 : List (PreHandlerStorage E W X)) :
    ∀ d : Dispatch E W X, (forEachPre env bus l1 d).thrown = none →
      forEachPre env bus (l1 ++ l2) d = forEachPre env bus l2 (forEachPre env bus l1 d) := by
  induction l1 with
  | nil => intro d _; rfl
  | cons h rest ih =>
    intro d hd
    rw [List.cons_append]
    cases ho : (h.call env bus d.event d.world).thrown with
    | some x => rw [forEachPre_cons_throw env bus h rest d x ho] at hd; simp at hd
    | none =>
      rw [forEachPre_cons_ok env bus h rest d ho] at hd ⊢
      rw [forEachPre_cons_ok env bus h (rest ++ l2) d ho]
      exact ih _ hd

theorem forEachPost_append {E W X : Type} (env : Environment) (bus : BusTag)
    (l1 l2 : List (PostHandlerStorage E W X)) :
    ∀ d : Dispatch E W X, (forEachPost env bus l1 d).thrown = none →
      forEachPost env bus (l1 ++ l2) d = forEachPost env bus l2 (forEachPost env bus l1 d) := by
  induction l1 with
  | nil => intro d _; rfl
  | cons h rest ih =>
    intro d hd
    rw [List.cons_append]
    cases ho : (h.call env bus d.event d.world).thrown with
    | some x => rw [forEachPost_cons_throw env bus h rest d x ho] at hd; simp at hd
    | none =>
      rw [forEachPost_cons_ok env bus h rest d ho] at hd ⊢
      rw [forEachPost_cons_ok env bus h (rest ++ l2) d ho]
      exact ih _ hd

/-- The first block of `executeEvent` throws: the function ends there. -/
theorem executeEvent_of_pre_throw {E W X : Type} (reg : SubscriptionRegistry E W X)
    (execute : Execute E W X) (env : Environment) (bus : BusTag) (event : E) (w : W) (x : X)
    (h1 : (forEachPre env bus (reg.preHandlers.handlers bus) ⟨[], event, w, none⟩).thrown
      = some x) :
    executeEvent reg execute env bus event w =
      forEachPre env bus (reg.preHandlers.handlers bus) ⟨[], event, w, none⟩ := by
  unfold executeEvent
  rw [prePhase_eq]
  simp [h1]

/-- The first block of `executeEvent` ends without an exception: `execute` is called, and
when it does not throw the last block runs. -/
theorem executeEvent_of_pre_ok {E W X : Type} (reg : SubscriptionRegistry E W X)
    (execute : Execute E W X) (env : Environment) (bus : BusTag) (event : E) (w : W)
    (h1 : (forEachPre env bus (reg.preHandlers.handlers bus) ⟨[], event, w, none⟩).thrown
      = none) :
    executeEvent reg execute env bus event w =
      match (executePhase execute env bus
        (forEachPre env bus (reg.preHandlers.handlers bus) ⟨[], event, w, none⟩)).thrown with
      | some _ => executePhase execute env bus
          (forEachPre env bus (reg.preHandlers.handlers bus) ⟨[], event, w, none⟩)
      | none => forEachPost env bus (reg.postHandlers.handlers bus)
          (executePhase execute env bus
            (forEachPre env bus (reg.preHandlers.handlers bus) ⟨[], event, w, none⟩)) := by
  unfold executeEvent
  rw [prePhase_eq]
  simp only [h1, postPhase_eq]

/-! ### Removal from a vector and the destructors -/

theorem minusEq_of_absent {T : Type} (l : List (HandlerStorage T)) (s : HandlerStorage T)
    (h : ∀ x ∈ l, x.addr ≠ s.addr) : minusEq l s = l := by
  induction l with
  | nil => rfl
  | cons x rest ih =>
    have hx : x.addr ≠ s.addr := h x (List.mem_cons_self _ _)
    have hrest : ∀ y ∈ rest, y.addr ≠ s.addr := fun y hy => h y (List.mem_cons_of_mem _ hy)
    simp [minusEq, hx, ih hrest]

theorem minusEq_append_cons {T : Type} (l1 l2 : List (HandlerStorage T))
    (s item : HandlerStorage T) (hs : s.addr = item.addr)
    (h : ∀ x ∈ l1, x.addr ≠ item.addr) : minusEq (l1 ++ s :: l2) item = l1 ++ l2 := by
  induction l1 with
  | nil => simp [minusEq, hs]
  | cons x rest ih =>
    have hx : x.addr ≠ item.addr := h x (List.mem_cons_self _ _)
    have hrest : ∀ y ∈ rest, y.addr ≠ item.addr := fun y hy => h y (List.mem_cons_of_mem _ hy)
    simp [minusEq, hx, ih hrest]

theorem minusEq_sublist {T : Type} (l : List (HandlerStorage T)) (s : HandlerStorage T) :
    (minusEq l s).Sublist l := by
  induction l with
  | nil => exact List.Sublist.refl _
  | cons x rest ih =>
    unfold minusEq
    split
    · exact List.sublist_cons_self _ _
    · exact ih.cons₂ _

theorem mem_minusEq_of_ne {T : Type} (l : List (HandlerStorage T)) (s x : HandlerStorage T)
    (hx : x ∈ l) (hne : x.addr ≠ s.addr) : x ∈ minusEq l s := by
  induction l with
  | nil => cases hx
  | cons y rest ih =>
    unfold minusEq
    rcases List.mem_cons.mp hx with rfl | hmem
    · simp [hne]
    · split
      · exact hmem
      · exact List.mem_cons_of_mem _ (ih hmem)

theorem ne_of_mem_minusEq {T : Type} (l : List (HandlerStorage T)) (s x : HandlerStorage T)
    (hnd : (l.map HandlerStorage.addr).Nodup) (hs : s.addr ∈ l.map HandlerStorage.addr)
    (hx : x ∈ minusEq l s) : x.addr ≠ s.addr := by
  induction l with
  | nil => simp at hs
  | cons y rest ih =>
    rw [List.map_cons, List.nodup_cons] at hnd
    unfold minusEq at hx
    by_cases hy : y.addr = s.addr
    · simp only [hy, if_true] at hx
      intro hxs
      apply hnd.1
      rw [hy, ← hxs]
      exact List.mem_map_of_mem _ hx
    · simp only [hy, if_false] at hx
      rcases List.mem_cons.mp hx with rfl | hmem
      · exact hy
      · apply ih hnd.2 _ hmem
        rcases List.mem_cons.mp hs with h | h
        · exact absurd h.symm hy
        · exact h

theorem minusEq_split {T : Type} (l : List (HandlerStorage T)) (s : HandlerStorage T)
    (hnd : (l.map HandlerStorage.addr).Nodup) (hs : s ∈ l) :
    ∃ l1 l2, l = l1 ++ s :: l2 ∧ minusEq l s = l1 ++ l2 ∧ ∀ x ∈ l1 ++ l2, x.addr ≠ s.addr := by
  obtain ⟨l1, l2, rfl⟩ := List.append_of_mem hs
  have hfront : ∀ x ∈ l1, x.addr ≠ s.addr := by
    intro x hx hxs
    rw [List.map_append, List.map_cons] at hnd
    have hdis := (List.nodup_append.mp hnd).2.2
    exact hdis (List.mem_map_of_mem _ hx) (by rw [hxs]; exact List.mem_cons_self _ _)
  have hrm := minusEq_append_cons l1 l2 s s rfl hfront
  refine ⟨l1, l2, rfl, hrm, ?_⟩
  intro x hx
  rw [← hrm] at hx
  exact ne_of_mem_minusEq _ s x hnd (List.mem_map_of_mem _ hs) hx

theorem minusEq_idempotent {T : Type} (l : List (HandlerStorage T)) (s : HandlerStorage T)
    (hcount : (l.map HandlerStorage.addr).count s.addr ≤ 1) :
    minusEq (minusEq l s) s = minusEq l s := by
  induction l with
  | nil => rfl
  | cons x rest ih =>
    by_cases hx : x.addr = s.addr
    · have hrest : ∀ y ∈ rest, y.addr ≠ s.addr := by
        intro y hy hys
        have hpos : 0 < (rest.map HandlerStorage.addr).count s.addr :=
          List.count_pos_iff.mpr (by rw [← hys]; exact List.mem_map_of_mem _ hy)
        rw [List.map_cons, hx, List.count_cons_self] at hcount
        omega
      simp [minusEq, hx, minusEq_of_absent rest s hrest]
    · have hc : (rest.map HandlerStorage.addr).count s.addr ≤ 1 := by
        rw [List.map_cons, List.count_cons_of_ne (fun h => hx h.symm)] at hcount
        exact hcount
      simp [minusEq, hx, ih hc]

theorem SubscriptionRegistry.eq_of_maps {E W X : Type} (r1 r2 : SubscriptionRegistry E W X)
    (hpre : ∀ k, r1.preHandlers k = r2.preHandlers k)
    (hpost : ∀ k, r1.postHandlers k = r2.postHandlers k) : r1 = r2 := by
  cases r1
  cases r2
  simp only [SubscriptionRegistry.mk.injEq]
  exact ⟨funext hpre, funext hpost⟩

theorem preDestructor_of_none {E W X : Type} (sub : PreSubscription E W X)
    (reg : SubscriptionRegistry E W X) (h : reg.preHandlers sub.tag = none) :
    sub.destructor reg = reg := by
  simp [PreSubscription.destructor, HandlerMap.find, h]

theorem preDestructor_of_some {E W X : Type} (sub : PreSubscription E W X)
    (reg : SubscriptionRegistry E W X) (v : List (PreHandlerStorage E W X))
    (h : reg.preHandlers sub.tag = some v) :
    sub.destructor reg =
      ⟨reg.preHandlers.assign sub.tag (minusEq v sub.cb), reg.postHandlers⟩ := by
  simp [PreSubscription.destructor, HandlerMap.find, h]

theorem postDestructor_of_none {E W X : Type} (sub : PostSubscription E W X)
    (reg : SubscriptionRegistry E W X) (h : reg.postHandlers sub.tag = none) :
    sub.destructor reg = reg := by
  simp [PostSubscription.destructor, HandlerMap.find, h]

theorem postDestructor_of_some {E W X : Type} (sub : PostSubscription E W X)
    (reg : SubscriptionRegistry E W X) (v : List (PostHandlerStorage E W X))
    (h : reg.postHandlers sub.tag = some v) :
    sub.destructor reg =
      ⟨reg.preHandlers, reg.postHandlers.assign sub.tag (minusEq v sub.cb)⟩ := by
  simp [PostSubscription.destructor, HandlerMap.find, h]

theorem preDestructor_preHandlers {E W X : Type} (sub : PreSubscription E W X)
    (reg : SubscriptionRegistry E W X) (k : BusTag) :
    (sub.destructor reg).preHandlers k =
      if k = sub.tag then (reg.preHandlers sub.tag).map (fun v => minusEq v sub.cb)
      else reg.preHandlers k := by
  cases h : reg.preHandlers sub.tag with
  | none =>
    rw [preDestructor_of_none sub reg h]
    by_cases hk : k = sub.tag
    · simp [hk, h]
    · simp [hk]
  | some v =>
    rw [preDestructor_of_some sub reg v h]
    simp [HandlerMap.assign]

theorem preDestructor_postHandlers {E W X : Type} (sub : PreSubscription E W X)
    (reg : SubscriptionRegistry E W X) : (sub.destructor reg).postHandlers = reg.postHandlers := by
  cases h : reg.preHandlers sub.tag with
  | none => rw [preDestructor_of_none sub reg h]
  | some v => rw [preDestructor_of_some sub reg v h]

theorem postDestructor_postHandlers {E W X : Type} (sub : PostSubscription E W X)
    (reg : SubscriptionRegistry E W X) (k : BusTag) :
    (sub.destructor reg).postHandlers k =
      if k = sub.tag then (reg.postHandlers sub.tag).map (fun v => minusEq v sub.cb)
      else reg.postHandlers k := by
  cases h : reg.postHandlers sub.tag with
  | none =>
    rw [postDestructor_of_none sub reg h]
    by_cases hk : k = sub.tag
    · simp [hk, h]
    · simp [hk]
  | some v =>
    rw [postDestructor_of_some sub reg v h]
    simp [HandlerMap.assign]

theorem postDestructor_preHandlers {E W X : Type} (sub : PostSubscription E W X)
    (reg : SubscriptionRegistry E W X) : (sub.destructor reg).preHandlers = reg.preHandlers := by
  cases h : reg.postHandlers sub.tag with
  | none => rw [postDestructor_of_none sub reg h]
  | some v => rw [postDestructor_of_some sub reg v h]

theorem preDestructor_handlers {E W X : Type} (sub : PreSubscription E W X)
    (reg : SubscriptionRegistry E W X) (k : BusTag) :
    (sub.destructor reg).preHandlers.handlers k =
      if k = sub.tag then minusEq (reg.preHandlers.handlers sub.tag) sub.cb
      else reg.preHandlers.handlers k := by
  unfold HandlerMap.handlers
  rw [preDestructor_preHandlers]
  by_cases hk : k = sub.tag
  · simp only [hk, if_true]
    cases reg.preHandlers sub.tag <;> simp [minusEq]
  · simp [hk]

theorem postDestructor_handlers {E W X : Type} (sub : PostSubscription E W X)
    (reg : SubscriptionRegistry E W X) (k : BusTag) :
    (sub.destructor reg).postHandlers.handlers k =
      if k = sub.tag then minusEq (reg.postHandlers.handlers sub.tag) sub.cb
      else reg.postHandlers.handlers k := by
  unfold HandlerMap.handlers
  rw [postDestructor_postHandlers]
  by_cases hk : k = sub.tag
  · simp only [hk, if_true]
    cases reg.postHandlers sub.tag <;> simp [minusEq]
  · simp [hk]

/-! ### Consistency of the reachable systems -/

theorem HandlerMap.handlers_pushBack {T : Type} (m : HandlerMap T) (key k : BusTag)
    (s : HandlerStorage T) :
    (m.pushBack key s).handlers k =
      if k = key then m.handlers key ++ [s] else m.handlers k := by
  by_cases hk : k = key
  · subst hk
    simp [HandlerMap.handlers_pushBack_same]
  · simp [hk, HandlerMap.handlers_pushBack_other _ _ _ _ hk]

theorem preConsistent_init {E W X : Type} : (System.init : System E W X).PreConsistent := by
  refine ⟨List.nodup_nil, ?_, ?_, ?_⟩
  · intro sub hsub
    cases hsub
  · intro t
    exact List.nodup_nil
  · intro t h hh
    cases hh

theorem preConsistent_subscribeBefore {E W X : Type} (s : System E W X) (tag : BusTag)
    (cb : PreHandler E W X) (addr : Nat) (hs : s.PreConsistent) (hfresh : s.fresh addr) :
    (s.subscribeBefore tag cb addr).PreConsistent := by
  obtain ⟨h1, h2, h3, h4⟩ := hs
  have hold : ∀ x ∈ s.registry.preHandlers.handlers tag, x.addr ≠ addr := by
    intro x hx
    exact hfresh.1 _ (h4 tag x hx)
  have hreg : ∀ k, (s.subscribeBefore tag cb addr).registry.preHandlers.handlers k =
      if k = tag then s.registry.preHandlers.handlers tag ++ [⟨addr, cb⟩]
      else s.registry.preHandlers.handlers k := by
    intro k
    exact HandlerMap.handlers_pushBack _ _ _ _
  have hsubs : (s.subscribeBefore tag cb addr).preSubs =
      s.preSubs ++ [{ cb := ⟨addr, cb⟩, tag := tag }] := rfl
  refine ⟨?_, ?_, ?_, ?_⟩
  · rw [hsubs, List.map_append]
    apply List.nodup_append.mpr
    refine ⟨h1, List.nodup_singleton _, ?_⟩
    intro a ha hb
    obtain ⟨sub, hsub, rfl⟩ := List.mem_map.mp ha
    simp only [List.map_cons, List.map_nil, List.mem_singleton] at hb
    exact hfresh.1 sub hsub hb
  · intro sub hsub
    rw [hsubs] at hsub
    rw [hreg]
    rcases List.mem_append.mp hsub with hmem | hmem
    · by_cases ht : sub.tag = tag
      · simp only [ht, if_true]
        exact List.mem_append_left _ (ht ▸ h2 sub hmem)
      · simp only [ht, if_false]
        exact h2 sub hmem
    · rw [List.mem_singleton] at hmem
      subst hmem
      simp
  · intro t
    rw [hreg]
    by_cases ht : t = tag
    · simp only [ht, if_true, List.map_append]
      apply List.nodup_append.mpr
      refine ⟨h3 tag, List.nodup_singleton _, ?_⟩
      intro a ha hb
      obtain ⟨x, hx, rfl⟩ := List.mem_map.mp ha
      simp only [List.map_cons, List.map_nil, List.mem_singleton] at hb
      exact hold x hx hb
    · simp only [ht, if_false]
      exact h3 t
  · intro t h hh
    rw [hreg] at hh
    rw [hsubs]
    by_cases ht : t = tag
    · simp only [ht, if_true] at hh
      rcases List.mem_append.mp hh with hmem | hmem
      · exact List.mem_append_left _ (ht ▸ h4 tag h hmem)
      · rw [List.mem_singleton] at hmem
        subst hmem
        subst ht
        exact List.mem_append_right _ (List.mem_singleton_self _)
    · simp only [ht, if_false] at hh
      exact List.mem_append_left _ (h4 t h hh)

theorem preConsistent_subscribeAfter {E W X : Type} (s : System E W X) (tag : BusTag)
    (cb : PostHandler E W X) (addr : Nat) (hs : s.PreConsistent) :
    (s.subscribeAfter tag cb addr).PreConsistent := hs

theorem preConsistent_disposePost {E W X : Type} (s : System E W X)
    (sub : PostSubscription E W X) (hs : s.PreConsistent) :
    (s.disposePost sub).PreConsistent := by
  obtain ⟨h1, h2, h3, h4⟩ := hs
  have hreg : (s.disposePost sub).registry.preHandlers = s.registry.preHandlers :=
    postDestructor_preHandlers sub s.registry
  refine ⟨h1, ?_, ?_, ?_⟩
  · intro x hx
    rw [hreg]
    exact h2 x hx
  · intro t
    rw [hreg]
    exact h3 t
  · intro t h hh
    rw [hreg] at hh
    exact h4 t h hh

theorem preConsistent_disposePre {E W X : Type} (s : System E W X)
    (sub : PreSubscription E W X) (hs : s.PreConsistent) (hsub : sub ∈ s.preSubs) :
    (s.disposePre sub).PreConsistent := by
  obtain ⟨h1, h2, h3, h4⟩ := hs
  have hreg : ∀ k, (s.disposePre sub).registry.preHandlers.handlers k =
      if k = sub.tag then minusEq (s.registry.preHandlers.handlers sub.tag) sub.cb
      else s.registry.preHandlers.handlers k := by
    intro k
    exact preDestructor_handlers sub s.registry k
  have hsubs : (s.disposePre sub).preSubs =
      s.preSubs.filter (fun x => x.cb.addr != sub.cb.addr) := rfl
  have hstored : sub.cb.addr ∈ (s.registry.preHandlers.handlers sub.tag).map HandlerStorage.addr :=
    List.mem_map_of_mem _ (h2 sub hsub)
  refine ⟨?_, ?_, ?_, ?_⟩
  · rw [hsubs]
    exact h1.sublist ((List.filter_sublist _).map _)
  · intro x hx
    rw [hsubs, List.mem_filter] at hx
    have hne : x.cb.addr ≠ sub.cb.addr := by simpa using hx.2
    rw [hreg]
    by_cases ht : x.tag = sub.tag
    · simp only [ht, if_true]
      exact mem_minusEq_of_ne _ _ _ (ht ▸ h2 x hx.1) hne
    · simp only [ht, if_false]
      exact h2 x hx.1
  · intro t
    rw [hreg]
    by_cases ht : t = sub.tag
    · simp only [ht, if_true]
      exact (h3 sub.tag).sublist ((minusEq_sublist _ _).map _)
    · simp only [ht, if_false]
      exact h3 t
  · intro t h hh
    rw [hreg] at hh
    rw [hsubs, List.mem_filter]
    by_cases ht : t = sub.tag
    · simp only [ht, if_true] at hh
      subst ht
      refine ⟨h4 _ h ((minusEq_sublist _ _).subset hh), ?_⟩
      have hne := ne_of_mem_minusEq _ sub.cb h (h3 sub.tag) hstored hh
      simpa using hne
    · simp only [ht, if_false] at hh
      refine ⟨h4 t h hh, ?_⟩
      have hne : h.addr ≠ sub.cb.addr := by
        intro heq
        have hinj := List.inj_on_of_nodup_map h1 (h4 t h hh) hsub heq
        exact ht (congrArg PreSubscription.tag hinj)
      simpa using hne

theorem postConsistent_init {E W X : Type} : (System.init : System E W X).PostConsistent := by
  refine ⟨List.nodup_nil, ?_, ?_, ?_⟩
  · intro sub hsub
    cases hsub
  · intro t
    exact List.nodup_nil
  · intro t h hh
    cases hh

theorem postConsistent_subscribeAfter {E W X : Type} (s : System E W X) (tag : BusTag)
    (cb : PostHandler E W X) (addr : Nat) (hs : s.PostConsistent) (hfresh : s.fresh addr) :
    (s.subscribeAfter tag cb addr).PostConsistent := by
  obtain ⟨h1, h2, h3, h4⟩ := hs
  have hold : ∀ x ∈ s.registry.postHandlers.handlers tag, x.addr ≠ addr := by
    intro x hx
    exact hfresh.2 _ (h4 tag x hx)
  have hreg : ∀ k, (s.subscribeAfter tag cb addr).registry.postHandlers.handlers k =
      if k = tag then s.registry.postHandlers.handlers tag ++ [⟨addr, cb⟩]
      else s.registry.postHandlers.handlers k := by
    intro k
    exact HandlerMap.handlers_pushBack _ _ _ _
  have hsubs : (s.subscribeAfter tag cb addr).postSubs =
      s.postSubs ++ [{ cb := ⟨addr, cb⟩, tag := tag }] := rfl
  refine ⟨?_, ?_, ?_, ?_⟩
  · rw [hsubs, List.map_append]
    apply List.nodup_append.mpr
    refine ⟨h1, List.nodup_singleton _, ?_⟩
    intro a ha hb
    obtain ⟨sub, hsub, rfl⟩ := List.mem_map.mp ha
    simp only [List.map_cons, List.map_nil, List.mem_singleton] at hb
    exact hfresh.2 sub hsub hb
  · intro sub hsub
    rw [hsubs] at hsub
    rw [hreg]
    rcases List.mem_append.mp hsub with hmem | hmem
    · by_cases ht : sub.tag = tag
      · simp only [ht, if_true]
        exact List.mem_append_left _ (ht ▸ h2 sub hmem)
      · simp only [ht, if_false]
        exact h2 sub hmem
    · rw [List.mem_singleton] at hmem
      subst hmem
      simp
  · intro t
    rw [hreg]
    by_cases ht : t = tag
    · simp only [ht, if_true, List.map_append]
      apply List.nodup_append.mpr
      refine ⟨h3 tag, List.nodup_singleton _, ?_⟩
      intro a ha hb
      obtain ⟨x, hx, rfl⟩ := List.mem_map.mp ha
      simp only [List.map_cons, List.map_nil, List.mem_singleton] at hb
      exact hold x hx hb
    · simp only [ht, if_false]
      exact h3 t
  · intro t h hh
    rw [hreg] at hh
    rw [hsubs]
    by_cases ht : t = tag
    · simp only [ht, if_true] at hh
      rcases List.mem_append.mp hh with hmem | hmem
      · exact List.mem_append_left _ (ht ▸ h4 tag h hmem)
      · rw [List.mem_singleton] at hmem
        subst hmem
        subst ht
        exact List.mem_append_right _ (List.mem_singleton_self _)
    · simp only [ht, if_false] at hh
      exact List.mem_append_left _ (h4 t h hh)

theorem postConsistent_subscribeBefore {E W X : Type} (s : System E W X) (tag : BusTag)
    (cb : PreHandler E W X) (addr : Nat) (hs : s.PostConsistent) :
    (s.subscribeBefore tag cb addr).PostConsistent := hs

theorem postConsistent_disposePre {E W X : Type} (s : System E W X)
    (sub : PreSubscription E W X) (hs : s.PostConsistent) :
    (s.disposePre sub).PostConsistent := by
  obtain ⟨h1, h2, h3, h4⟩ := hs
  have hreg : (s.disposePre sub).registry.postHandlers = s.registry.postHandlers :=
    preDestructor_postHandlers sub s.registry
  refine ⟨h1, ?_, ?_, ?_⟩
  · intro x hx
    rw [hreg]
    exact h2 x hx
  · intro t
    rw [hreg]
    exact h3 t
  · intro t h hh
    rw [hreg] at hh
    exact h4 t h hh

theorem postConsistent_disposePost {E W X : Type} (s : System E W X)
    (sub : PostSubscription E W X) (hs : s.PostConsistent) (hsub : sub ∈ s.postSubs) :
    (s.disposePost sub).PostConsistent := by
  obtain ⟨h1, h2, h3, h4⟩ := hs
  have hreg : ∀ k, (s.disposePost sub).registry.postHandlers.handlers k =
      if k = sub.tag then minusEq (s.registry.postHandlers.handlers sub.tag) sub.cb
      else s.registry.postHandlers.handlers k := by
    intro k
    exact postDestructor_handlers sub s.registry k
  have hsubs : (s.disposePost sub).postSubs =
      s.postSubs.filter (fun x => x.cb.addr != sub.cb.addr) := rfl
  have hstored : sub.cb.addr ∈ (s.registry.postHandlers.handlers sub.tag).map HandlerStorage.addr :=
    List.mem_map_of_mem _ (h2 sub hsub)
  refine ⟨?_, ?_, ?_, ?_⟩
  · rw [hsubs]
    exact h1.sublist ((List.filter_sublist _).map _)
  · intro x hx
    rw [hsubs, List.mem_filter] at hx
    have hne : x.cb.addr ≠ sub.cb.addr := by simpa using hx.2
    rw [hreg]
    by_cases ht : x.tag = sub.tag
    · simp only [ht, if_true]
      exact mem_minusEq_of_ne _ _ _ (ht ▸ h2 x hx.1) hne
    · simp only [ht, if_false]
      exact h2 x hx.1
  · intro t
    rw [hreg]
    by_cases ht : t = sub.tag
    · simp only [ht, if_true]
      exact (h3 sub.tag).sublist ((minusEq_sublist _ _).map _)
    · simp only [ht, if_false]
      exact h3 t
  · intro t h hh
    rw [hreg] at hh
    rw [hsubs, List.mem_filter]
    by_cases ht : t = sub.tag
    · simp only [ht, if_true] at hh
      subst ht
      refine ⟨h4 _ h ((minusEq_sublist _ _).subset hh), ?_⟩
      have hne := ne_of_mem_minusEq _ sub.cb h (h3 sub.tag) hstored hh
      simpa using hne
    · simp only [ht, if_false] at hh
      refine ⟨h4 t h hh, ?_⟩
      have hne : h.addr ≠ sub.cb.addr := by
        intro heq
        have hinj := List.inj_on_of_nodup_map h1 (h4 t h hh) hsub heq
        exact ht (congrArg PostSubscription.tag hinj)
      simpa using hne

theorem reachable_consistent {E W X : Type} (s : System E W X) (hs : Reachable s) :
    s.PreConsistent ∧ s.PostConsistent := by
  induction hs with
  | init => exact ⟨preConsistent_init, postConsistent_init⟩
  | subscribeBefore s tag cb addr _ hfresh ih =>
    exact ⟨preConsistent_subscribeBefore s tag cb addr ih.1 hfresh,
      postConsistent_subscribeBefore s tag cb addr ih.2⟩
  | subscribeAfter s tag cb addr _ hfresh ih =>
    exact ⟨preConsistent_subscribeAfter s tag cb addr ih.1,
      postConsistent_subscribeAfter s tag cb addr ih.2 hfresh⟩
  | disposePre s sub _ hsub ih =>
    exact ⟨preConsistent_disposePre s sub ih.1 hsub, postConsistent_disposePre s sub ih.2⟩
  | disposePost s sub _ hsub ih =>
    exact ⟨preConsistent_disposePost s sub ih.1, postConsistent_disposePost s sub ih.2 hsub⟩

/-! ### The stored slots are those of the live subscriptions -/

theorem minusEq_eq_filter {T : Type} (l : List (HandlerStorage T)) (c : HandlerStorage T)
    (hnd : (l.map HandlerStorage.addr).Nodup) :
    minusEq l c = l.filter (fun x => x.addr != c.addr) := by
  induction l with
  | nil => rfl
  | cons x rest ih =>
    rw [List.map_cons, List.nodup_cons] at hnd
    by_cases hx : x.addr = c.addr
    · have hrest : ∀ y ∈ rest, y.addr ≠ c.addr := by
        intro y hy hyc
        apply hnd.1
        rw [hx, ← hyc]
        exact List.mem_map_of_mem _ hy
      have hfil : rest.filter (fun y => y.addr != c.addr) = rest := by
        apply List.filter_eq_self.mpr
        intro y hy
        simpa using hrest y hy
      simp [minusEq, hx, hfil]
    · simp [minusEq, hx, ih hnd.2]

theorem live_pre_init {E W X : Type} (t : BusTag) :
    (System.init : System E W X).registry.preHandlers.handlers t =
      (System.init : System E W X).liveBefore t := rfl

theorem live_pre_subscribeBefore {E W X : Type} (s : System E W X) (tag : BusTag)
    (cb : PreHandler E W X) (addr : Nat)
    (ih : ∀ t, s.registry.preHandlers.handlers t = s.liveBefore t) (t : BusTag) :
    (s.subscribeBefore tag cb addr).registry.preHandlers.handlers t =
      (s.subscribeBefore tag cb addr).liveBefore t := by
  have hreg : (s.subscribeBefore tag cb addr).registry.preHandlers.handlers t =
      if t = tag then s.registry.preHandlers.handlers tag ++ [⟨addr, cb⟩]
      else s.registry.preHandlers.handlers t := HandlerMap.handlers_pushBack _ _ _ _
  have hsubs : (s.subscribeBefore tag cb addr).preSubs =
      s.preSubs ++ [{ cb := ⟨addr, cb⟩, tag := tag }] := rfl
  rw [hreg]
  unfold System.liveBefore
  rw [hsubs, List.filter_append, List.map_append]
  by_cases ht : t = tag
  · subst ht
    simp [ih t, System.liveBefore]
  · have ht2 : ¬ tag = t := fun e => ht e.symm
    simp [ht, ht2, ih t, System.liveBefore]

theorem live_pre_subscribeAfter {E W X : Type} (s : System E W X) (tag : BusTag)
    (cb : PostHandler E W X) (addr : Nat)
    (ih : ∀ t, s.registry.preHandlers.handlers t = s.liveBefore t) (t : BusTag) :
    (s.subscribeAfter tag cb addr).registry.preHandlers.handlers t =
      (s.subscribeAfter tag cb addr).liveBefore t := ih t

theorem live_pre_disposePost {E W X : Type} (s : System E W X)
    (sub : PostSubscription E W X)
    (ih : ∀ t, s.registry.preHandlers.handlers t = s.liveBefore t) (t : BusTag) :
    (s.disposePost sub).registry.preHandlers.handlers t = (s.disposePost sub).liveBefore t := by
  have hreg : (s.disposePost sub).registry.preHandlers = s.registry.preHandlers :=
    postDestructor_preHandlers sub s.registry
  rw [hreg]
  exact ih t

theorem live_pre_disposePre {E W X : Type} (s : System E W X)
    (sub : PreSubscription E W X) (hs : s.PreConsistent) (hsub : sub ∈ s.preSubs)
    (ih : ∀ t, s.registry.preHandlers.handlers t = s.liveBefore t) (t : BusTag) :
    (s.disposePre sub).registry.preHandlers.handlers t = (s.disposePre sub).liveBefore t := by
  obtain ⟨h1, _, h3, _⟩ := hs
  have hreg : (s.disposePre sub).registry.preHandlers.handlers t =
      if t = sub.tag then minusEq (s.registry.preHandlers.handlers sub.tag) sub.cb
      else s.registry.preHandlers.handlers t := preDestructor_handlers sub s.registry t
  have hsubs : (s.disposePre sub).preSubs =
      s.preSubs.filter (fun x => x.cb.addr != sub.cb.addr) := rfl
  rw [hreg]
  unfold System.liveBefore
  rw [hsubs, List.filter_filter]
  by_cases ht : t = sub.tag
  · simp only [ht, if_true]
    rw [minusEq_eq_filter _ _ (h3 sub.tag), ih sub.tag]
    unfold System.liveBefore
    rw [List.filter_map, List.filter_filter]
    congr 1
    apply List.filter_congr
    intro x _
    simp [Function.comp, Bool.and_comm]
  · simp only [ht, if_false]
    rw [ih t]
    unfold System.liveBefore
    congr 1
    apply List.filter_congr
    intro x hx
    by_cases hxt : x.tag = t
    · have hne : x.cb.addr ≠ sub.cb.addr := by
        intro heq
        have hinj := List.inj_on_of_nodup_map h1 hx hsub heq
        exact ht (hxt ▸ congrArg PreSubscription.tag hinj)
      simp [hxt, hne]
    · simp [hxt]

theorem live_post_init {E W X : Type} (t : BusTag) :
    (System.init : System E W X).registry.postHandlers.handlers t =
      (System.init : System E W X).liveAfter t := rfl

theorem live_post_subscribeAfter {E W X : Type} (s : System E W X) (tag : BusTag)
    (cb : PostHandler E W X) (addr : Nat)
    (ih : ∀ t, s.registry.postHandlers.handlers t = s.liveAfter t) (t : BusTag) :
    (s.subscribeAfter tag cb addr).registry.postHandlers.handlers t =
      (s.subscribeAfter tag cb addr).liveAfter t := by
  have hreg : (s.subscribeAfter tag cb addr).registry.postHandlers.handlers t =
      if t = tag then s.registry.postHandlers.handlers tag ++ [⟨addr, cb⟩]
      else s.registry.postHandlers.handlers t := HandlerMap.handlers_pushBack _ _ _ _
  have hsubs : (s.subscribeAfter tag cb addr).postSubs =
      s.postSubs ++ [{ cb := ⟨addr, cb⟩, tag := tag }] := rfl
  rw [hreg]
  unfold System.liveAfter
  rw [hsubs, List.filter_append, List.map_append]
  by_cases ht : t = tag
  · subst ht
    simp [ih t, System.liveAfter]
  · have ht2 : ¬ tag = t := fun e => ht e.symm
    simp [ht, ht2, ih t, System.liveAfter]

theorem live_post_subscribeBefore {E W X : Type} (s : System E W X) (tag : BusTag)
    (cb : PreHandler E W X) (addr : Nat)
    (ih : ∀ t, s.registry.postHandlers.handlers t = s.liveAfter t) (t : BusTag) :
    (s.subscribeBefore tag cb addr).registry.postHandlers.handlers t =
      (s.subscribeBefore tag cb addr).liveAfter t := ih t

theorem live_post_disposePre {E W X : Type} (s : System E W X)
    (sub : PreSubscription E W X)
    (ih : ∀ t, s.registry.postHandlers.handlers t = s.liveAfter t) (t : BusTag) :
    (s.disposePre sub).registry.postHandlers.handlers t = (s.disposePre sub).liveAfter t := by
  have hreg : (s.disposePre sub).registry.postHandlers = s.registry.postHandlers :=
    preDestructor_postHandlers sub s.registry
  rw [hreg]
  exact ih t

theorem live_post_disposePost {E W X : Type} (s : System E W X)
    (sub : PostSubscription E W X) (hs : s.PostConsistent) (hsub : sub ∈ s.postSubs)
    (ih : ∀ t, s.registry.postHandlers.handlers t = s.liveAfter t) (t : BusTag) :
    (s.disposePost sub).registry.postHandlers.handlers t = (s.disposePost sub).liveAfter t := by
  obtain ⟨h1, _, h3, _⟩ := hs
  have hreg : (s.disposePost sub).registry.postHandlers.handlers t =
      if t = sub.tag then minusEq (s.registry.postHandlers.handlers sub.tag) sub.cb
      else s.registry.postHandlers.handlers t := postDestructor_handlers sub s.registry t
  have hsubs : (s.disposePost sub).postSubs =
      s.postSubs.filter (fun x => x.cb.addr != sub.cb.addr) := rfl
  rw [hreg]
  unfold System.liveAfter
  rw [hsubs, List.filter_filter]
  by_cases ht : t = sub.tag
  · simp only [ht, if_true]
    rw [minusEq_eq_filter _ _ (h3 sub.tag), ih sub.tag]
    unfold System.liveAfter
    rw [List.filter_map, List.filter_filter]
    congr 1
    apply List.filter_congr
    intro x _
    simp [Function.comp, Bool.and_comm]
  · simp only [ht, if_false]
    rw [ih t]
    unfold System.liveAfter
    congr 1
    apply List.filter_congr
    intro x hx
    by_cases hxt : x.tag = t
    · have hne : x.cb.addr ≠ sub.cb.addr := by
        intro heq
        have hinj := List.inj_on_of_nodup_map h1 hx hsub heq
        exact ht (hxt ▸ congrArg PostSubscription.tag hinj)
      simp [hxt, hne]
    · simp [hxt]

theorem reachable_live {E W X : Type} (s : System E W X) (hs : Reachable s) :
    (∀ t, s.registry.preHandlers.handlers t = s.liveBefore t) ∧
    (∀ t, s.registry.postHandlers.handlers t = s.liveAfter t) := by
  induction hs with
  | init => exact ⟨live_pre_init, live_post_init⟩
  | subscribeBefore s tag cb addr _ _ ih =>
    exact ⟨live_pre_subscribeBefore s tag cb addr ih.1,
      live_post_subscribeBefore s tag cb addr ih.2⟩
  | subscribeAfter s tag cb addr _ _ ih =>
    exact ⟨live_pre_subscribeAfter s tag cb addr ih.1,
      live_post_subscribeAfter s tag cb addr ih.2⟩
  | disposePre s sub hreach hsub ih =>
    exact ⟨live_pre_disposePre s sub (reachable_consistent s hreach).1 hsub ih.1,
      live_post_disposePre s sub ih.2⟩
  | disposePost s sub hreach hsub ih =>
    exact ⟨live_pre_disposePost s sub ih.1,
      live_post_disposePost s sub (reachable_consistent s hreach).2 hsub ih.2⟩

/-! ### Storage objects of the two collections, and absence after removal -/

/-- C1, as amended: after any sequence of `subscribeBefore` and `subscribeAfter` calls on
an empty registry, the calls made by a dispatch to a tag are always an initial part of:
the before-handlers of the tag in registration order, the event's `execute`, the
after-handlers of the tag in registration order; and when the dispatch ends without an
exception they are all of it, each registered handler once. -/
theorem registration_order_dispatch {E W X : Type} (regs : List (Registration E W X))
    (tag : BusTag) (execute : Execute E W X) (env : Environment) (event : E) (w : W) :
    (executeEvent (registerAll regs SubscriptionRegistry.empty) execute env tag event w).trace
        <+: fullTrace (registeredBefore tag regs) (registeredAfter tag regs) ∧
    ((executeEvent (registerAll regs SubscriptionRegistry.empty) execute env tag event w).thrown
        = none →
      (executeEvent (registerAll regs SubscriptionRegistry.empty) execute env tag event w).trace
        = fullTrace (registeredBefore tag regs) (registeredAfter tag regs)) := by
  have hpre := registerAll_preHandlers tag regs (SubscriptionRegistry.empty : SubscriptionRegistry E W X)
  have hpost := registerAll_postHandlers tag regs (SubscriptionRegistry.empty : SubscriptionRegistry E W X)
  simp only [SubscriptionRegistry.empty, HandlerMap.handlers, HandlerMap.empty, Option.getD_none,
    List.nil_append] at hpre hpost
  constructor
  · have h := executeEvent_trace_initial (registerAll regs SubscriptionRegistry.empty) execute env
      tag event w
    simpa only [HandlerMap.handlers, SubscriptionRegistry.empty, HandlerMap.empty, hpre, hpost]
      using h
  · intro hok
    have h := executeEvent_trace_complete (registerAll regs SubscriptionRegistry.empty) execute env
      tag event w hok
    simpa only [HandlerMap.handlers, SubscriptionRegistry.empty, HandlerMap.empty, hpre, hpost]
      using h

/-- C1 at `mixedRegs`: the dispatch to tag `1` ends without an exception and calls the
slot at `10`, then `execute`, then the slot at `20`. -/
theorem registration_order_dispatch_witness :
    (executeEvent (registerAll mixedRegs SubscriptionRegistry.empty) double 0 1 5 0).trace
      = fullTrace (registeredBefore 1 mixedRegs) (registeredAfter 1 mixedRegs) :=
  (registration_order_dispatch mixedRegs 1 double 0 5 0).2 rfl

/-- C1 as stated fails: with `failing` registered before `incr` under tag `1`, the
dispatch calls the slot of `failing` only, so `incr`, registered second, is not called. -/
theorem registration_order_broken_by_throw :
    (executeEvent (registerAll failThenIncr SubscriptionRegistry.empty) double 0 1 5 0).trace.map
        Call.id = [CallId.pre 10] ∧
    (registeredBefore 1 failThenIncr).map HandlerStorage.addr = [10, 11] ∧
    (executeEvent (registerAll failThenIncr SubscriptionRegistry.empty) double 0 1 5
        0).trace.filterMap Call.preSlot ≠ registeredBefore 1 failThenIncr := by
  refine ⟨rfl, rfl, ?_⟩
  intro h
  have hlen := congrArg List.length h
  revert hlen
  decide

/-! ### C2: the three phases of a dispatch -/

theorem forEachPre_of_never_thrown {E W X : Type} (env : Environment) (bus : BusTag)
    (l : List (PreHandlerStorage E W X))
    (hl : ∀ h ∈ l, ∀ e v, (h.cb env bus e v).thrown = none) :
    ∀ d : Dispatch E W X, d.thrown = none → (forEachPre env bus l d).thrown = none := by
  induction l with
  | nil => intro d hd; exact hd
  | cons h rest ih =>
    intro d _
    have hh : (h.call env bus d.event d.world).thrown = none :=
      hl h (List.mem_cons_self _ _) d.event d.world
    rw [forEachPre_cons_ok env bus h rest d hh]
    exact ih (fun x hx => hl x (List.mem_cons_of_mem _ hx)) _ rfl

theorem forEachPost_of_never_thrown {E W X : Type} (env : Environment) (bus : BusTag)
    (l : List (PostHandlerStorage E W X))
    (hl : ∀ h ∈ l, ∀ e v, (h.cb env bus e v).thrown = none) :
    ∀ d : Dispatch E W X, d.thrown = none → (forEachPost env bus l d).thrown = none := by
  induction l with
  | nil => intro d hd; exact hd
  | cons h rest ih =>
    intro d _
    have hh : (h.call env bus d.event d.world).thrown = none :=
      hl h (List.mem_cons_self _ _) d.event d.world
    rw [forEachPost_cons_ok env bus h rest d hh]
    exact ih (fun x hx => hl x (List.mem_cons_of_mem _ hx)) _ rfl

/-- C2: when no handler fails in a dispatch, where a handler failure is, as in the spec,
an exception raised inside a handler or inside the event's own `execute`, that is when
`executeEvent` ends without an exception, the calls it makes are: all before-handlers
stored for the tag, then the event's `execute`, exactly once, then all after-handlers
stored for the tag, so that every before-call precedes `execute` and `execute` precedes
every after-call. The dispatch does end without an exception when the handlers stored
for the tag and `execute` never throw. -/
theorem dispatch_phases_in_order {E W X : Type} (reg : SubscriptionRegistry E W X)
    (execute : Execute E W X) (env : Environment) (bus : BusTag) (event : E) (w : W) :
    ((executeEvent reg execute env bus event w).thrown = none →
      (executeEvent reg execute env bus event w).trace =
          (reg.preHandlers.handlers bus).map Call.pre ++ [Call.execute] ++
            (reg.postHandlers.handlers bus).map Call.post ∧
      ((executeEvent reg execute env bus event w).trace.map Call.id).count CallId.execute = 1) ∧
    ((∀ h ∈ reg.preHandlers.handlers bus, ∀ e v, (h.cb env bus e v).thrown = none) →
      (∀ e v, (execute env bus e v).thrown = none) →
      (∀ h ∈ reg.postHandlers.handlers bus, ∀ e v, (h.cb env bus e v).thrown = none) →
      (executeEvent reg execute env bus event w).thrown = none) := by
  constructor
  · intro hok
    have h := executeEvent_trace_complete reg execute env bus event w hok
    refine ⟨h, ?_⟩
    rw [h]
    exact fullTrace_count_execute _ _
  · intro hpre hexec hpost
    have h1 := forEachPre_of_never_thrown env bus _ hpre ⟨[], event, w, none⟩ rfl
    rw [executeEvent_of_pre_ok reg execute env bus event w h1]
    have h2 : (executePhase execute env bus (forEachPre env bus (reg.preHandlers.handlers bus)
        ⟨[], event, w, none⟩)).thrown = none := hexec _ _
    simp only [h2]
    exact forEachPost_of_never_thrown env bus _ hpost _ h2

/-- C2 at `incrObserve`: the dispatch to tag `1` ends without an exception. -/
theorem dispatch_phases_in_order_witness :
    (executeEvent incrObserve double 0 1 5 0).trace =
        (incrObserve.preHandlers.handlers 1).map Call.pre ++ [Call.execute] ++
          (incrObserve.postHandlers.handlers 1).map Call.post ∧
    ((executeEvent incrObserve double 0 1 5 0).trace.map Call.id).count CallId.execute = 1 :=
  (dispatch_phases_in_order incrObserve double 0 1 5 0).1 rfl

/-! ### C3: isolation of tags -/

theorem executeEvent_congr {E W X : Type} (r1 r2 : SubscriptionRegistry E W X)
    (execute : Execute E W X) (env : Environment) (bus : BusTag) (event : E) (w : W)
    (hpre : r1.preHandlers.handlers bus = r2.preHandlers.handlers bus)
    (hpost : r1.postHandlers.handlers bus = r2.postHandlers.handlers bus) :
    executeEvent r1 execute env bus event w = executeEvent r2 execute env bus event w := by
  unfold executeEvent
  simp only [prePhase_eq, postPhase_eq, hpre, hpost]

theorem executeEvent_no_handlers {E W X : Type} (reg : SubscriptionRegistry E W X)
    (execute : Execute E W X) (env : Environment) (bus : BusTag) (event : E) (w : W)
    (hpre : reg.preHandlers.handlers bus = []) (hpost : reg.postHandlers.handlers bus = []) :
    executeEvent reg execute env bus event w =
      executePhase execute env bus ⟨[], event, w, none⟩ := by
  unfold executeEvent
  simp only [prePhase_eq, postPhase_eq, hpre, hpost, forEachPre, forEachPost]
  cases h : (executePhase execute env bus ⟨[], event, w, none⟩).thrown <;> rfl

/-- C3: for tags `A ≠ B`, a dispatch addressed to `B` does not depend on what is stored
under `A` (replacing it, in both collections, by anything gives the same dispatch), and
every handler it calls is taken from the vector stored under `B` in the same collection;
when `B` has no handler, the calls are just the event's `execute`. In a registry reached
from the empty one by subscribing and disposing, no storage object held under `A` is
called by the dispatch to `B`. -/
theorem dispatch_isolated_from_other_tag {E W X : Type} (reg : SubscriptionRegistry E W X)
    (A B : BusTag) (hAB : A ≠ B) (execute : Execute E W X) (env : Environment) (event : E)
    (w : W) :
    (∀ pre post, executeEvent (reg.replaceTag A pre post) execute env B event w =
      executeEvent reg execute env B event w) ∧
    (∀ h, Call.pre h ∈ (executeEvent reg execute env B event w).trace →
      h ∈ reg.preHandlers.handlers B) ∧
    (∀ h, Call.post h ∈ (executeEvent reg execute env B event w).trace →
      h ∈ reg.postHandlers.handlers B) ∧
    (reg.preHandlers.handlers B = [] → reg.postHandlers.handlers B = [] →
      (executeEvent reg execute env B event w).trace = [Call.execute]) ∧
    (∀ s : System E W X, Reachable s → s.registry = reg →
      (∀ h ∈ reg.preHandlers.handlers A, ∀ c,
        Call.pre c ∈ (executeEvent reg execute env B event w).trace → c.addr ≠ h.addr) ∧
      (∀ h ∈ reg.postHandlers.handlers A, ∀ c,
        Call.post c ∈ (executeEvent reg execute env B event w).trace → c.addr ≠ h.addr)) := by
  have hBA : B ≠ A := fun h => hAB h.symm
  have hfromPre : ∀ h, Call.pre h ∈ (executeEvent reg execute env B event w).trace →
      h ∈ reg.preHandlers.handlers B := by
    intro h hh
    have hmem := (executeEvent_trace_initial reg execute env B event w).subset hh
    simpa [fullTrace] using hmem
  have hfromPost : ∀ h, Call.post h ∈ (executeEvent reg execute env B event w).trace →
      h ∈ reg.postHandlers.handlers B := by
    intro h hh
    have hmem := (executeEvent_trace_initial reg execute env B event w).subset hh
    simpa [fullTrace] using hmem
  refine ⟨?_, ?_, ?_, ?_, ?_⟩
  · intro pre post
    apply executeEvent_congr <;>
      simp [SubscriptionRegistry.replaceTag, HandlerMap.handlers, hBA]
  · intro h hh
    have hmem := (executeEvent_trace_initial reg execute env B event w).subset hh
    simpa [fullTrace] using hmem
  · intro h hh
    have hmem := (executeEvent_trace_initial reg execute env B event w).subset hh
    simpa [fullTrace] using hmem
  · intro hpre hpost
    rw [executeEvent_no_handlers reg execute env B event w hpre hpost]
    rfl
  · intro s hs hreg
    subst hreg
    obtain ⟨⟨p1, _, _, p4⟩, ⟨q1, _, _, q4⟩⟩ := reachable_consistent s hs
    constructor
    · intro h hh c hc heq
      have hinj := List.inj_on_of_nodup_map p1 (p4 B c (hfromPre c hc)) (p4 A h hh) heq
      exact hBA (congrArg PreSubscription.tag hinj)
    · intro h hh c hc heq
      have hinj := List.inj_on_of_nodup_map q1 (q4 B c (hfromPost c hc)) (q4 A h hh) heq
      exact hBA (congrArg PostSubscription.tag hinj)

/-- C3 at `incrObserve`, whose handlers are all under tag `1`: a dispatch to tag `2`. -/
theorem dispatch_isolated_from_other_tag_witness :
    (executeEvent incrObserve double 0 2 5 0).trace = [Call.execute] :=
  (dispatch_isolated_from_other_tag incrObserve 1 2 (by decide) double 0 5 0).2.2.2.1 rfl rfl

/-! ### C4: what a disposal changes -/

theorem twoLive_reachable : Reachable twoLive := by
  apply Reachable.subscribeAfter
  · apply Reachable.subscribeBefore
    · apply Reachable.subscribeBefore
      · exact Reachable.init
      · simp [System.fresh, System.init]
    · simp [System.fresh, System.init, System.subscribeBefore, subscribeBefore]
  · simp [System.fresh, System.init, System.subscribeBefore, subscribeBefore]

theorem guarded_reachable : Reachable guarded := by
  apply Reachable.subscribeBefore
  · apply Reachable.subscribeBefore
    · apply Reachable.subscribeBefore
      · exact Reachable.init
      · simp [System.fresh, System.init]
    · simp [System.fresh, System.init, System.subscribeBefore, subscribeBefore]
  · simp [System.fresh, System.init, System.subscribeBefore, subscribeBefore]

theorem handlers_eq_some_of_mem {T : Type} (m : HandlerMap T) (key : BusTag)
    (x : HandlerStorage T) (hx : x ∈ m.handlers key) : m key = some (m.handlers key) := by
  unfold HandlerMap.handlers at hx ⊢
  cases h : m key with
  | none => rw [h] at hx; cases hx
  | some v => rfl

/-- C4, as amended: in a system reached from the empty registry by subscribing and
disposing, destroying a live pre-subscription for `(tag, slot)` turns the vector
`l1 ++ slot :: l2` that `preHandlers` has for the tag into `l1 ++ l2`, in which the
storage object of the slot no longer occurs; every other tag of `preHandlers` and all of
`postHandlers` are unchanged; the calls of the next dispatch to the tag are an initial
part of: the slots of `l1 ++ l2`, `execute`, the after-handlers of the tag, and all of it
when that dispatch ends without an exception. The same holds for a live
post-subscription with the two collections swapped. -/
theorem dispose_removes_exactly_its_slot {E W X : Type} (s : System E W X)
    (hs : Reachable s) :
    (∀ sub ∈ s.preSubs, ∃ l1 l2,
      s.registry.preHandlers sub.tag = some (l1 ++ sub.cb :: l2) ∧
      (sub.destructor s.registry).preHandlers sub.tag = some (l1 ++ l2) ∧
      (∀ h ∈ l1 ++ l2, h.addr ≠ sub.cb.addr) ∧
      (∀ t, t ≠ sub.tag →
        (sub.destructor s.registry).preHandlers t = s.registry.preHandlers t) ∧
      (sub.destructor s.registry).postHandlers = s.registry.postHandlers ∧
      (∀ (execute : Execute E W X) (env : Environment) (event : E) (w : W),
        (executeEvent (sub.destructor s.registry) execute env sub.tag event w).trace <+:
          fullTrace (l1 ++ l2) (s.registry.postHandlers.handlers sub.tag) ∧
        ((executeEvent (sub.destructor s.registry) execute env sub.tag event w).thrown = none →
          (executeEvent (sub.destructor s.registry) execute env sub.tag event w).trace =
            fullTrace (l1 ++ l2) (s.registry.postHandlers.handlers sub.tag)))) ∧
    (∀ sub ∈ s.postSubs, ∃ l1 l2,
      s.registry.postHandlers sub.tag = some (l1 ++ sub.cb :: l2) ∧
      (sub.destructor s.registry).postHandlers sub.tag = some (l1 ++ l2) ∧
      (∀ h ∈ l1 ++ l2, h.addr ≠ sub.cb.addr) ∧
      (∀ t, t ≠ sub.tag →
        (sub.destructor s.registry).postHandlers t = s.registry.postHandlers t) ∧
      (sub.destructor s.registry).preHandlers = s.registry.preHandlers ∧
      (∀ (execute : Execute E W X) (env : Environment) (event : E) (w : W),
        (executeEvent (sub.destructor s.registry) execute env sub.tag event w).trace <+:
          fullTrace (s.registry.preHandlers.handlers sub.tag) (l1 ++ l2) ∧
        ((executeEvent (sub.destructor s.registry) execute env sub.tag event w).thrown = none →
          (executeEvent (sub.destructor s.registry) execute env sub.tag event w).trace =
            fullTrace (s.registry.preHandlers.handlers sub.tag) (l1 ++ l2)))) := by
  obtain ⟨⟨_, p2, p3, _⟩, ⟨_, q2, q3, _⟩⟩ := reachable_consistent s hs
  constructor
  · intro sub hsub
    have hkey := handlers_eq_some_of_mem _ _ _ (p2 sub hsub)
    obtain ⟨l1, l2, hl, hrm, hne⟩ := minusEq_split _ sub.cb (p3 sub.tag) (p2 sub hsub)
    have hnew : (sub.destructor s.registry).preHandlers sub.tag = some (l1 ++ l2) := by
      rw [preDestructor_preHandlers, hkey]
      simp [hrm]
    have hpost := preDestructor_postHandlers sub s.registry
    refine ⟨l1, l2, by rw [hkey, hl], hnew, hne, ?_, hpost, ?_⟩
    · intro t ht
      rw [preDestructor_preHandlers]
      simp [ht]
    · intro execute env event w
      have hh : (sub.destructor s.registry).preHandlers.handlers sub.tag = l1 ++ l2 := by
        simp [HandlerMap.handlers, hnew]
      have h1 := executeEvent_trace_initial (sub.destructor s.registry) execute env sub.tag
        event w
      refine ⟨?_, ?_⟩
      · rw [hh, hpost] at h1
        exact h1
      · intro hok
        have h2 := executeEvent_trace_complete (sub.destructor s.registry) execute env sub.tag
          event w hok
        rw [hh, hpost] at h2
        exact h2
  · intro sub hsub
    have hkey := handlers_eq_some_of_mem _ _ _ (q2 sub hsub)
    obtain ⟨l1, l2, hl, hrm, hne⟩ := minusEq_split _ sub.cb (q3 sub.tag) (q2 sub hsub)
    have hnew : (sub.destructor s.registry).postHandlers sub.tag = some (l1 ++ l2) := by
      rw [postDestructor_postHandlers, hkey]
      simp [hrm]
    have hpre := postDestructor_preHandlers sub s.registry
    refine ⟨l1, l2, by rw [hkey, hl], hnew, hne, ?_, hpre, ?_⟩
    · intro t ht
      rw [postDestructor_postHandlers]
      simp [ht]
    · intro execute env event w
      have hh : (sub.destructor s.registry).postHandlers.handlers sub.tag = l1 ++ l2 := by
        simp [HandlerMap.handlers, hnew]
      have h1 := executeEvent_trace_initial (sub.destructor s.registry) execute env sub.tag
        event w
      refine ⟨?_, ?_⟩
      · rw [hh, hpre] at h1
        exact h1
      · intro hok
        have h2 := executeEvent_trace_complete (sub.destructor s.registry) execute env sub.tag
          event w hok
        rw [hh, hpre] at h2
        exact h2

/-- C4 at `twoLive`: the live pre-subscription `firstSub` and the live post-subscription
`firstPostSub` are destroyed. -/
theorem dispose_removes_exactly_its_slot_witness :
    (∃ l1 l2,
      twoLive.registry.preHandlers firstSub.tag = some (l1 ++ firstSub.cb :: l2) ∧
      (firstSub.destructor twoLive.registry).preHandlers firstSub.tag = some (l1 ++ l2) ∧
      (∀ h ∈ l1 ++ l2, h.addr ≠ firstSub.cb.addr) ∧
      (∀ t, t ≠ firstSub.tag →
        (firstSub.destructor twoLive.registry).preHandlers t = twoLive.registry.preHandlers t) ∧
      (firstSub.destructor twoLive.registry).postHandlers = twoLive.registry.postHandlers ∧
      (∀ (execute : Execute Nat Nat Nat) (env : Environment) (event : Nat) (w : Nat),
        (executeEvent (firstSub.destructor twoLive.registry) execute env firstSub.tag event
          w).trace <+: fullTrace (l1 ++ l2) (twoLive.registry.postHandlers.handlers firstSub.tag) ∧
        ((executeEvent (firstSub.destructor twoLive.registry) execute env firstSub.tag event
            w).thrown = none →
          (executeEvent (firstSub.destructor twoLive.registry) execute env firstSub.tag event
            w).trace =
            fullTrace (l1 ++ l2) (twoLive.registry.postHandlers.handlers firstSub.tag)))) ∧
    (firstSub.destructor twoLive.registry).preHandlers.handlers 1 = [⟨11, incr⟩] :=
  ⟨(dispose_removes_exactly_its_slot twoLive twoLive_reachable).1 firstSub
      (List.mem_append_left _ (List.mem_singleton_self _)), rfl⟩

/-- C4 as stated fails in its last part: in the reachable system `guarded` a dispatch to
tag `1` with the event `5` calls the three before-handlers at `10`, `11`, `12`; after the
live subscription `firstSub` (the slot at `10`) is destroyed, the slots at `11` and `12`
stay registered under the tag, but the next such dispatch calls the slot at `11`, which
now throws, and the handler at `12` no longer fires. -/
theorem remaining_handler_not_called :
    Reachable guarded ∧ firstSub ∈ guarded.preSubs ∧
    (executeEvent guarded.registry double 0 1 5 0).trace.map Call.id =
      [CallId.pre 10, CallId.pre 11, CallId.pre 12, CallId.execute] ∧
    ((firstSub.destructor guarded.registry).preHandlers.handlers 1).map
      HandlerStorage.addr = [11, 12] ∧
    (executeEvent (firstSub.destructor guarded.registry) double 0 1 5 0).trace.map
      Call.id = [CallId.pre 11] ∧
    CallId.pre 12 ∉
      (executeEvent (firstSub.destructor guarded.registry) double 0 1 5 0).trace.map
        Call.id := by
  refine ⟨guarded_reachable, ?_, rfl, rfl, rfl, ?_⟩
  · exact List.mem_append_left _ (List.mem_append_left _ (List.mem_singleton_self _))
  · decide

/-! ### C5: subscribing and disposing at once -/

theorem subscribeBeforeThenDispose_preHandlers {E W X : Type}
    (reg : SubscriptionRegistry E W X) (tag : BusTag) (cb : PreHandler E W X) (addr : Nat)
    (hfresh : ∀ h ∈ reg.preHandlers.handlers tag, h.addr ≠ addr) (k : BusTag) :
    (subscribeBeforeThenDispose reg tag cb addr).preHandlers k =
      if k = tag then some (reg.preHandlers.handlers tag) else reg.preHandlers k := by
  unfold subscribeBeforeThenDispose
  rw [preDestructor_preHandlers]
  by_cases hk : k = tag
  · have hrm : minusEq (reg.preHandlers.handlers tag ++ [⟨addr, cb⟩])
        (⟨addr, cb⟩ : PreHandlerStorage E W X) = reg.preHandlers.handlers tag := by
      have h := minusEq_append_cons (reg.preHandlers.handlers tag) []
        (⟨addr, cb⟩ : PreHandlerStorage E W X) ⟨addr, cb⟩ rfl hfresh
      simpa using h
    simp [hk, subscribeBefore, hrm]
  · simp [hk, subscribeBefore, HandlerMap.pushBack_other _ _ _ _ hk]

theorem subscribeAfterThenDispose_postHandlers {E W X : Type}
    (reg : SubscriptionRegistry E W X) (tag : BusTag) (cb : PostHandler E W X) (addr : Nat)
    (hfresh : ∀ h ∈ reg.postHandlers.handlers tag, h.addr ≠ addr) (k : BusTag) :
    (subscribeAfterThenDispose reg tag cb addr).postHandlers k =
      if k = tag then some (reg.postHandlers.handlers tag) else reg.postHandlers k := by
  unfold subscribeAfterThenDispose
  rw [postDestructor_postHandlers]
  by_cases hk : k = tag
  · have hrm : minusEq (reg.postHandlers.handlers tag ++ [⟨addr, cb⟩])
        (⟨addr, cb⟩ : PostHandlerStorage E W X) = reg.postHandlers.handlers tag := by
      have h := minusEq_append_cons (reg.postHandlers.handlers tag) []
        (⟨addr, cb⟩ : PostHandlerStorage E W X) ⟨addr, cb⟩ rfl hfresh
      simpa using h
    simp [hk, subscribeAfter, hrm]
  · simp [hk, subscribeAfter, HandlerMap.pushBack_other _ _ _ _ hk]

theorem subscribeBeforeThenDispose_handlers {E W X : Type}
    (reg : SubscriptionRegistry E W X) (tag : BusTag) (cb : PreHandler E W X) (addr : Nat)
    (hfresh : ∀ h ∈ reg.preHandlers.handlers tag, h.addr ≠ addr) (t : BusTag) :
    (subscribeBeforeThenDispose reg tag cb addr).preHandlers.handlers t =
      reg.preHandlers.handlers t := by
  unfold HandlerMap.handlers
  rw [subscribeBeforeThenDispose_preHandlers reg tag cb addr hfresh t]
  by_cases ht : t = tag
  · simp [ht, HandlerMap.handlers]
  · simp [ht]

theorem subscribeAfterThenDispose_handlers {E W X : Type}
    (reg : SubscriptionRegistry E W X) (tag : BusTag) (cb : PostHandler E W X) (addr : Nat)
    (hfresh : ∀ h ∈ reg.postHandlers.handlers tag, h.addr ≠ addr) (t : BusTag) :
    (subscribeAfterThenDispose reg tag cb addr).postHandlers.handlers t =
      reg.postHandlers.handlers t := by
  unfold HandlerMap.handlers
  rw [subscribeAfterThenDispose_postHandlers reg tag cb addr hfresh t]
  by_cases ht : t = tag
  · simp [ht, HandlerMap.handlers]
  · simp [ht]

theorem subscribeBeforeThenDispose_post {E W X : Type}
    (reg : SubscriptionRegistry E W X) (tag : BusTag) (cb : PreHandler E W X) (addr : Nat) :
    (subscribeBeforeThenDispose reg tag cb addr).postHandlers = reg.postHandlers := by
  unfold subscribeBeforeThenDispose
  rw [preDestructor_postHandlers]
  rfl

theorem subscribeAfterThenDispose_pre {E W X : Type}
    (reg : SubscriptionRegistry E W X) (tag : BusTag) (cb : PostHandler E W X) (addr : Nat) :
    (subscribeAfterThenDispose reg tag cb addr).preHandlers = reg.preHandlers := by
  unfold subscribeAfterThenDispose
  rw [postDestructor_preHandlers]
  rfl

/-- C5: let `addr`, the address that `std::make_shared` returns, differ from the
addresses of the storage objects already in the vector of the tag. Subscribing a handler
before and then destroying the subscription returned leaves the handler vector of every
tag as it was, an absent tag counting as an empty vector (the subscribed tag is now a
key), leaves `postHandlers` unchanged, and every dispatch gives what it gave before the
subscribe. The same holds for subscribing after. From an empty registry, the dispatch
to the tag that follows calls no handler, only the event's `execute`. -/
theorem subscribe_then_dispose_restores {E W X : Type} (reg : SubscriptionRegistry E W X)
    (tag : BusTag) (cbPre : PreHandler E W X) (cbPost : PostHandler E W X) (addr : Nat) :
    ((∀ h ∈ reg.preHandlers.handlers tag, h.addr ≠ addr) →
      (∀ t, (subscribeBeforeThenDispose reg tag cbPre addr).preHandlers.handlers t =
        reg.preHandlers.handlers t) ∧
      (∀ t, t ≠ tag →
        (subscribeBeforeThenDispose reg tag cbPre addr).preHandlers t = reg.preHandlers t) ∧
      (subscribeBeforeThenDispose reg tag cbPre addr).postHandlers = reg.postHandlers ∧
      (∀ (execute : Execute E W X) (env : Environment) (bus : BusTag) (event : E) (w : W),
        executeEvent (subscribeBeforeThenDispose reg tag cbPre addr) execute env bus event w =
          executeEvent reg execute env bus event w)) ∧
    ((∀ h ∈ reg.postHandlers.handlers tag, h.addr ≠ addr) →
      (∀ t, (subscribeAfterThenDispose reg tag cbPost addr).postHandlers.handlers t =
        reg.postHandlers.handlers t) ∧
      (∀ t, t ≠ tag →
        (subscribeAfterThenDispose reg tag cbPost addr).postHandlers t = reg.postHandlers t) ∧
      (subscribeAfterThenDispose reg tag cbPost addr).preHandlers = reg.preHandlers ∧
      (∀ (execute : Execute E W X) (env : Environment) (bus : BusTag) (event : E) (w : W),
        executeEvent (subscribeAfterThenDispose reg tag cbPost addr) execute env bus event w =
          executeEvent reg execute env bus event w)) ∧
    (∀ (execute : Execute E W X) (env : Environment) (event : E) (w : W),
      (executeEvent (subscribeBeforeThenDispose SubscriptionRegistry.empty tag cbPre addr)
        execute env tag event w).trace = [Call.execute] ∧
      (executeEvent (subscribeAfterThenDispose SubscriptionRegistry.empty tag cbPost addr)
        execute env tag event w).trace = [Call.execute]) := by
  have hpre := subscribeBeforeThenDispose_handlers reg tag cbPre addr
  have hpost := subscribeAfterThenDispose_handlers reg tag cbPost addr
  have hpp := subscribeBeforeThenDispose_post reg tag cbPre addr
  have hqq := subscribeAfterThenDispose_pre reg tag cbPost addr
  refine ⟨?_, ?_, ?_⟩
  · intro hfresh
    refine ⟨hpre hfresh, ?_, hpp, ?_⟩
    · intro t ht
      rw [subscribeBeforeThenDispose_preHandlers reg tag cbPre addr hfresh t]
      simp [ht]
    · intro execute env bus event w
      exact executeEvent_congr _ _ execute env bus event w (hpre hfresh bus) (by rw [hpp])
  · intro hfresh
    refine ⟨hpost hfresh, ?_, hqq, ?_⟩
    · intro t ht
      rw [subscribeAfterThenDispose_postHandlers reg tag cbPost addr hfresh t]
      simp [ht]
    · intro execute env bus event w
      exact executeEvent_congr _ _ execute env bus event w (by rw [hqq]) (hpost hfresh bus)
  · intro execute env event w
    have hnone : ∀ h ∈ (SubscriptionRegistry.empty : SubscriptionRegistry E W X).preHandlers.handlers
        tag, h.addr ≠ addr := by
      intro h hh
      cases hh
    have hnone2 : ∀ h ∈ (SubscriptionRegistry.empty :
        SubscriptionRegistry E W X).postHandlers.handlers tag, h.addr ≠ addr := by
      intro h hh
      cases hh
    constructor
    · rw [executeEvent_no_handlers _ execute env tag event w
        (by rw [subscribeBeforeThenDispose_handlers _ tag cbPre addr hnone tag]; rfl)
        (by rw [subscribeBeforeThenDispose_post]; rfl)]
      rfl
    · rw [executeEvent_no_handlers _ execute env tag event w
        (by rw [subscribeAfterThenDispose_pre]; rfl)
        (by rw [subscribeAfterThenDispose_handlers _ tag cbPost addr hnone2 tag]; rfl)]
      rfl

/-- C5 at `incrObserve` with tag `1` and the new address `30`. -/
theorem subscribe_then_dispose_restores_witness :
    (∀ t, (subscribeBeforeThenDispose incrObserve 1 failing 30).preHandlers.handlers t =
      incrObserve.preHandlers.handlers t) ∧
    (∀ t, (subscribeAfterThenDispose incrObserve 1 failingPost 30).postHandlers.handlers t =
      incrObserve.postHandlers.handlers t) :=
  ⟨((subscribe_then_dispose_restores incrObserve 1 failing failingPost 30).1
      (by decide)).1,
    ((subscribe_then_dispose_restores incrObserve 1 failing failingPost 30).2.1
      (by decide)).1⟩

/-! ### C6: removing twice, removing what is not there -/

theorem preDestructor_idempotent {E W X : Type} (sub : PreSubscription E W X)
    (reg : SubscriptionRegistry E W X)
    (hcount : ((reg.preHandlers.handlers sub.tag).map HandlerStorage.addr).count sub.cb.addr ≤ 1) :
    sub.destructor (sub.destructor reg) = sub.destructor reg := by
  apply SubscriptionRegistry.eq_of_maps
  · intro k
    rw [preDestructor_preHandlers sub (sub.destructor reg) k,
      preDestructor_preHandlers sub reg k,
      preDestructor_preHandlers sub reg sub.tag]
    by_cases hk : k = sub.tag
    · simp only [hk, if_true]
      cases hv : reg.preHandlers sub.tag with
      | none => rfl
      | some v =>
        have hc : (v.map HandlerStorage.addr).count sub.cb.addr ≤ 1 := by
          simpa [HandlerMap.handlers, hv] using hcount
        simp [minusEq_idempotent v sub.cb hc]
    · simp [hk]
  · intro k
    rw [preDestructor_postHandlers, preDestructor_postHandlers]

theorem preDestructor_absent {E W X : Type} (sub : PreSubscription E W X)
    (reg : SubscriptionRegistry E W X)
    (habs : ∀ h ∈ reg.preHandlers.handlers sub.tag, h.addr ≠ sub.cb.addr) :
    sub.destructor reg = reg := by
  apply SubscriptionRegistry.eq_of_maps
  · intro k
    rw [preDestructor_preHandlers sub reg k]
    by_cases hk : k = sub.tag
    · simp only [hk, if_true]
      cases hv : reg.preHandlers sub.tag with
      | none => rfl
      | some v =>
        have hv2 : ∀ h ∈ v, h.addr ≠ sub.cb.addr := by
          simpa [HandlerMap.handlers, hv] using habs
        simp [minusEq_of_absent v sub.cb hv2]
    · simp [hk]
  · intro k
    rw [preDestructor_postHandlers]

theorem postDestructor_idempotent {E W X : Type} (sub : PostSubscription E W X)
    (reg : SubscriptionRegistry E W X)
    (hcount : ((reg.postHandlers.handlers sub.tag).map HandlerStorage.addr).count sub.cb.addr
      ≤ 1) :
    sub.destructor (sub.destructor reg) = sub.destructor reg := by
  apply SubscriptionRegistry.eq_of_maps
  · intro k
    rw [postDestructor_preHandlers, postDestructor_preHandlers]
  · intro k
    rw [postDestructor_postHandlers sub (sub.destructor reg) k,
      postDestructor_postHandlers sub reg k,
      postDestructor_postHandlers sub reg sub.tag]
    by_cases hk : k = sub.tag
    · simp only [hk, if_true]
      cases hv : reg.postHandlers sub.tag with
      | none => rfl
      | some v =>
        have hc : (v.map HandlerStorage.addr).count sub.cb.addr ≤ 1 := by
          simpa [HandlerMap.handlers, hv] using hcount
        simp [minusEq_idempotent v sub.cb hc]
    · simp [hk]

theorem postDestructor_absent {E W X : Type} (sub : PostSubscription E W X)
    (reg : SubscriptionRegistry E W X)
    (habs : ∀ h ∈ reg.postHandlers.handlers sub.tag, h.addr ≠ sub.cb.addr) :
    sub.destructor reg = reg := by
  apply SubscriptionRegistry.eq_of_maps
  · intro k
    rw [postDestructor_preHandlers]
  · intro k
    rw [postDestructor_postHandlers sub reg k]
    by_cases hk : k = sub.tag
    · simp only [hk, if_true]
      cases hv : reg.postHandlers sub.tag with
      | none => rfl
      | some v =>
        have hv2 : ∀ h ∈ v, h.addr ≠ sub.cb.addr := by
          simpa [HandlerMap.handlers, hv] using habs
        simp [minusEq_of_absent v sub.cb hv2]
    · simp [hk]

/-- C6: the removal done by a destructor is a total function of the registry and of
`(tag, slot)`, so it signals no error. In every registry reached from the empty one by
subscribing and disposing, applied twice it gives the same registry as applied once; and
in any registry, applied when the tag is not a key, or when the storage object does not
occur in the vector of the tag, it leaves the registry as it is. This holds for
`PreSubscription` on `preHandlers` and for `PostSubscription` on `postHandlers`. What
makes the removal idempotent is that the storage object of the slot occurs at most once
in the vector of the tag. -/
theorem removal_idempotent_on_single_occurrence {E W X : Type}
    (reg : SubscriptionRegistry E W X) (pre : PreSubscription E W X)
    (post : PostSubscription E W X) :
    (∀ s : System E W X, Reachable s →
      pre.destructor (pre.destructor s.registry) = pre.destructor s.registry ∧
      post.destructor (post.destructor s.registry) = post.destructor s.registry) ∧
    ((reg.preHandlers pre.tag = none ∨
        ∀ h ∈ reg.preHandlers.handlers pre.tag, h.addr ≠ pre.cb.addr) →
      pre.destructor reg = reg) ∧
    ((reg.postHandlers post.tag = none ∨
        ∀ h ∈ reg.postHandlers.handlers post.tag, h.addr ≠ post.cb.addr) →
      post.destructor reg = reg) ∧
    (((reg.preHandlers.handlers pre.tag).map HandlerStorage.addr).count pre.cb.addr ≤ 1 →
      pre.destructor (pre.destructor reg) = pre.destructor reg) ∧
    (((reg.postHandlers.handlers post.tag).map HandlerStorage.addr).count post.cb.addr ≤ 1 →
      post.destructor (post.destructor reg) = post.destructor reg) := by
  refine ⟨?_, ?_, ?_, preDestructor_idempotent pre reg, postDestructor_idempotent post reg⟩
  · intro s hs
    obtain ⟨⟨_, _, p3, _⟩, ⟨_, _, q3, _⟩⟩ := reachable_consistent s hs
    exact ⟨preDestructor_idempotent pre s.registry
        (List.nodup_iff_count_le_one.mp (p3 pre.tag) _),
      postDestructor_idempotent post s.registry
        (List.nodup_iff_count_le_one.mp (q3 post.tag) _)⟩
  · rintro (h | h)
    · exact preDestructor_of_none pre reg h
    · exact preDestructor_absent pre reg h
  · rintro (h | h)
    · exact postDestructor_of_none post reg h
    · exact postDestructor_absent post reg h

/-- C6 at the reachable `twoLive`: `firstSub` and `firstPostSub` are removed twice, and a
subscription for the absent tag `2` is removed. -/
theorem removal_idempotent_on_single_occurrence_witness :
    Reachable twoLive ∧
    firstSub.destructor (firstSub.destructor twoLive.registry) =
      firstSub.destructor twoLive.registry ∧
    firstPostSub.destructor (firstPostSub.destructor twoLive.registry) =
      firstPostSub.destructor twoLive.registry ∧
    twoLive.registry.preHandlers 2 = none ∧
    (⟨⟨10, incr⟩, 2⟩ : PreSubscription Nat Nat Nat).destructor twoLive.registry =
      twoLive.registry :=
  ⟨twoLive_reachable,
    ((removal_idempotent_on_single_occurrence twoLive.registry firstSub firstPostSub).1
      twoLive twoLive_reachable).1,
    ((removal_idempotent_on_single_occurrence twoLive.registry firstSub firstPostSub).1
      twoLive twoLive_reachable).2,
    rfl,
    (removal_idempotent_on_single_occurrence twoLive.registry ⟨⟨10, incr⟩, 2⟩ firstPostSub).2.1
      (Or.inl rfl)⟩

/-! ### C7: no deduplication -/

theorem fullTrace_count_pre {E W X : Type} (pre : List (PreHandlerStorage E W X))
    (post : List (PostHandlerStorage E W X)) (a : Nat) :
    ((fullTrace pre post).map Call.id).count (CallId.pre a) =
      (pre.map HandlerStorage.addr).count a := by
  have hpre : ∀ l : List (PreHandlerStorage E W X),
      ((l.map Call.pre).map Call.id).count (CallId.pre a) =
        (l.map HandlerStorage.addr).count a := by
    intro l
    induction l with
    | nil => rfl
    | cons h t ih =>
      simp only [List.map_cons, List.count_cons, ih, Call.id]
      by_cases hh : h.addr = a <;> simp [hh]
  have hpost : ∀ l : List (PostHandlerStorage E W X),
      ((l.map Call.post).map Call.id).count (CallId.pre a) = 0 := by
    intro l
    induction l with
    | nil => rfl
    | cons h t ih => simpa [Call.id] using ih
  simp only [fullTrace, List.map_append, List.count_append, hpre, hpost]
  simp [Call.id]

theorem fullTrace_count_post {E W X : Type} (pre : List (PreHandlerStorage E W X))
    (post : List (PostHandlerStorage E W X)) (a : Nat) :
    ((fullTrace pre post).map Call.id).count (CallId.post a) =
      (post.map HandlerStorage.addr).count a := by
  have hpost : ∀ l : List (PostHandlerStorage E W X),
      ((l.map Call.post).map Call.id).count (CallId.post a) =
        (l.map HandlerStorage.addr).count a := by
    intro l
    induction l with
    | nil => rfl
    | cons h t ih =>
      simp only [List.map_cons, List.count_cons, ih, Call.id]
      by_cases hh : h.addr = a <;> simp [hh]
  have hpre : ∀ l : List (PreHandlerStorage E W X),
      ((l.map Call.pre).map Call.id).count (CallId.post a) = 0 := by
    intro l
    induction l with
    | nil => rfl
    | cons h t ih => simpa [Call.id] using ih
  simp only [fullTrace, List.map_append, List.count_append, hpre, hpost]
  simp [Call.id]

/-- A dispatch calls the pre-handler slot at an address at most as often as the vector
of the tag holds it. -/
theorem preCalls_le {E W X : Type} (reg : SubscriptionRegistry E W X)
    (execute : Execute E W X) (env : Environment) (bus : BusTag) (event : E) (w : W)
    (a : Nat) :
    (executeEvent reg execute env bus event w).preCalls a ≤
      ((reg.preHandlers.handlers bus).map HandlerStorage.addr).count a := by
  unfold Dispatch.preCalls
  rw [← fullTrace_count_pre (reg.preHandlers.handlers bus) (reg.postHandlers.handlers bus) a]
  exact List.Sublist.count_le
    ((executeEvent_trace_initial reg execute env bus event w).sublist.map Call.id) _

/-- A dispatch that ends without an exception calls the pre-handler slot at an address
as often as the vector of the tag holds it. -/
theorem preCalls_of_complete {E W X : Type} (reg : SubscriptionRegistry E W X)
    (execute : Execute E W X) (env : Environment) (bus : BusTag) (event : E) (w : W)
    (a : Nat) (hok : (executeEvent reg execute env bus event w).thrown = none) :
    (executeEvent reg execute env bus event w).preCalls a =
      ((reg.preHandlers.handlers bus).map HandlerStorage.addr).count a := by
  unfold Dispatch.preCalls
  rw [executeEvent_trace_complete reg execute env bus event w hok, fullTrace_count_pre]

theorem postCalls_le {E W X : Type} (reg : SubscriptionRegistry E W X)
    (execute : Execute E W X) (env : Environment) (bus : BusTag) (event : E) (w : W)
    (a : Nat) :
    (executeEvent reg execute env bus event w).postCalls a ≤
      ((reg.postHandlers.handlers bus).map HandlerStorage.addr).count a := by
  unfold Dispatch.postCalls
  rw [← fullTrace_count_post (reg.preHandlers.handlers bus) (reg.postHandlers.handlers bus) a]
  exact List.Sublist.count_le
    ((executeEvent_trace_initial reg execute env bus event w).sublist.map Call.id) _

theorem postCalls_of_complete {E W X : Type} (reg : SubscriptionRegistry E W X)
    (execute : Execute E W X) (env : Environment) (bus : BusTag) (event : E) (w : W)
    (a : Nat) (hok : (executeEvent reg execute env bus event w).thrown = none) :
    (executeEvent reg execute env bus event w).postCalls a =
      ((reg.postHandlers.handlers bus).map HandlerStorage.addr).count a := by
  unfold Dispatch.postCalls
  rw [executeEvent_trace_complete reg execute env bus event w hok, fullTrace_count_post]

theorem count_addr_of_fresh {T : Type} (l : List (HandlerStorage T)) (a : Nat)
    (h : ∀ x ∈ l, x.addr ≠ a) : (l.map HandlerStorage.addr).count a = 0 := by
  rw [List.count_eq_zero]
  intro hmem
  obtain ⟨x, hx, hxa⟩ := List.mem_map.mp hmem
  exact h x hx hxa

theorem count_addr_snoc_same {T : Type} (l : List (HandlerStorage T)) (x : HandlerStorage T)
    (h : ∀ y ∈ l, y.addr ≠ x.addr) : ((l ++ [x]).map HandlerStorage.addr).count x.addr = 1 := by
  rw [List.map_append, List.count_append, count_addr_of_fresh l x.addr h]
  simp

theorem count_addr_snoc_other {T : Type} (l : List (HandlerStorage T)) (x : HandlerStorage T)
    (a : Nat) (h : ∀ y ∈ l, y.addr ≠ a) (hx : x.addr ≠ a) :
    ((l ++ [x]).map HandlerStorage.addr).count a = 0 :=
  count_addr_of_fresh (l ++ [x]) a (by
    intro y hy
    rcases List.mem_append.mp hy with hy | hy
    · exact h y hy
    · rw [List.mem_singleton.mp hy]; exact hx)

theorem count_addr_pair_first {T : Type} (l : List (HandlerStorage T))
    (x y : HandlerStorage T) (h : ∀ z ∈ l, z.addr ≠ x.addr) (hxy : x.addr ≠ y.addr) :
    ((l ++ [x, y]).map HandlerStorage.addr).count x.addr = 1 := by
  rw [List.map_append, List.count_append, count_addr_of_fresh l x.addr h]
  simp [List.count_cons, hxy.symm]

theorem count_addr_pair_second {T : Type} (l : List (HandlerStorage T))
    (x y : HandlerStorage T) (h : ∀ z ∈ l, z.addr ≠ y.addr) (hxy : x.addr ≠ y.addr) :
    ((l ++ [x, y]).map HandlerStorage.addr).count y.addr = 1 := by
  rw [List.map_append, List.count_append, count_addr_of_fresh l y.addr h]
  simp [List.count_cons, hxy]

theorem minusEq_pair_first {T : Type} (l : List (HandlerStorage T)) (x y : HandlerStorage T)
    (h : ∀ z ∈ l, z.addr ≠ x.addr) : minusEq (l ++ [x, y]) x = l ++ [y] :=
  minusEq_append_cons l [y] x x rfl h

theorem minusEq_pair_second {T : Type} (l : List (HandlerStorage T)) (x y : HandlerStorage T)
    (h : ∀ z ∈ l, z.addr ≠ y.addr) (hxy : x.addr ≠ y.addr) :
    minusEq (l ++ [x, y]) y = l ++ [x] := by
  have h2 := minusEq_append_cons (l ++ [x]) [] y y rfl (by
    intro z hz
    rcases List.mem_append.mp hz with hz | hz
    · exact h z hz
    · rw [List.mem_singleton.mp hz]; exact hxy)
  simpa using h2

theorem minusEq_snoc {T : Type} (l : List (HandlerStorage T)) (x : HandlerStorage T)
    (h : ∀ z ∈ l, z.addr ≠ x.addr) : minusEq (l ++ [x]) x = l := by
  have h2 := minusEq_append_cons l [] x x rfl h
  simpa using h2

theorem preDestructor_at_tag {E W X : Type} (sub : PreSubscription E W X)
    (reg : SubscriptionRegistry E W X) (v : List (PreHandlerStorage E W X))
    (hv : reg.preHandlers sub.tag = some v) :
    (sub.destructor reg).preHandlers sub.tag = some (minusEq v sub.cb) := by
  rw [preDestructor_preHandlers, if_pos rfl, hv]
  rfl

theorem preDestructor_off_tag {E W X : Type} (sub : PreSubscription E W X)
    (reg : SubscriptionRegistry E W X) (k : BusTag) (hk : k ≠ sub.tag) :
    (sub.destructor reg).preHandlers k = reg.preHandlers k := by
  rw [preDestructor_preHandlers, if_neg hk]

/-- The same callback subscribed twice under one tag with `subscribeBefore`, on any
registry whose vector of the tag holds no object at the two new addresses. -/
theorem twiceBefore_entries {E W X : Type} (reg : SubscriptionRegistry E W X) (tag : BusTag)
    (h : PreHandler E W X) (a1 a2 : Nat) (ha : a1 ≠ a2)
    (hf : ∀ x ∈ reg.preHandlers.handlers tag, x.addr ≠ a1 ∧ x.addr ≠ a2)
    (execute : Execute E W X) (env : Environment) (event : E) (w : W) :
    ∀ R s1 s2, twiceBefore reg tag h a1 a2 = (R, s1, s2) →
      R.preHandlers tag = some (reg.preHandlers.handlers tag ++ [⟨a1, h⟩, ⟨a2, h⟩]) ∧
      ((executeEvent R execute env tag event w).thrown = none →
        (executeEvent R execute env tag event w).preCalls a1 = 1 ∧
        (executeEvent R execute env tag event w).preCalls a2 = 1) ∧
      ((s1.destructor R).preHandlers tag = some (reg.preHandlers.handlers tag ++ [⟨a2, h⟩]) ∧
        (s1.destructor R).postHandlers = R.postHandlers ∧
        (∀ k, k ≠ tag → (s1.destructor R).preHandlers k = R.preHandlers k) ∧
        (executeEvent (s1.destructor R) execute env tag event w).preCalls a1 = 0 ∧
        ((executeEvent (s1.destructor R) execute env tag event w).thrown = none →
          (executeEvent (s1.destructor R) execute env tag event w).preCalls a2 = 1)) ∧
      ((s2.destructor R).preHandlers tag = some (reg.preHandlers.handlers tag ++ [⟨a1, h⟩]) ∧
        (s2.destructor R).postHandlers = R.postHandlers ∧
        (∀ k, k ≠ tag → (s2.destructor R).preHandlers k = R.preHandlers k) ∧
        (executeEvent (s2.destructor R) execute env tag event w).preCalls a2 = 0 ∧
        ((executeEvent (s2.destructor R) execute env tag event w).thrown = none →
          (executeEvent (s2.destructor R) execute env tag event w).preCalls a1 = 1)) ∧
      ((s2.destructor (s1.destructor R)).preHandlers tag = some (reg.preHandlers.handlers tag) ∧
        (executeEvent (s2.destructor (s1.destructor R)) execute env tag event w).preCalls a1
          = 0 ∧
        (executeEvent (s2.destructor (s1.destructor R)) execute env tag event w).preCalls a2
          = 0 ∧
        executeEvent (s2.destructor (s1.destructor R)) execute env tag event w =
          executeEvent reg execute env tag event w) ∧
      ((s1.destructor (s2.destructor R)).preHandlers tag = some (reg.preHandlers.handlers tag) ∧
        (executeEvent (s1.destructor (s2.destructor R)) execute env tag event w).preCalls a1
          = 0 ∧
        (executeEvent (s1.destructor (s2.destructor R)) execute env tag event w).preCalls a2
          = 0 ∧
        executeEvent (s1.destructor (s2.destructor R)) execute env tag event w =
          executeEvent reg execute env tag event w) := by
  intro R s1 s2 heq
  obtain ⟨hR, hs⟩ := Prod.mk.inj heq
  obtain ⟨hs1, hs2⟩ := Prod.mk.inj hs
  have e1 : s1 = ⟨⟨a1, h⟩, tag⟩ := hs1.symm
  have e2 : s2 = ⟨⟨a2, h⟩, tag⟩ := hs2.symm
  have ha2 : a2 ≠ a1 := fun e => ha e.symm
  have hf1 : ∀ z ∈ reg.preHandlers.handlers tag, z.addr ≠ a1 := fun z hz => (hf z hz).1
  have hf2 : ∀ z ∈ reg.preHandlers.handlers tag, z.addr ≠ a2 := fun z hz => (hf z hz).2
  have hmap : R.preHandlers tag = some (reg.preHandlers.handlers tag ++ [⟨a1, h⟩, ⟨a2, h⟩]) := by
    rw [← hR]
    simp [twiceBefore, subscribeBefore, HandlerMap.pushBack_same, HandlerMap.handlers_pushBack_same]
  have hoth : R.postHandlers = reg.postHandlers := by rw [← hR]; rfl
  subst e1 e2
  clear hR hs hs1 hs2 heq
  have hval : ∀ (r : SubscriptionRegistry E W X) (v : List (PreHandlerStorage E W X)),
      r.preHandlers tag = some v → r.preHandlers.handlers tag = v := by
    intro r v hv
    simp [HandlerMap.handlers, hv]
  have d1 : ((⟨⟨a1, h⟩, tag⟩ : PreSubscription E W X).destructor R).preHandlers tag =
      some (reg.preHandlers.handlers tag ++ [⟨a2, h⟩]) :=
    (preDestructor_at_tag (⟨⟨a1, h⟩, tag⟩ : PreSubscription E W X) R _ hmap).trans
      (congrArg some (minusEq_pair_first _ ⟨a1, h⟩ ⟨a2, h⟩ hf1))
  have d2 : ((⟨⟨a2, h⟩, tag⟩ : PreSubscription E W X).destructor R).preHandlers tag =
      some (reg.preHandlers.handlers tag ++ [⟨a1, h⟩]) :=
    (preDestructor_at_tag (⟨⟨a2, h⟩, tag⟩ : PreSubscription E W X) R _ hmap).trans
      (congrArg some (minusEq_pair_second _ ⟨a1, h⟩ ⟨a2, h⟩ hf2 ha))
  have d12 : ((⟨⟨a2, h⟩, tag⟩ : PreSubscription E W X).destructor
      ((⟨⟨a1, h⟩, tag⟩ : PreSubscription E W X).destructor R)).preHandlers tag =
      some (reg.preHandlers.handlers tag) :=
    (preDestructor_at_tag (⟨⟨a2, h⟩, tag⟩ : PreSubscription E W X) _ _ d1).trans
      (congrArg some (minusEq_snoc _ ⟨a2, h⟩ hf2))
  have d21 : ((⟨⟨a1, h⟩, tag⟩ : PreSubscription E W X).destructor
      ((⟨⟨a2, h⟩, tag⟩ : PreSubscription E W X).destructor R)).preHandlers tag =
      some (reg.preHandlers.handlers tag) :=
    (preDestructor_at_tag (⟨⟨a1, h⟩, tag⟩ : PreSubscription E W X) _ _ d2).trans
      (congrArg some (minusEq_snoc _ ⟨a1, h⟩ hf1))
  have c1 : ((reg.preHandlers.handlers tag ++ [(⟨a1, h⟩ : PreHandlerStorage E W X), ⟨a2, h⟩]).map
      HandlerStorage.addr).count a1 = 1 :=
    count_addr_pair_first _ ⟨a1, h⟩ ⟨a2, h⟩ hf1 ha
  have c2 : ((reg.preHandlers.handlers tag ++ [(⟨a1, h⟩ : PreHandlerStorage E W X), ⟨a2, h⟩]).map
      HandlerStorage.addr).count a2 = 1 :=
    count_addr_pair_second _ ⟨a1, h⟩ ⟨a2, h⟩ hf2 ha
  have z0 : ∀ (r : SubscriptionRegistry E W X) (a : Nat),
      ((r.preHandlers.handlers tag).map HandlerStorage.addr).count a = 0 →
      (executeEvent r execute env tag event w).preCalls a = 0 := by
    intro r a hz
    exact Nat.le_zero.mp (hz ▸ preCalls_le r execute env tag event w a)
  refine ⟨hmap, ?_, ⟨d1, preDestructor_postHandlers _ R, ?_, ?_, ?_⟩, ⟨d2, preDestructor_postHandlers _ R, ?_, ?_, ?_⟩,
    ⟨d12, ?_, ?_, ?_⟩, ⟨d21, ?_, ?_, ?_⟩⟩
  · intro hok
    constructor
    · rw [preCalls_of_complete R execute env tag event w a1 hok, hval R _ hmap]
      exact c1
    · rw [preCalls_of_complete R execute env tag event w a2 hok, hval R _ hmap]
      exact c2
  · intro k hk
    exact preDestructor_off_tag (⟨⟨a1, h⟩, tag⟩ : PreSubscription E W X) R k hk
  · apply z0
    rw [hval _ _ d1]
    exact count_addr_snoc_other _ ⟨a2, h⟩ a1 hf1 ha2
  · intro hok
    rw [preCalls_of_complete _ execute env tag event w a2 hok, hval _ _ d1]
    exact count_addr_snoc_same _ ⟨a2, h⟩ hf2
  · intro k hk
    exact preDestructor_off_tag (⟨⟨a2, h⟩, tag⟩ : PreSubscription E W X) R k hk
  · apply z0
    rw [hval _ _ d2]
    exact count_addr_snoc_other _ ⟨a1, h⟩ a2 hf2 ha
  · intro hok
    rw [preCalls_of_complete _ execute env tag event w a1 hok, hval _ _ d2]
    exact count_addr_snoc_same _ ⟨a1, h⟩ hf1
  · apply z0
    rw [hval _ _ d12]
    exact count_addr_of_fresh _ a1 hf1
  · apply z0
    rw [hval _ _ d12]
    exact count_addr_of_fresh _ a2 hf2
  · apply executeEvent_congr
    · exact hval _ _ d12
    · rw [preDestructor_postHandlers, preDestructor_postHandlers, hoth]
  · apply z0
    rw [hval _ _ d21]
    exact count_addr_of_fresh _ a1 hf1
  · apply z0
    rw [hval _ _ d21]
    exact count_addr_of_fresh _ a2 hf2
  · apply executeEvent_congr
    · exact hval _ _ d21
    · rw [preDestructor_postHandlers, preDestructor_postHandlers, hoth]

/-- The same callback subscribed under two different tags with `subscribeBefore`, on any
registry whose vectors of the two tags hold no object at the new address. -/
theorem underTwoTags_entries {E W X : Type} (reg : SubscriptionRegistry E W X)
    (h : PreHandler E W X) (a1 a2 : Nat) (t1 t2 : BusTag) (ht : t1 ≠ t2)
    (hf1 : ∀ x ∈ reg.preHandlers.handlers t1, x.addr ≠ a1)
    (hf2 : ∀ x ∈ reg.preHandlers.handlers t2, x.addr ≠ a2) :
    ∀ R s1 s2, underTwoTags reg t1 t2 h a1 a2 = (R, s1, s2) →
      R.preHandlers t1 = some (reg.preHandlers.handlers t1 ++ [⟨a1, h⟩]) ∧
      R.preHandlers t2 = some (reg.preHandlers.handlers t2 ++ [⟨a2, h⟩]) ∧
      (s1.destructor R).preHandlers t1 = some (reg.preHandlers.handlers t1) ∧
      (s1.destructor R).preHandlers t2 = R.preHandlers t2 ∧
      (s2.destructor R).preHandlers t1 = R.preHandlers t1 ∧
      (s2.destructor R).preHandlers t2 = some (reg.preHandlers.handlers t2) ∧
      (s2.destructor (s1.destructor R)).preHandlers t1 = some (reg.preHandlers.handlers t1) ∧
      (s2.destructor (s1.destructor R)).preHandlers t2 = some (reg.preHandlers.handlers t2) := by
  intro R s1 s2 heq
  obtain ⟨hR, hs⟩ := Prod.mk.inj heq
  obtain ⟨hs1, hs2⟩ := Prod.mk.inj hs
  have e1 : s1 = ⟨⟨a1, h⟩, t1⟩ := hs1.symm
  have e2 : s2 = ⟨⟨a2, h⟩, t2⟩ := hs2.symm
  have ht2 : t2 ≠ t1 := fun e => ht e.symm
  have hm1 : R.preHandlers t1 = some (reg.preHandlers.handlers t1 ++ [⟨a1, h⟩]) := by
    rw [← hR]
    simp [underTwoTags, subscribeBefore, HandlerMap.pushBack_other _ _ _ _ ht,
      HandlerMap.pushBack_same]
  have hm2 : R.preHandlers t2 = some (reg.preHandlers.handlers t2 ++ [⟨a2, h⟩]) := by
    rw [← hR]
    simp [underTwoTags, subscribeBefore, HandlerMap.pushBack_same,
      HandlerMap.handlers_pushBack_other _ _ _ _ ht2]
  subst e1 e2
  clear hR hs hs1 hs2 heq
  have d1 : ((⟨⟨a1, h⟩, t1⟩ : PreSubscription E W X).destructor R).preHandlers t1 =
      some (reg.preHandlers.handlers t1) :=
    (preDestructor_at_tag (⟨⟨a1, h⟩, t1⟩ : PreSubscription E W X) R _ hm1).trans
      (congrArg some (minusEq_snoc _ ⟨a1, h⟩ hf1))
  have d1o : ((⟨⟨a1, h⟩, t1⟩ : PreSubscription E W X).destructor R).preHandlers t2 = R.preHandlers t2 :=
    preDestructor_off_tag (⟨⟨a1, h⟩, t1⟩ : PreSubscription E W X) R t2 ht2
  have d2 : ((⟨⟨a2, h⟩, t2⟩ : PreSubscription E W X).destructor R).preHandlers t2 =
      some (reg.preHandlers.handlers t2) :=
    (preDestructor_at_tag (⟨⟨a2, h⟩, t2⟩ : PreSubscription E W X) R _ hm2).trans
      (congrArg some (minusEq_snoc _ ⟨a2, h⟩ hf2))
  have d2o : ((⟨⟨a2, h⟩, t2⟩ : PreSubscription E W X).destructor R).preHandlers t1 = R.preHandlers t1 :=
    preDestructor_off_tag (⟨⟨a2, h⟩, t2⟩ : PreSubscription E W X) R t1 ht
  refine ⟨hm1, hm2, d1, d1o, d2o, d2, ?_, ?_⟩
  · exact (preDestructor_off_tag (⟨⟨a2, h⟩, t2⟩ : PreSubscription E W X) _ t1 ht).trans d1
  · exact (preDestructor_at_tag (⟨⟨a2, h⟩, t2⟩ : PreSubscription E W X) _ _ (d1o.trans hm2)).trans
      (congrArg some (minusEq_snoc _ ⟨a2, h⟩ hf2))

theorem postDestructor_at_tag {E W X : Type} (sub : PostSubscription E W X)
    (reg : SubscriptionRegistry E W X) (v : List (PostHandlerStorage E W X))
    (hv : reg.postHandlers sub.tag = some v) :
    (sub.destructor reg).postHandlers sub.tag = some (minusEq v sub.cb) := by
  rw [postDestructor_postHandlers, if_pos rfl, hv]
  rfl

theorem postDestructor_off_tag {E W X : Type} (sub : PostSubscription E W X)
    (reg : SubscriptionRegistry E W X) (k : BusTag) (hk : k ≠ sub.tag) :
    (sub.destructor reg).postHandlers k = reg.postHandlers k := by
  rw [postDestructor_postHandlers, if_neg hk]

/-- The same callback subscribed twice under one tag with `subscribeAfter`, on any
registry whose vector of the tag holds no object at the two new addresses. -/
theorem twiceAfter_entries {E W X : Type} (reg : SubscriptionRegistry E W X) (tag : BusTag)
    (h : PostHandler E W X) (a1 a2 : Nat) (ha : a1 ≠ a2)
    (hf : ∀ x ∈ reg.postHandlers.handlers tag, x.addr ≠ a1 ∧ x.addr ≠ a2)
    (execute : Execute E W X) (env : Environment) (event : E) (w : W) :
    ∀ R s1 s2, twiceAfter reg tag h a1 a2 = (R, s1, s2) →
      R.postHandlers tag = some (reg.postHandlers.handlers tag ++ [⟨a1, h⟩, ⟨a2, h⟩]) ∧
      ((executeEvent R execute env tag event w).thrown = none →
        (executeEvent R execute env tag event w).postCalls a1 = 1 ∧
        (executeEvent R execute env tag event w).postCalls a2 = 1) ∧
      ((s1.destructor R).postHandlers tag = some (reg.postHandlers.handlers tag ++ [⟨a2, h⟩]) ∧
        (s1.destructor R).preHandlers = R.preHandlers ∧
        (∀ k, k ≠ tag → (s1.destructor R).postHandlers k = R.postHandlers k) ∧
        (executeEvent (s1.destructor R) execute env tag event w).postCalls a1 = 0 ∧
        ((executeEvent (s1.destructor R) execute env tag event w).thrown = none →
          (executeEvent (s1.destructor R) execute env tag event w).postCalls a2 = 1)) ∧
      ((s2.destructor R).postHandlers tag = some (reg.postHandlers.handlers tag ++ [⟨a1, h⟩]) ∧
        (s2.destructor R).preHandlers = R.preHandlers ∧
        (∀ k, k ≠ tag → (s2.destructor R).postHandlers k = R.postHandlers k) ∧
        (executeEvent (s2.destructor R) execute env tag event w).postCalls a2 = 0 ∧
        ((executeEvent (s2.destructor R) execute env tag event w).thrown = none →
          (executeEvent (s2.destructor R) execute env tag event w).postCalls a1 = 1)) ∧
      ((s2.destructor (s1.destructor R)).postHandlers tag = some (reg.postHandlers.handlers tag) ∧
        (executeEvent (s2.destructor (s1.destructor R)) execute env tag event w).postCalls a1
          = 0 ∧
        (executeEvent (s2.destructor (s1.destructor R)) execute env tag event w).postCalls a2
          = 0 ∧
        executeEvent (s2.destructor (s1.destructor R)) execute env tag event w =
          executeEvent reg execute env tag event w) ∧
      ((s1.destructor (s2.destructor R)).postHandlers tag = some (reg.postHandlers.handlers tag) ∧
        (executeEvent (s1.destructor (s2.destructor R)) execute env tag event w).postCalls a1
          = 0 ∧
        (executeEvent (s1.destructor (s2.destructor R)) execute env tag event w).postCalls a2
          = 0 ∧
        executeEvent (s1.destructor (s2.destructor R)) execute env tag event w =
          executeEvent reg execute env tag event w) := by
  intro R s1 s2 heq
  obtain ⟨hR, hs⟩ := Prod.mk.inj heq
  obtain ⟨hs1, hs2⟩ := Prod.mk.inj hs
  have e1 : s1 = ⟨tag, ⟨a1, h⟩⟩ := hs1.symm
  have e2 : s2 = ⟨tag, ⟨a2, h⟩⟩ := hs2.symm
  have ha2 : a2 ≠ a1 := fun e => ha e.symm
  have hf1 : ∀ z ∈ reg.postHandlers.handlers tag, z.addr ≠ a1 := fun z hz => (hf z hz).1
  have hf2 : ∀ z ∈ reg.postHandlers.handlers tag, z.addr ≠ a2 := fun z hz => (hf z hz).2
  have hmap : R.postHandlers tag = some (reg.postHandlers.handlers tag ++ [⟨a1, h⟩, ⟨a2, h⟩]) := by
    rw [← hR]
    simp [twiceAfter, subscribeAfter, HandlerMap.pushBack_same, HandlerMap.handlers_pushBack_same]
  have hoth : R.preHandlers = reg.preHandlers := by rw [← hR]; rfl
  subst e1 e2
  clear hR hs hs1 hs2 heq
  have hval : ∀ (r : SubscriptionRegistry E W X) (v : List (PostHandlerStorage E W X)),
      r.postHandlers tag = some v → r.postHandlers.handlers tag = v := by
    intro r v hv
    simp [HandlerMap.handlers, hv]
  have d1 : ((⟨tag, ⟨a1, h⟩⟩ : PostSubscription E W X).destructor R).postHandlers tag =
      some (reg.postHandlers.handlers tag ++ [⟨a2, h⟩]) :=
    (postDestructor_at_tag (⟨tag, ⟨a1, h⟩⟩ : PostSubscription E W X) R _ hmap).trans
      (congrArg some (minusEq_pair_first _ ⟨a1, h⟩ ⟨a2, h⟩ hf1))
  have d2 : ((⟨tag, ⟨a2, h⟩⟩ : PostSubscription E W X).destructor R).postHandlers tag =
      some (reg.postHandlers.handlers tag ++ [⟨a1, h⟩]) :=
    (postDestructor_at_tag (⟨tag, ⟨a2, h⟩⟩ : PostSubscription E W X) R _ hmap).trans
      (congrArg some (minusEq_pair_second _ ⟨a1, h⟩ ⟨a2, h⟩ hf2 ha))
  have d12 : ((⟨tag, ⟨a2, h⟩⟩ : PostSubscription E W X).destructor
      ((⟨tag, ⟨a1, h⟩⟩ : PostSubscription E W X).destructor R)).postHandlers tag =
      some (reg.postHandlers.handlers tag) :=
    (postDestructor_at_tag (⟨tag, ⟨a2, h⟩⟩ : PostSubscription E W X) _ _ d1).trans
      (congrArg some (minusEq_snoc _ ⟨a2, h⟩ hf2))
  have d21 : ((⟨tag, ⟨a1, h⟩⟩ : PostSubscription E W X).destructor
      ((⟨tag, ⟨a2, h⟩⟩ : PostSubscription E W X).destructor R)).postHandlers tag =
      some (reg.postHandlers.handlers tag) :=
    (postDestructor_at_tag (⟨tag, ⟨a1, h⟩⟩ : PostSubscription E W X) _ _ d2).trans
      (congrArg some (minusEq_snoc _ ⟨a1, h⟩ hf1))
  have c1 : ((reg.postHandlers.handlers tag ++ [(⟨a1, h⟩ : PostHandlerStorage E W X), ⟨a2, h⟩]).map
      HandlerStorage.addr).count a1 = 1 :=
    count_addr_pair_first _ ⟨a1, h⟩ ⟨a2, h⟩ hf1 ha
  have c2 : ((reg.postHandlers.handlers tag ++ [(⟨a1, h⟩ : PostHandlerStorage E W X), ⟨a2, h⟩]).map
      HandlerStorage.addr).count a2 = 1 :=
    count_addr_pair_second _ ⟨a1, h⟩ ⟨a2, h⟩ hf2 ha
  have z0 : ∀ (r : SubscriptionRegistry E W X) (a : Nat),
      ((r.postHandlers.handlers tag).map HandlerStorage.addr).count a = 0 →
      (executeEvent r execute env tag event w).postCalls a = 0 := by
    intro r a hz
    exact Nat.le_zero.mp (hz ▸ postCalls_le r execute env tag event w a)
  refine ⟨hmap, ?_, ⟨d1, postDestructor_preHandlers _ R, ?_, ?_, ?_⟩, ⟨d2, postDestructor_preHandlers _ R, ?_, ?_, ?_⟩,
    ⟨d12, ?_, ?_, ?_⟩, ⟨d21, ?_, ?_, ?_⟩⟩
  · intro hok
    constructor
    · rw [postCalls_of_complete R execute env tag event w a1 hok, hval R _ hmap]
      exact c1
    · rw [postCalls_of_complete R execute env tag event w a2 hok, hval R _ hmap]
      exact c2
  · intro k hk
    exact postDestructor_off_tag (⟨tag, ⟨a1, h⟩⟩ : PostSubscription E W X) R k hk
  · apply z0
    rw [hval _ _ d1]
    exact count_addr_snoc_other _ ⟨a2, h⟩ a1 hf1 ha2
  · intro hok
    rw [postCalls_of_complete _ execute env tag event w a2 hok, hval _ _ d1]
    exact count_addr_snoc_same _ ⟨a2, h⟩ hf2
  · intro k hk
    exact postDestructor_off_tag (⟨tag, ⟨a2, h⟩⟩ : PostSubscription E W X) R k hk
  · apply z0
    rw [hval _ _ d2]
    exact count_addr_snoc_other _ ⟨a1, h⟩ a2 hf2 ha
  · intro hok
    rw [postCalls_of_complete _ execute env tag event w a1 hok, hval _ _ d2]
    exact count_addr_snoc_same _ ⟨a1, h⟩ hf1
  · apply z0
    rw [hval _ _ d12]
    exact count_addr_of_fresh _ a1 hf1
  · apply z0
    rw [hval _ _ d12]
    exact count_addr_of_fresh _ a2 hf2
  · apply executeEvent_congr
    · rw [postDestructor_preHandlers, postDestructor_preHandlers, hoth]
    · exact hval _ _ d12
  · apply z0
    rw [hval _ _ d21]
    exact count_addr_of_fresh _ a1 hf1
  · apply z0
    rw [hval _ _ d21]
    exact count_addr_of_fresh _ a2 hf2
  · apply executeEvent_congr
    · rw [postDestructor_preHandlers, postDestructor_preHandlers, hoth]
    · exact hval _ _ d21

/-- The same callback subscribed under two different tags with `subscribeAfter`, on any
registry whose vectors of the two tags hold no object at the new address. -/
theorem underTwoTagsAfter_entries {E W X : Type} (reg : SubscriptionRegistry E W X)
    (h : PostHandler E W X) (a1 a2 : Nat) (t1 t2 : BusTag) (ht : t1 ≠ t2)
    (hf1 : ∀ x ∈ reg.postHandlers.handlers t1, x.addr ≠ a1)
    (hf2 : ∀ x ∈ reg.postHandlers.handlers t2, x.addr ≠ a2) :
    ∀ R s1 s2, underTwoTagsAfter reg t1 t2 h a1 a2 = (R, s1, s2) →
      R.postHandlers t1 = some (reg.postHandlers.handlers t1 ++ [⟨a1, h⟩]) ∧
      R.postHandlers t2 = some (reg.postHandlers.handlers t2 ++ [⟨a2, h⟩]) ∧
      (s1.destructor R).postHandlers t1 = some (reg.postHandlers.handlers t1) ∧
      (s1.destructor R).postHandlers t2 = R.postHandlers t2 ∧
      (s2.destructor R).postHandlers t1 = R.postHandlers t1 ∧
      (s2.destructor R).postHandlers t2 = some (reg.postHandlers.handlers t2) ∧
      (s2.destructor (s1.destructor R)).postHandlers t1 = some (reg.postHandlers.handlers t1) ∧
      (s2.destructor (s1.destructor R)).postHandlers t2 = some (reg.postHandlers.handlers t2) := by
  intro R s1 s2 heq
  obtain ⟨hR, hs⟩ := Prod.mk.inj heq
  obtain ⟨hs1, hs2⟩ := Prod.mk.inj hs
  have e1 : s1 = ⟨t1, ⟨a1, h⟩⟩ := hs1.symm
  have e2 : s2 = ⟨t2, ⟨a2, h⟩⟩ := hs2.symm
  have ht2 : t2 ≠ t1 := fun e => ht e.symm
  have hm1 : R.postHandlers t1 = some (reg.postHandlers.handlers t1 ++ [⟨a1, h⟩]) := by
    rw [← hR]
    simp [underTwoTagsAfter, subscribeAfter, HandlerMap.pushBack_other _ _ _ _ ht,
      HandlerMap.pushBack_same]
  have hm2 : R.postHandlers t2 = some (reg.postHandlers.handlers t2 ++ [⟨a2, h⟩]) := by
    rw [← hR]
    simp [underTwoTagsAfter, subscribeAfter, HandlerMap.pushBack_same,
      HandlerMap.handlers_pushBack_other _ _ _ _ ht2]
  subst e1 e2
  clear hR hs hs1 hs2 heq
  have d1 : ((⟨t1, ⟨a1, h⟩⟩ : PostSubscription E W X).destructor R).postHandlers t1 =
      some (reg.postHandlers.handlers t1) :=
    (postDestructor_at_tag (⟨t1, ⟨a1, h⟩⟩ : PostSubscription E W X) R _ hm1).trans
      (congrArg some (minusEq_snoc _ ⟨a1, h⟩ hf1))
  have d1o : ((⟨t1, ⟨a1, h⟩⟩ : PostSubscription E W X).destructor R).postHandlers t2 = R.postHandlers t2 :=
    postDestructor_off_tag (⟨t1, ⟨a1, h⟩⟩ : PostSubscription E W X) R t2 ht2
  have d2 : ((⟨t2, ⟨a2, h⟩⟩ : PostSubscription E W X).destructor R).postHandlers t2 =
      some (reg.postHandlers.handlers t2) :=
    (postDestructor_at_tag (⟨t2, ⟨a2, h⟩⟩ : PostSubscription E W X) R _ hm2).trans
      (congrArg some (minusEq_snoc _ ⟨a2, h⟩ hf2))
  have d2o : ((⟨t2, ⟨a2, h⟩⟩ : PostSubscription E W X).destructor R).postHandlers t1 = R.postHandlers t1 :=
    postDestructor_off_tag (⟨t2, ⟨a2, h⟩⟩ : PostSubscription E W X) R t1 ht
  refine ⟨hm1, hm2, d1, d1o, d2o, d2, ?_, ?_⟩
  · exact (postDestructor_off_tag (⟨t2, ⟨a2, h⟩⟩ : PostSubscription E W X) _ t1 ht).trans d1
  · exact (postDestructor_at_tag (⟨t2, ⟨a2, h⟩⟩ : PostSubscription E W X) _ _ (d1o.trans hm2)).trans
      (congrArg some (minusEq_snoc _ ⟨a2, h⟩ hf2))

/-- C7, as amended. Let the same callback be subscribed twice under one tag, on any
registry, at the distinct addresses `a1` and `a2` that `std::make_shared` returns, which
are the addresses of no object in the vector of the tag. The calls counted are those of
the two new slots, by `preCalls` and `postCalls`.
* Before: the vector of the tag is the old one followed by two slots with that callback;
  a dispatch to the tag that ends without an exception calls each of the two once;
  destroying either subscription takes exactly its slot out of the vector and leaves the
  other vectors as they are, the next dispatch does not call the slot taken out, and
  calls the other one once when it ends without an exception; destroying both, in either
  order, leaves the old vector, and the dispatch calls neither and is the dispatch on
  the registry before the two subscriptions.
* After: the same for `subscribeAfter`, `postHandlers` and `PostSubscription`.
* Subscribed under two different tags, before or after, the callback has one slot at
  the end of the vector of each tag; destroying either subscription takes its slot out
  of the vector of its own tag and leaves the vector of the other tag as it is. -/
theorem no_deduplication {E W X : Type} (reg : SubscriptionRegistry E W X) (tag : BusTag)
    (h : PreHandler E W X) (g : PostHandler E W X) (a1 a2 : Nat) (ha : a1 ≠ a2)
    (hpre : ∀ x ∈ reg.preHandlers.handlers tag, x.addr ≠ a1 ∧ x.addr ≠ a2)
    (hpost : ∀ x ∈ reg.postHandlers.handlers tag, x.addr ≠ a1 ∧ x.addr ≠ a2)
    (execute : Execute E W X) (env : Environment) (event : E) (w : W) :
    (∀ R s1 s2, twiceBefore reg tag h a1 a2 = (R, s1, s2) →
      R.preHandlers tag = some (reg.preHandlers.handlers tag ++ [⟨a1, h⟩, ⟨a2, h⟩]) ∧
      ((executeEvent R execute env tag event w).thrown = none →
        (executeEvent R execute env tag event w).preCalls a1 = 1 ∧
        (executeEvent R execute env tag event w).preCalls a2 = 1) ∧
      ((s1.destructor R).preHandlers tag = some (reg.preHandlers.handlers tag ++ [⟨a2, h⟩]) ∧
        (s1.destructor R).postHandlers = R.postHandlers ∧
        (∀ k, k ≠ tag → (s1.destructor R).preHandlers k = R.preHandlers k) ∧
        (executeEvent (s1.destructor R) execute env tag event w).preCalls a1 = 0 ∧
        ((executeEvent (s1.destructor R) execute env tag event w).thrown = none →
          (executeEvent (s1.destructor R) execute env tag event w).preCalls a2 = 1)) ∧
      ((s2.destructor R).preHandlers tag = some (reg.preHandlers.handlers tag ++ [⟨a1, h⟩]) ∧
        (s2.destructor R).postHandlers = R.postHandlers ∧
        (∀ k, k ≠ tag → (s2.destructor R).preHandlers k = R.preHandlers k) ∧
        (executeEvent (s2.destructor R) execute env tag event w).preCalls a2 = 0 ∧
        ((executeEvent (s2.destructor R) execute env tag event w).thrown = none →
          (executeEvent (s2.destructor R) execute env tag event w).preCalls a1 = 1)) ∧
      ((s2.destructor (s1.destructor R)).preHandlers tag = some (reg.preHandlers.handlers tag) ∧
        (executeEvent (s2.destructor (s1.destructor R)) execute env tag event w).preCalls a1
          = 0 ∧
        (executeEvent (s2.destructor (s1.destructor R)) execute env tag event w).preCalls a2
          = 0 ∧
        executeEvent (s2.destructor (s1.destructor R)) execute env tag event w =
          executeEvent reg execute env tag event w) ∧
      ((s1.destructor (s2.destructor R)).preHandlers tag = some (reg.preHandlers.handlers tag) ∧
        (executeEvent (s1.destructor (s2.destructor R)) execute env tag event w).preCalls a1
          = 0 ∧
        (executeEvent (s1.destructor (s2.destructor R)) execute env tag event w).preCalls a2
          = 0 ∧
        executeEvent (s1.destructor (s2.destructor R)) execute env tag event w =
          executeEvent reg execute env tag event w)) ∧
    (∀ R s1 s2, twiceAfter reg tag g a1 a2 = (R, s1, s2) →
      R.postHandlers tag = some (reg.postHandlers.handlers tag ++ [⟨a1, g⟩, ⟨a2, g⟩]) ∧
      ((executeEvent R execute env tag event w).thrown = none →
        (executeEvent R execute env tag event w).postCalls a1 = 1 ∧
        (executeEvent R execute env tag event w).postCalls a2 = 1) ∧
      ((s1.destructor R).postHandlers tag = some (reg.postHandlers.handlers tag ++ [⟨a2, g⟩]) ∧
        (s1.destructor R).preHandlers = R.preHandlers ∧
        (∀ k, k ≠ tag → (s1.destructor R).postHandlers k = R.postHandlers k) ∧
        (executeEvent (s1.destructor R) execute env tag event w).postCalls a1 = 0 ∧
        ((executeEvent (s1.destructor R) execute env tag event w).thrown = none →
          (executeEvent (s1.destructor R) execute env tag event w).postCalls a2 = 1)) ∧
      ((s2.destructor R).postHandlers tag = some (reg.postHandlers.handlers tag ++ [⟨a1, g⟩]) ∧
        (s2.destructor R).preHandlers = R.preHandlers ∧
        (∀ k, k ≠ tag → (s2.destructor R).postHandlers k = R.postHandlers k) ∧
        (executeEvent (s2.destructor R) execute env tag event w).postCalls a2 = 0 ∧
        ((executeEvent (s2.destructor R) execute env tag event w).thrown = none →
          (executeEvent (s2.destructor R) execute env tag event w).postCalls a1 = 1)) ∧
      ((s2.destructor (s1.destructor R)).postHandlers tag = some (reg.postHandlers.handlers tag) ∧
        (executeEvent (s2.destructor (s1.destructor R)) execute env tag event w).postCalls a1
          = 0 ∧
        (executeEvent (s2.destructor (s1.destructor R)) execute env tag event w).postCalls a2
          = 0 ∧
        executeEvent (s2.destructor (s1.destructor R)) execute env tag event w =
          executeEvent reg execute env tag event w) ∧
      ((s1.destructor (s2.destructor R)).postHandlers tag = some (reg.postHandlers.handlers tag) ∧
        (executeEvent (s1.destructor (s2.destructor R)) execute env tag event w).postCalls a1
          = 0 ∧
        (executeEvent (s1.destructor (s2.destructor R)) execute env tag event w).postCalls a2
          = 0 ∧
        executeEvent (s1.destructor (s2.destructor R)) execute env tag event w =
          executeEvent reg execute env tag event w)) ∧
    (∀ t1 t2, t1 ≠ t2 →
      (∀ x ∈ reg.preHandlers.handlers t1, x.addr ≠ a1) →
      (∀ x ∈ reg.preHandlers.handlers t2, x.addr ≠ a2) →
      ∀ R s1 s2, underTwoTags reg t1 t2 h a1 a2 = (R, s1, s2) →
        R.preHandlers t1 = some (reg.preHandlers.handlers t1 ++ [⟨a1, h⟩]) ∧
        R.preHandlers t2 = some (reg.preHandlers.handlers t2 ++ [⟨a2, h⟩]) ∧
        (s1.destructor R).preHandlers t1 = some (reg.preHandlers.handlers t1) ∧
        (s1.destructor R).preHandlers t2 = R.preHandlers t2 ∧
        (s2.destructor R).preHandlers t1 = R.preHandlers t1 ∧
        (s2.destructor R).preHandlers t2 = some (reg.preHandlers.handlers t2) ∧
        (s2.destructor (s1.destructor R)).preHandlers t1 = some (reg.preHandlers.handlers t1) ∧
        (s2.destructor (s1.destructor R)).preHandlers t2 = some (reg.preHandlers.handlers t2)) ∧
    (∀ t1 t2, t1 ≠ t2 →
      (∀ x ∈ reg.postHandlers.handlers t1, x.addr ≠ a1) →
      (∀ x ∈ reg.postHandlers.handlers t2, x.addr ≠ a2) →
      ∀ R s1 s2, underTwoTagsAfter reg t1 t2 g a1 a2 = (R, s1, s2) →
        R.postHandlers t1 = some (reg.postHandlers.handlers t1 ++ [⟨a1, g⟩]) ∧
        R.postHandlers t2 = some (reg.postHandlers.handlers t2 ++ [⟨a2, g⟩]) ∧
        (s1.destructor R).postHandlers t1 = some (reg.postHandlers.handlers t1) ∧
        (s1.destructor R).postHandlers t2 = R.postHandlers t2 ∧
        (s2.destructor R).postHandlers t1 = R.postHandlers t1 ∧
        (s2.destructor R).postHandlers t2 = some (reg.postHandlers.handlers t2) ∧
        (s2.destructor (s1.destructor R)).postHandlers t1 = some (reg.postHandlers.handlers t1) ∧
        (s2.destructor (s1.destructor R)).postHandlers t2 = some (reg.postHandlers.handlers t2)) :=
  ⟨twiceBefore_entries reg tag h a1 a2 ha hpre execute env event w,
    twiceAfter_entries reg tag g a1 a2 ha hpost execute env event w,
    fun t1 t2 ht hf1 hf2 => underTwoTags_entries reg h a1 a2 t1 t2 ht hf1 hf2,
    fun t1 t2 ht hf1 hf2 => underTwoTagsAfter_entries reg g a1 a2 t1 t2 ht hf1 hf2⟩

theorem incrObserve_fresh_pre :
    ∀ x ∈ incrObserve.preHandlers.handlers 1, x.addr ≠ 30 ∧ x.addr ≠ 31 := by
  intro x hx
  have hx2 : x = ⟨10, incr⟩ := by
    simpa [incrObserve, registerAll, Registration.apply, subscribeBefore, subscribeAfter,
      SubscriptionRegistry.empty, HandlerMap.handlers, HandlerMap.empty] using hx
  rw [hx2]
  decide

theorem incrObserve_fresh_post :
    ∀ x ∈ incrObserve.postHandlers.handlers 1, x.addr ≠ 30 ∧ x.addr ≠ 31 := by
  intro x hx
  have hx2 : x = ⟨20, observe⟩ := by
    simpa [incrObserve, registerAll, Registration.apply, subscribeBefore, subscribeAfter,
      SubscriptionRegistry.empty, HandlerMap.handlers, HandlerMap.empty] using hx
  rw [hx2]
  decide

/-- C7 at the registry `incrObserve`, which holds `incr` at `10` before and `observe` at
`20` after under tag `1`: `incr` is subscribed twice more before under tag `1`, at `30`
and `31`. The dispatch of `double` ends without an exception and calls each of the two
new slots once; after the first subscription is destroyed the dispatch calls the slot at
`31` once and the slot at `30` not at all; after both are destroyed the dispatch is the
one on `incrObserve`. -/
theorem no_deduplication_witness :
    (30 : Nat) ≠ 31 ∧
    (∀ x ∈ incrObserve.preHandlers.handlers 1, x.addr ≠ 30 ∧ x.addr ≠ 31) ∧
    (∀ x ∈ incrObserve.postHandlers.handlers 1, x.addr ≠ 30 ∧ x.addr ≠ 31) ∧
    ((executeEvent (twiceBefore incrObserve 1 incr 30 31).1 double 0 1 5 0).preCalls 30 = 1 ∧
      (executeEvent (twiceBefore incrObserve 1 incr 30 31).1 double 0 1 5 0).preCalls 31 = 1) ∧
    (executeEvent ((twiceBefore incrObserve 1 incr 30 31).2.1.destructor
      (twiceBefore incrObserve 1 incr 30 31).1) double 0 1 5 0).preCalls 30 = 0 ∧
    (executeEvent ((twiceBefore incrObserve 1 incr 30 31).2.1.destructor
      (twiceBefore incrObserve 1 incr 30 31).1) double 0 1 5 0).preCalls 31 = 1 ∧
    executeEvent ((twiceBefore incrObserve 1 incr 30 31).2.2.destructor
      ((twiceBefore incrObserve 1 incr 30 31).2.1.destructor
        (twiceBefore incrObserve 1 incr 30 31).1)) double 0 1 5 0 =
      executeEvent incrObserve double 0 1 5 0 :=
  ⟨by decide, incrObserve_fresh_pre, incrObserve_fresh_post,
    ((no_deduplication incrObserve 1 incr observe 30 31 (by decide) incrObserve_fresh_pre
      incrObserve_fresh_post double 0 5 0).1 _ _ _ rfl).2.1 rfl,
    ((no_deduplication incrObserve 1 incr observe 30 31 (by decide) incrObserve_fresh_pre
      incrObserve_fresh_post double 0 5 0).1 _ _ _ rfl).2.2.1.2.2.2.1,
    ((no_deduplication incrObserve 1 incr observe 30 31 (by decide) incrObserve_fresh_pre
      incrObserve_fresh_post double 0 5 0).1 _ _ _ rfl).2.2.1.2.2.2.2 rfl,
    ((no_deduplication incrObserve 1 incr observe 30 31 (by decide) incrObserve_fresh_pre
      incrObserve_fresh_post double 0 5 0).1 _ _ _ rfl).2.2.2.2.1.2.2.2⟩

/-- C7 as stated fails where a dispatch does not run to its end. `failing` subscribed
twice under tag `1` on the empty registry has two slots, at `10` and `11`, but a
dispatch to the tag calls it once, at the slot at `10`, where it throws. And on
`failingOnly`, which holds `failing` at `10` under tag `1`, `incr` is subscribed twice
under tag `1`, at `30` and `31`, and the first subscription is destroyed: the vector
holds the slots at `10` and `31`, and the next dispatch calls the slot at `10` only, so
that `incr` is called not once, but not at all. -/
theorem callback_registered_twice_called_once :
    (((twiceBefore SubscriptionRegistry.empty 1 failing 10 11).1.preHandlers.handlers 1).map
        HandlerStorage.addr = [10, 11] ∧
      (executeEvent (twiceBefore SubscriptionRegistry.empty 1 failing 10 11).1 double 0 1 5
        0).trace.map Call.id = [CallId.pre 10] ∧
      (executeEvent (twiceBefore SubscriptionRegistry.empty 1 failing 10 11).1 double 0 1 5
          0).preCalls 10 +
        (executeEvent (twiceBefore SubscriptionRegistry.empty 1 failing 10 11).1 double 0 1 5
          0).preCalls 11 = 1) ∧
    ((((twiceBefore failingOnly 1 incr 30 31).2.1.destructor
        (twiceBefore failingOnly 1 incr 30 31).1).preHandlers.handlers 1).map
        HandlerStorage.addr = [10, 31] ∧
      (executeEvent ((twiceBefore failingOnly 1 incr 30 31).2.1.destructor
        (twiceBefore failingOnly 1 incr 30 31).1) double 0 1 5 0).trace.map Call.id =
          [CallId.pre 10] ∧
      (executeEvent ((twiceBefore failingOnly 1 incr 30 31).2.1.destructor
        (twiceBefore failingOnly 1 incr 30 31).1) double 0 1 5 0).preCalls 31 = 0) := by
  refine ⟨⟨rfl, rfl, ?_⟩, ⟨rfl, rfl, ?_⟩⟩
  · decide
  · decide

/-! ### C8: what a subscription changes -/

/-- C8: `subscribeBefore(tag, cb)` is total; afterwards `preHandlers[tag]` is the old
vector, empty for an absent tag, followed by the one new slot holding `cb`, every other
tag of `preHandlers` and all of `postHandlers` are as before, and the subscription
returned holds that slot and the tag. The same for `subscribeAfter` with the two
collections swapped. -/
theorem subscribe_appends_one_slot {E W X : Type} (reg : SubscriptionRegistry E W X)
    (tag : BusTag) (cbPre : PreHandler E W X) (cbPost : PostHandler E W X) (addr : Nat) :
    ((subscribeBefore reg tag cbPre addr).1.preHandlers tag =
        some (reg.preHandlers.handlers tag ++ [⟨addr, cbPre⟩]) ∧
      (∀ t, t ≠ tag → (subscribeBefore reg tag cbPre addr).1.preHandlers t = reg.preHandlers t) ∧
      (subscribeBefore reg tag cbPre addr).1.postHandlers = reg.postHandlers ∧
      (subscribeBefore reg tag cbPre addr).2 = ⟨⟨addr, cbPre⟩, tag⟩) ∧
    ((subscribeAfter reg tag cbPost addr).1.postHandlers tag =
        some (reg.postHandlers.handlers tag ++ [⟨addr, cbPost⟩]) ∧
      (∀ t, t ≠ tag → (subscribeAfter reg tag cbPost addr).1.postHandlers t = reg.postHandlers t) ∧
      (subscribeAfter reg tag cbPost addr).1.preHandlers = reg.preHandlers ∧
      (subscribeAfter reg tag cbPost addr).2 = ⟨tag, ⟨addr, cbPost⟩⟩) := by
  refine ⟨⟨?_, ?_, rfl, rfl⟩, ⟨?_, ?_, rfl, rfl⟩⟩
  · simp [subscribeBefore]
  · intro t ht
    simp [subscribeBefore, HandlerMap.pushBack_other _ _ _ _ ht]
  · simp [subscribeAfter]
  · intro t ht
    simp [subscribeAfter, HandlerMap.pushBack_other _ _ _ _ ht]

/-! ### C9: a tag without handlers -/

theorem execute_called_once_of_pre_ok {E W X : Type} (reg : SubscriptionRegistry E W X)
    (execute : Execute E W X) (env : Environment) (bus : BusTag) (event : E) (w : W)
    (h1 : (forEachPre env bus (reg.preHandlers.handlers bus) ⟨[], event, w, none⟩).thrown
      = none) :
    ((executeEvent reg execute env bus event w).trace.map Call.id).count CallId.execute = 1 := by
  apply Nat.le_antisymm
  · have hsub := (executeEvent_trace_initial reg execute env bus event w).sublist
    have hle := (hsub.map Call.id).count_le CallId.execute
    rwa [fullTrace_count_execute] at hle
  · apply List.count_pos_iff.mpr
    apply List.mem_map.mpr
    refine ⟨Call.execute, ?_, rfl⟩
    rw [executeEvent_of_pre_ok reg execute env bus event w h1]
    split
    · simp [executePhase_trace]
    · obtain ⟨k, _, hk⟩ := forEachPost_initial env bus (reg.postHandlers.handlers bus)
        (executePhase execute env bus
          (forEachPre env bus (reg.preHandlers.handlers bus) ⟨[], event, w, none⟩))
      rw [hk]
      simp [executePhase_trace]

theorem handlers_eq_nil_of_absent_or_empty {T : Type} (m : HandlerMap T) (key : BusTag)
    (h : m key = none ∨ m key = some []) : m.handlers key = [] := by
  rcases h with h | h <;> simp [HandlerMap.handlers, h]

/-- C9, as amended: in a dispatch to a tag,
* if the tag is not a key of `preHandlers`, or is mapped to an empty vector, then no
  before-handler is called, the event's `execute` is called exactly once, and the
  dispatch is `execute` followed, when it does not throw, by the last block;
* if the tag is not a key of `postHandlers`, or is mapped to an empty vector, then no
  after-handler is called, the dispatch is the first block followed, when it does not
  throw, by `execute`, and `execute` is called exactly once provided no before-handler
  throws;
* a tag that is absent and a tag mapped to an empty vector give the same dispatch, in
  either collection, so the tag alone never makes `executeEvent` throw. -/
theorem dispatch_to_tag_without_handlers {E W X : Type} (reg : SubscriptionRegistry E W X)
    (execute : Execute E W X) (env : Environment) (bus : BusTag) (event : E) (w : W) :
    (reg.preHandlers bus = none ∨ reg.preHandlers bus = some [] →
      (∀ h, Call.pre h ∉ (executeEvent reg execute env bus event w).trace) ∧
      ((executeEvent reg execute env bus event w).trace.map Call.id).count CallId.execute = 1 ∧
      executeEvent reg execute env bus event w =
        match (executePhase execute env bus ⟨[], event, w, none⟩).thrown with
        | some _ => executePhase execute env bus ⟨[], event, w, none⟩
        | none => postPhase reg env bus (executePhase execute env bus ⟨[], event, w, none⟩)) ∧
    (reg.postHandlers bus = none ∨ reg.postHandlers bus = some [] →
      (∀ h, Call.post h ∉ (executeEvent reg execute env bus event w).trace) ∧
      ((prePhase reg env bus ⟨[], event, w, none⟩).thrown = none →
        ((executeEvent reg execute env bus event w).trace.map Call.id).count CallId.execute
          = 1) ∧
      executeEvent reg execute env bus event w =
        match (prePhase reg env bus ⟨[], event, w, none⟩).thrown with
        | some _ => prePhase reg env bus ⟨[], event, w, none⟩
        | none => executePhase execute env bus (prePhase reg env bus ⟨[], event, w, none⟩)) ∧
    (∀ post, executeEvent (reg.replaceTag bus none post) execute env bus event w =
      executeEvent (reg.replaceTag bus (some []) post) execute env bus event w) ∧
    (∀ pre, executeEvent (reg.replaceTag bus pre none) execute env bus event w =
      executeEvent (reg.replaceTag bus pre (some [])) execute env bus event w) := by
  refine ⟨?_, ?_, ?_, ?_⟩
  · intro habs
    have hnil := handlers_eq_nil_of_absent_or_empty _ _ habs
    have h1 : (forEachPre env bus (reg.preHandlers.handlers bus)
        (⟨[], event, w, none⟩ : Dispatch E W X)).thrown = none := by
      rw [hnil]; rfl
    refine ⟨?_, execute_called_once_of_pre_ok reg execute env bus event w h1, ?_⟩
    · intro h hh
      have hmem := (executeEvent_trace_initial reg execute env bus event w).subset hh
      simp [fullTrace, hnil] at hmem
    · rw [executeEvent_of_pre_ok reg execute env bus event w h1]
      simp only [hnil, forEachPre, postPhase_eq]
  · intro habs
    have hnil := handlers_eq_nil_of_absent_or_empty _ _ habs
    refine ⟨?_, ?_, ?_⟩
    · intro h hh
      have hmem := (executeEvent_trace_initial reg execute env bus event w).subset hh
      simp [fullTrace, hnil] at hmem
    · intro h1
      rw [prePhase_eq] at h1
      exact execute_called_once_of_pre_ok reg execute env bus event w h1
    · unfold executeEvent
      simp only [postPhase_eq, hnil, forEachPost]
      cases h1 : (prePhase reg env bus ⟨[], event, w, none⟩).thrown with
      | some x => rfl
      | none =>
        cases h2 : (executePhase execute env bus
          (prePhase reg env bus ⟨[], event, w, none⟩)).thrown <;> rfl
  · intro post
    apply executeEvent_congr <;> simp [SubscriptionRegistry.replaceTag, HandlerMap.handlers]
  · intro pre
    apply executeEvent_congr <;> simp [SubscriptionRegistry.replaceTag, HandlerMap.handlers]

/-- C9 at `observeOnly`, where tag `3` is not a key of `preHandlers`, and at
`incrObserve`, where tag `2` is not a key of `postHandlers`. -/
theorem dispatch_to_tag_without_handlers_witness :
    ((executeEvent observeOnly double 0 3 5 0).trace.map Call.id).count CallId.execute = 1 ∧
    ((executeEvent incrObserve double 0 2 5 0).trace.map Call.id).count CallId.execute = 1 :=
  ⟨((dispatch_to_tag_without_handlers observeOnly double 0 3 5 0).1 (Or.inl rfl)).2.1,
    ((dispatch_to_tag_without_handlers incrObserve double 0 2 5 0).2.1 (Or.inl rfl)).2.1 rfl⟩

/-- C9 as stated fails: in `failingOnly` tag `1` is not a key of `postHandlers`, the one
before-handler of the tag throws, and the event's `execute` is not called at all. -/
theorem execute_skipped_without_after_handlers :
    failingOnly.postHandlers 1 = none ∧
    (executeEvent failingOnly double 0 1 5 0).trace.map Call.id = [CallId.pre 10] ∧
    ((executeEvent failingOnly double 0 1 5 0).trace.map Call.id).count CallId.execute ≠ 1 := by
  refine ⟨rfl, rfl, ?_⟩
  decide

/-! ### C10: a failure ends the dispatch -/

/-- C10: in a dispatch to a tag,
* if the before-handlers of the tag are `l1 ++ h :: l2`, those of `l1` return and `h`,
  the handler number `l1.length + 1`, throws `x`, then the calls made are exactly those
  of the first `l1.length + 1` before-handlers, so neither `execute` nor an after-handler
  is called, and `executeEvent` throws `x`;
* if the before-handlers return and the event's `execute` throws `x`, then the calls
  made are the before-handlers and `execute`, no after-handler, and `executeEvent`
  throws `x`;
* if the before-handlers and `execute` return, the after-handlers are `m1 ++ h :: m2`,
  those of `m1` return and `h` throws `x`, then the calls made end with the call of `h`,
  so no handler of `m2` is called, and `executeEvent` throws `x`. -/
theorem failure_cuts_dispatch {E W X : Type} (reg : SubscriptionRegistry E W X)
    (execute : Execute E W X) (env : Environment) (bus : BusTag) (event : E) (w : W) (x : X) :
    (∀ l1 h l2, reg.preHandlers.handlers bus = l1 ++ h :: l2 →
      (forEachPre env bus l1 ⟨[], event, w, none⟩).thrown = none →
      (h.call env bus (forEachPre env bus l1 ⟨[], event, w, none⟩).event
        (forEachPre env bus l1 ⟨[], event, w, none⟩).world).thrown = some x →
      (executeEvent reg execute env bus event w).trace = (l1 ++ [h]).map Call.pre ∧
      (executeEvent reg execute env bus event w).thrown = some x) ∧
    ((prePhase reg env bus ⟨[], event, w, none⟩).thrown = none →
      (execute env bus (prePhase reg env bus ⟨[], event, w, none⟩).event
        (prePhase reg env bus ⟨[], event, w, none⟩).world).thrown = some x →
      (executeEvent reg execute env bus event w).trace =
        (reg.preHandlers.handlers bus).map Call.pre ++ [Call.execute] ∧
      (executeEvent reg execute env bus event w).thrown = some x) ∧
    (∀ m1 h m2, reg.postHandlers.handlers bus = m1 ++ h :: m2 →
      (prePhase reg env bus ⟨[], event, w, none⟩).thrown = none →
      (executePhase execute env bus (prePhase reg env bus ⟨[], event, w, none⟩)).thrown = none →
      (forEachPost env bus m1
        (executePhase execute env bus (prePhase reg env bus ⟨[], event, w, none⟩))).thrown
          = none →
      (h.call env bus
        (forEachPost env bus m1
          (executePhase execute env bus (prePhase reg env bus ⟨[], event, w, none⟩))).event
        (forEachPost env bus m1
          (executePhase execute env bus (prePhase reg env bus ⟨[], event, w, none⟩))).world).thrown
          = some x →
      (executeEvent reg execute env bus event w).trace =
        (reg.preHandlers.handlers bus).map Call.pre ++ [Call.execute] ++
          (m1 ++ [h]).map Call.post ∧
      (executeEvent reg execute env bus event w).thrown = some x) := by
  refine ⟨?_, ?_, ?_⟩
  · intro l1 h l2 hl h1 hx
    have hrun : forEachPre env bus (reg.preHandlers.handlers bus) ⟨[], event, w, none⟩ =
        ⟨(forEachPre env bus l1 ⟨[], event, w, none⟩).trace ++ [Call.pre h],
          (h.call env bus (forEachPre env bus l1 ⟨[], event, w, none⟩).event
            (forEachPre env bus l1 ⟨[], event, w, none⟩).world).event,
          (h.call env bus (forEachPre env bus l1 ⟨[], event, w, none⟩).event
            (forEachPre env bus l1 ⟨[], event, w, none⟩).world).world, some x⟩ := by
      rw [hl, forEachPre_append env bus l1 (h :: l2) _ h1,
        forEachPre_cons_throw env bus h l2 _ x hx]
    rw [executeEvent_of_pre_throw reg execute env bus event w x (by rw [hrun]), hrun]
    refine ⟨?_, rfl⟩
    simp [forEachPre_complete env bus l1 _ h1]
  · intro h1 hx
    rw [prePhase_eq] at h1 hx
    have h2 : (executePhase execute env bus
        (forEachPre env bus (reg.preHandlers.handlers bus) ⟨[], event, w, none⟩)).thrown
          = some x := hx
    rw [executeEvent_of_pre_ok reg execute env bus event w h1]
    simp only [h2]
    refine ⟨?_, trivial⟩
    rw [executePhase_trace, forEachPre_complete env bus _ _ h1]
    rfl
  · intro m1 h m2 hm h1 h2 h3 hx
    rw [prePhase_eq] at h1 h2 h3 hx
    rw [executeEvent_of_pre_ok reg execute env bus event w h1]
    simp only [h2]
    rw [hm, forEachPost_append env bus m1 (h :: m2) _ h3,
      forEachPost_cons_throw env bus h m2 _ x hx]
    refine ⟨?_, rfl⟩
    simp [forEachPost_complete env bus m1 _ h3, executePhase_trace,
      forEachPre_complete env bus _ _ h1]

/-- C10 at three dispatches to tag `1`: in `failingSecond` the second before-handler
throws `7`, in `incrObserve` the event's `execute` throws `8`, in `failingPostSecond`
the second after-handler throws `9`. -/
theorem failure_cuts_dispatch_witness :
    ((executeEvent failingSecond double 0 1 5 0).trace =
        ([HandlerStorage.mk 10 incr] ++ [HandlerStorage.mk 11 failing]).map Call.pre ∧
      (executeEvent failingSecond double 0 1 5 0).thrown = some 7) ∧
    ((executeEvent incrObserve failingExecute 0 1 5 0).trace =
        (incrObserve.preHandlers.handlers 1).map Call.pre ++ [Call.execute] ∧
      (executeEvent incrObserve failingExecute 0 1 5 0).thrown = some 8) ∧
    ((executeEvent failingPostSecond double 0 1 5 0).trace =
        (failingPostSecond.preHandlers.handlers 1).map Call.pre ++ [Call.execute] ++
          ([HandlerStorage.mk 20 observe] ++ [HandlerStorage.mk 21 failingPost]).map Call.post ∧
      (executeEvent failingPostSecond double 0 1 5 0).thrown = some 9) :=
  ⟨(failure_cuts_dispatch failingSecond double 0 1 5 0 7).1 [HandlerStorage.mk 10 incr]
      (HandlerStorage.mk 11 failing) [HandlerStorage.mk 12 incr] rfl rfl rfl,
    (failure_cuts_dispatch incrObserve failingExecute 0 1 5 0 8).2.1 rfl rfl,
    (failure_cuts_dispatch failingPostSecond double 0 1 5 0 9).2.2
      [HandlerStorage.mk 20 observe] (HandlerStorage.mk 21 failingPost)
      [HandlerStorage.mk 22 observe] rfl rfl rfl rfl rfl⟩

/-! ### C11: stored slots and live subscriptions -/

theorem failingFirst_reachable : Reachable failingFirst := by
  apply Reachable.subscribeBefore
  · apply Reachable.subscribeBefore
    · exact Reachable.init
    · simp [System.fresh, System.init]
  · simp [System.fresh, System.init, System.subscribeBefore, subscribeBefore]

/-- C11, as amended: in every system reached from the empty registry by
`subscribeBefore`, `subscribeAfter` and the destruction of live subscriptions, the vector
that `preHandlers` (resp. `postHandlers`) has for a tag, empty for a tag that is no key,
is exactly the slots of the pre-subscriptions (resp. post-subscriptions) issued for that
tag and not yet destroyed, in the order of issue; so a dispatch calls a handler only if
its subscription for the dispatched tag is still live, and a dispatch that ends without
an exception calls exactly the handlers of the live subscriptions for its tag. -/
theorem stored_slots_are_live_subscriptions {E W X : Type} (s : System E W X)
    (hs : Reachable s) :
    (∀ t, s.registry.preHandlers.handlers t = s.liveBefore t) ∧
    (∀ t, s.registry.postHandlers.handlers t = s.liveAfter t) ∧
    (∀ t h, h ∈ s.registry.preHandlers.handlers t ↔
      ({ cb := h, tag := t } : PreSubscription E W X) ∈ s.preSubs) ∧
    (∀ t h, h ∈ s.registry.postHandlers.handlers t ↔
      ({ cb := h, tag := t } : PostSubscription E W X) ∈ s.postSubs) ∧
    (∀ (execute : Execute E W X) (env : Environment) (t : BusTag) (event : E) (w : W),
      (∀ h, Call.pre h ∈ (executeEvent s.registry execute env t event w).trace →
        ({ cb := h, tag := t } : PreSubscription E W X) ∈ s.preSubs) ∧
      (∀ h, Call.post h ∈ (executeEvent s.registry execute env t event w).trace →
        ({ cb := h, tag := t } : PostSubscription E W X) ∈ s.postSubs) ∧
      ((executeEvent s.registry execute env t event w).thrown = none →
        (executeEvent s.registry execute env t event w).trace =
          fullTrace (s.liveBefore t) (s.liveAfter t) ∧
        (∀ sub ∈ s.preSubs, sub.tag = t →
          Call.pre sub.cb ∈ (executeEvent s.registry execute env t event w).trace) ∧
        (∀ sub ∈ s.postSubs, sub.tag = t →
          Call.post sub.cb ∈ (executeEvent s.registry execute env t event w).trace))) := by
  obtain ⟨hlp, hlq⟩ := reachable_live s hs
  obtain ⟨⟨_, p2, _, p4⟩, ⟨_, q2, _, q4⟩⟩ := reachable_consistent s hs
  have hp : ∀ t h, h ∈ s.registry.preHandlers.handlers t ↔
      ({ cb := h, tag := t } : PreSubscription E W X) ∈ s.preSubs :=
    fun t h => ⟨p4 t h, fun hm => p2 _ hm⟩
  have hq : ∀ t h, h ∈ s.registry.postHandlers.handlers t ↔
      ({ cb := h, tag := t } : PostSubscription E W X) ∈ s.postSubs :=
    fun t h => ⟨q4 t h, fun hm => q2 _ hm⟩
  refine ⟨hlp, hlq, hp, hq, ?_⟩
  intro execute env t event w
  have hini := executeEvent_trace_initial s.registry execute env t event w
  refine ⟨?_, ?_, ?_⟩
  · intro h hh
    have hmem := hini.subset hh
    exact (hp t h).mp (by simpa [fullTrace] using hmem)
  · intro h hh
    have hmem := hini.subset hh
    exact (hq t h).mp (by simpa [fullTrace] using hmem)
  · intro hok
    have hfull := executeEvent_trace_complete s.registry execute env t event w hok
    refine ⟨by rw [hfull, hlp t, hlq t], ?_, ?_⟩
    · intro sub hsub htag
      rw [hfull]
      have hin : sub.cb ∈ s.registry.preHandlers.handlers t := htag ▸ p2 sub hsub
      simp [fullTrace, hin]
    · intro sub hsub htag
      rw [hfull]
      have hin : sub.cb ∈ s.registry.postHandlers.handlers t := htag ▸ q2 sub hsub
      simp [fullTrace, hin]

/-- C11 at `twoLive`: the vector of tag `1` is the slots of the two live
pre-subscriptions. -/
theorem stored_slots_are_live_subscriptions_witness :
    twoLive.registry.preHandlers.handlers 1 = twoLive.liveBefore 1 ∧
    (twoLive.liveBefore 1).map HandlerStorage.addr = [10, 11] :=
  ⟨(stored_slots_are_live_subscriptions twoLive twoLive_reachable).1 1, rfl⟩

/-- C11 as stated fails in its last part: in the reachable system `failingFirst` the
subscription `secondSub` is live, but a dispatch to its tag calls the slot at `10`
only, which throws, and the handler of `secondSub` is not called. -/
theorem live_handler_not_called :
    Reachable failingFirst ∧ secondSub ∈ failingFirst.preSubs ∧
    (executeEvent failingFirst.registry double 0 1 5 0).trace.map Call.id = [CallId.pre 10] ∧
    CallId.pre secondSub.cb.addr ∉
      (executeEvent failingFirst.registry double 0 1 5 0).trace.map Call.id := by
  refine ⟨failingFirst_reachable, ?_, rfl, ?_⟩
  · exact List.mem_append_right _ (List.mem_singleton_self _)
  · decide

/-! ### C13: the event through a dispatch -/

theorem forEachPre_snoc {E W X : Type} (env : Environment) (bus : BusTag)
    (l1 : List (PreHandlerStorage E W X)) (h : PreHandlerStorage E W X) (d : Dispatch E W X)
    (h1 : (forEachPre env bus l1 d).thrown = none) :
    forEachPre env bus (l1 ++ [h]) d =
      ⟨(forEachPre env bus l1 d).trace ++ [Call.pre h],
        (h.cb env bus (forEachPre env bus l1 d).event (forEachPre env bus l1 d).world).event,
        (h.cb env bus (forEachPre env bus l1 d).event (forEachPre env bus l1 d).world).world,
        (h.cb env bus (forEachPre env bus l1 d).event (forEachPre env bus l1 d).world).thrown⟩ := by
  rw [forEachPre_append env bus l1 [h] d h1]
  cases hx : (h.call env bus (forEachPre env bus l1 d).event
      (forEachPre env bus l1 d).world).thrown with
  | some x =>
    rw [forEachPre_cons_throw env bus h [] _ x hx]
    have hx2 : (h.cb env bus (forEachPre env bus l1 d).event
        (forEachPre env bus l1 d).world).thrown = some x := hx
    rw [hx2]
    rfl
  | none =>
    rw [forEachPre_cons_ok env bus h [] _ hx]
    have hx2 : (h.cb env bus (forEachPre env bus l1 d).event
        (forEachPre env bus l1 d).world).thrown = none := hx
    rw [hx2]
    rfl

theorem forEachPost_snoc {E W X : Type} (env : Environment) (bus : BusTag)
    (l1 : List (PostHandlerStorage E W X)) (h : PostHandlerStorage E W X) (d : Dispatch E W X)
    (h1 : (forEachPost env bus l1 d).thrown = none) :
    forEachPost env bus (l1 ++ [h]) d =
      ⟨(forEachPost env bus l1 d).trace ++ [Call.post h],
        (h.cb env bus (forEachPost env bus l1 d).event (forEachPost env bus l1 d).world).event,
        (h.cb env bus (forEachPost env bus l1 d).event (forEachPost env bus l1 d).world).world,
        (h.cb env bus (forEachPost env bus l1 d).event
          (forEachPost env bus l1 d).world).thrown⟩ := by
  rw [forEachPost_append env bus l1 [h] d h1]
  cases hx : (h.call env bus (forEachPost env bus l1 d).event
      (forEachPost env bus l1 d).world).thrown with
  | some x =>
    rw [forEachPost_cons_throw env bus h [] _ x hx]
    have hx2 : (h.cb env bus (forEachPost env bus l1 d).event
        (forEachPost env bus l1 d).world).thrown = some x := hx
    rw [hx2]
    rfl
  | none =>
    rw [forEachPost_cons_ok env bus h [] _ hx]
    have hx2 : (h.cb env bus (forEachPost env bus l1 d).event
        (forEachPost env bus l1 d).world).thrown = none := hx
    rw [hx2]
    rfl

/-- After-handlers that return the event they were given leave the event of the dispatch
as it is. -/
theorem forEachPost_event_of_reading {E W X : Type} (env : Environment) (bus : BusTag)
    (l : List (PostHandlerStorage E W X))
    (hl : ∀ h ∈ l, ∀ e v, (h.cb env bus e v).event = e) :
    ∀ d : Dispatch E W X, (forEachPost env bus l d).event = d.event := by
  induction l with
  | nil => intro d; rfl
  | cons h rest ih =>
    intro d
    have hh : (h.call env bus d.event d.world).event = d.event :=
      hl h (List.mem_cons_self _ _) d.event d.world
    have hrest : ∀ x ∈ rest, ∀ e v, (x.cb env bus e v).event = e :=
      fun x hx => hl x (List.mem_cons_of_mem _ hx)
    cases hx : (h.call env bus d.event d.world).thrown with
    | some x => rw [forEachPost_cons_throw env bus h rest d x hx]; exact hh
    | none => rw [forEachPost_cons_ok env bus h rest d hx, ih hrest]; exact hh

/-- C13, as amended: in a dispatch to a tag,
* a before-handler `h` that is called is called with the event and the outside state as
  the before-handlers `l1` in front of it left them, the first one with the caller's
  event, and what it leaves is what the rest of the first block goes on from;
* when no before-handler throws, the event's `execute` is called with the event as the
  last before-handler left it; when `execute` throws, the caller sees the event as
  `execute` left it;
* when `execute` returns as well, an after-handler `h` that is called is called with the
  event as `execute` and the after-handlers `m1` in front of it left it;
* when moreover the after-handlers of the tag only read the event, every after-handler
  that is called is called with the event as `execute` left it, and the event the caller
  sees afterwards is the one `execute` made of the event left by the before-handlers,
  also when an after-handler throws;
* when a before-handler throws, `execute` is not called, and the caller sees the event as
  the before-handlers up to the throwing one left it. -/
theorem event_threaded_through_dispatch {E W X : Type} (reg : SubscriptionRegistry E W X)
    (execute : Execute E W X) (env : Environment) (bus : BusTag) (event : E) (w : W) :
    (∀ l1 h l2, reg.preHandlers.handlers bus = l1 ++ h :: l2 →
      (forEachPre env bus l1 ⟨[], event, w, none⟩).thrown = none →
      forEachPre env bus (l1 ++ [h]) ⟨[], event, w, none⟩ =
        ⟨(forEachPre env bus l1 ⟨[], event, w, none⟩).trace ++ [Call.pre h],
          (h.cb env bus (forEachPre env bus l1 ⟨[], event, w, none⟩).event
            (forEachPre env bus l1 ⟨[], event, w, none⟩).world).event,
          (h.cb env bus (forEachPre env bus l1 ⟨[], event, w, none⟩).event
            (forEachPre env bus l1 ⟨[], event, w, none⟩).world).world,
          (h.cb env bus (forEachPre env bus l1 ⟨[], event, w, none⟩).event
            (forEachPre env bus l1 ⟨[], event, w, none⟩).world).thrown⟩ ∧
      prePhase reg env bus ⟨[], event, w, none⟩ =
        forEachPre env bus (h :: l2) (forEachPre env bus l1 ⟨[], event, w, none⟩)) ∧
    ((prePhase reg env bus ⟨[], event, w, none⟩).thrown = none →
      (executePhase execute env bus (prePhase reg env bus ⟨[], event, w, none⟩)).event =
        (execute env bus (prePhase reg env bus ⟨[], event, w, none⟩).event
          (prePhase reg env bus ⟨[], event, w, none⟩).world).event ∧
      (∀ x, (executePhase execute env bus
          (prePhase reg env bus ⟨[], event, w, none⟩)).thrown = some x →
        executeEvent reg execute env bus event w =
          executePhase execute env bus (prePhase reg env bus ⟨[], event, w, none⟩)) ∧
      ((executePhase execute env bus (prePhase reg env bus ⟨[], event, w, none⟩)).thrown
          = none →
        executeEvent reg execute env bus event w =
          forEachPost env bus (reg.postHandlers.handlers bus)
            (executePhase execute env bus (prePhase reg env bus ⟨[], event, w, none⟩)) ∧
        (∀ m1 h m2, reg.postHandlers.handlers bus = m1 ++ h :: m2 →
          (forEachPost env bus m1
            (executePhase execute env bus
              (prePhase reg env bus ⟨[], event, w, none⟩))).thrown = none →
          forEachPost env bus (m1 ++ [h])
              (executePhase execute env bus (prePhase reg env bus ⟨[], event, w, none⟩)) =
            ⟨(forEachPost env bus m1 (executePhase execute env bus
                (prePhase reg env bus ⟨[], event, w, none⟩))).trace ++ [Call.post h],
              (h.cb env bus
                (forEachPost env bus m1 (executePhase execute env bus
                  (prePhase reg env bus ⟨[], event, w, none⟩))).event
                (forEachPost env bus m1 (executePhase execute env bus
                  (prePhase reg env bus ⟨[], event, w, none⟩))).world).event,
              (h.cb env bus
                (forEachPost env bus m1 (executePhase execute env bus
                  (prePhase reg env bus ⟨[], event, w, none⟩))).event
                (forEachPost env bus m1 (executePhase execute env bus
                  (prePhase reg env bus ⟨[], event, w, none⟩))).world).world,
              (h.cb env bus
                (forEachPost env bus m1 (executePhase execute env bus
                  (prePhase reg env bus ⟨[], event, w, none⟩))).event
                (forEachPost env bus m1 (executePhase execute env bus
                  (prePhase reg env bus ⟨[], event, w, none⟩))).world).thrown⟩)) ∧
      ((∀ h ∈ reg.postHandlers.handlers bus, ∀ e v, (h.cb env bus e v).event = e) →
        (∀ m1 h m2, reg.postHandlers.handlers bus = m1 ++ h :: m2 →
          (forEachPost env bus m1
            (executePhase execute env bus (prePhase reg env bus ⟨[], event, w, none⟩))).event =
            (execute env bus (prePhase reg env bus ⟨[], event, w, none⟩).event
              (prePhase reg env bus ⟨[], event, w, none⟩).world).event) ∧
        (executeEvent reg execute env bus event w).event =
          (execute env bus (prePhase reg env bus ⟨[], event, w, none⟩).event
            (prePhase reg env bus ⟨[], event, w, none⟩).world).event)) ∧
    (∀ x, (prePhase reg env bus ⟨[], event, w, none⟩).thrown = some x →
      executeEvent reg execute env bus event w = prePhase reg env bus ⟨[], event, w, none⟩ ∧
      Call.execute ∉ (executeEvent reg execute env bus event w).trace) := by
  refine ⟨?_, ?_, ?_⟩
  · intro l1 h l2 hl h1
    refine ⟨forEachPre_snoc env bus l1 h _ h1, ?_⟩
    rw [prePhase_eq, hl, forEachPre_append env bus l1 (h :: l2) _ h1]
  · intro h1
    rw [prePhase_eq] at h1 ⊢
    have hev := executeEvent_of_pre_ok reg execute env bus event w h1
    refine ⟨rfl, ?_, ?_, ?_⟩
    · intro x hx
      rw [hev]
      simp only [hx]
    · intro h2
      constructor
      · rw [hev]
        simp only [h2]
      · intro m1 h m2 _ h3
        exact forEachPost_snoc env bus m1 h _ h3
    · intro hread
      constructor
      · intro m1 h m2 hm
        have hm1 : ∀ x ∈ m1, ∀ e v, (x.cb env bus e v).event = e := by
          intro x hx
          exact hread x (by rw [hm]; exact List.mem_append_left _ hx)
        rw [forEachPost_event_of_reading env bus m1 hm1]
        rfl
      · rw [hev]
        split
        · rfl
        · rw [forEachPost_event_of_reading env bus _ hread]
          rfl
  · intro x hx
    rw [prePhase_eq] at hx ⊢
    have heq := executeEvent_of_pre_throw reg execute env bus event w x hx
    refine ⟨heq, ?_⟩
    rw [heq]
    obtain ⟨k, _, hk⟩ := forEachPre_initial env bus (reg.preHandlers.handlers bus)
      (⟨[], event, w, none⟩ : Dispatch E W X)
    rw [hk]
    intro hmem
    rw [List.nil_append] at hmem
    obtain ⟨c, _, hc⟩ := List.mem_map.mp hmem
    cases hc

/-- C13 at `incrObserve`, whose after-handler `observe` only reads the event: the
dispatch to tag `1` with the event `5` leaves the event `12`, which is what `double`
makes of the event `6` left by `incr`. -/
theorem event_threaded_through_dispatch_witness :
    (executeEvent incrObserve double 0 1 5 0).event =
      (double 0 1 (prePhase incrObserve 0 1 ⟨[], 5, 0, none⟩).event
        (prePhase incrObserve 0 1 ⟨[], 5, 0, none⟩).world).event ∧
    (executeEvent incrObserve double 0 1 5 0).event = 12 :=
  ⟨(((event_threaded_through_dispatch incrObserve double 0 1 5 0).2.1 rfl).2.2.2
      (by
        intro h hh e v
        have hobs : h = ⟨20, observe⟩ := by
          simpa [incrObserve, registerAll, Registration.apply, subscribeBefore, subscribeAfter,
            SubscriptionRegistry.empty, HandlerMap.handlers, HandlerMap.empty] using hh
        rw [hobs]
        rfl)).2, rfl⟩

/-- C13 as stated fails, in two ways. In `failingOnly` the before-handler of tag `1`
throws, the event's `execute` does not run, and the caller sees the event `5`, not the
event `10` that `double` would make of the event left by the before-handlers. In
`overwriteOnly` nothing throws, the after-handler `overwrite` writes to the event it
was handed, and the caller sees the event `110`, not the event `10` that `double` left. -/
theorem event_not_executed_after_throw :
    ((executeEvent failingOnly double 0 1 5 0).event = 5 ∧
      (double 0 1 (prePhase failingOnly 0 1 ⟨[], 5, 0, none⟩).event
        (prePhase failingOnly 0 1 ⟨[], 5, 0, none⟩).world).event = 10 ∧
      (executeEvent failingOnly double 0 1 5 0).event ≠
        (double 0 1 (prePhase failingOnly 0 1 ⟨[], 5, 0, none⟩).event
          (prePhase failingOnly 0 1 ⟨[], 5, 0, none⟩).world).event) ∧
    ((executeEvent overwriteOnly double 0 1 5 0).thrown = none ∧
      (executeEvent overwriteOnly double 0 1 5 0).event = 110 ∧
      (double 0 1 (prePhase overwriteOnly 0 1 ⟨[], 5, 0, none⟩).event
        (prePhase overwriteOnly 0 1 ⟨[], 5, 0, none⟩).world).event = 10 ∧
      (executeEvent overwriteOnly double 0 1 5 0).event ≠
        (double 0 1 (prePhase overwriteOnly 0 1 ⟨[], 5, 0, none⟩).event
          (prePhase overwriteOnly 0 1 ⟨[], 5, 0, none⟩).world).event) := by
  refine ⟨⟨rfl, rfl, ?_⟩, ⟨rfl, rfl, rfl, ?_⟩⟩
  · decide
  · decide

/-! ### C14: a dispatch leaves the registry as it is -/

/-- C14: `executeEvent` leaves the registry it is called on unchanged, `preHandlers` and
`postHandlers` alike, whether the dispatch ends without an exception or a handler or the
event's `execute` throws part-way; a tag that is not a key is not made one; and the
dispatch of the step is the one `executeEvent` computes. -/
theorem dispatch_leaves_registry {E W X : Type} (reg : SubscriptionRegistry E W X)
    (execute : Execute E W X) (env : Environment) (bus : BusTag) (event : E) (w : W) :
    (executeEventOn reg execute env bus event w).1 = reg ∧
    (executeEventOn reg execute env bus event w).1.preHandlers = reg.preHandlers ∧
    (executeEventOn reg execute env bus event w).1.postHandlers = reg.postHandlers ∧
    (∀ k, (executeEventOn reg execute env bus event w).1.preHandlers.isKey k =
      reg.preHandlers.isKey k) ∧
    (∀ k, (executeEventOn reg execute env bus event w).1.postHandlers.isKey k =
      reg.postHandlers.isKey k) ∧
    (executeEventOn reg execute env bus event w).2 = executeEvent reg execute env bus event w := by
  have hreg : (executeEventOn reg execute env bus event w).1 = reg := by
    unfold executeEventOn
    simp only [HandlerMap.findOp]
    split
    · rfl
    · split
      · rfl
      · split <;> rfl
  have hdis : (executeEventOn reg execute env bus event w).2 =
      executeEvent reg execute env bus event w := by
    unfold executeEventOn executeEvent prePhase postPhase
    simp only [HandlerMap.findOp]
    split
    · rfl
    · split
      · rfl
      · split <;> rfl
  refine ⟨hreg, by rw [hreg], by rw [hreg], ?_, ?_, hdis⟩
  · intro k; rw [hreg]
  · intro k; rw [hreg]

/-! ### C15: disposal keeps the keys -/

/-- C15: destroying a subscription leaves the set of keys of each collection as it was:
a tag is a key of `preHandlers` (of `postHandlers`) afterwards exactly when it was one
before, for a `PreSubscription` and for a `PostSubscription`, in every registry; and
after the storage object of the subscription, the only element of the vector of its tag,
is removed, the tag is still a key, mapped to the empty vector. -/
theorem disposal_keeps_keys {E W X : Type} (reg : SubscriptionRegistry E W X)
    (pre : PreSubscription E W X) (post : PostSubscription E W X) :
    (∀ k, (pre.destructor reg).preHandlers.isKey k = reg.preHandlers.isKey k) ∧
    (∀ k, (pre.destructor reg).postHandlers.isKey k = reg.postHandlers.isKey k) ∧
    (∀ k, (post.destructor reg).postHandlers.isKey k = reg.postHandlers.isKey k) ∧
    (∀ k, (post.destructor reg).preHandlers.isKey k = reg.preHandlers.isKey k) ∧
    (∀ s : PreHandlerStorage E W X, s.addr = pre.cb.addr →
      reg.preHandlers pre.tag = some [s] →
      (pre.destructor reg).preHandlers pre.tag = some []) ∧
    (∀ s : PostHandlerStorage E W X, s.addr = post.cb.addr →
      reg.postHandlers post.tag = some [s] →
      (post.destructor reg).postHandlers post.tag = some []) := by
  refine ⟨?_, ?_, ?_, ?_, ?_, ?_⟩
  · intro k
    unfold HandlerMap.isKey
    rw [preDestructor_preHandlers]
    by_cases hk : k = pre.tag
    · rw [hk]
      cases reg.preHandlers pre.tag <;> simp
    · simp [hk]
  · intro k
    rw [preDestructor_postHandlers]
  · intro k
    unfold HandlerMap.isKey
    rw [postDestructor_postHandlers]
    by_cases hk : k = post.tag
    · rw [hk]
      cases reg.postHandlers post.tag <;> simp
    · simp [hk]
  · intro k
    rw [postDestructor_preHandlers]
  · intro s hs hreg
    rw [preDestructor_preHandlers]
    simp [hreg, minusEq, hs]
  · intro s hs hreg
    rw [postDestructor_postHandlers]
    simp [hreg, minusEq, hs]

/-- C15 at `failingOnly`, whose only handler is the one of `failingSub`. -/
theorem disposal_keeps_keys_witness :
    (failingSub.destructor failingOnly).preHandlers.isKey 1 = true ∧
    (failingSub.destructor failingOnly).preHandlers 1 = some [] :=
  ⟨((disposal_keeps_keys failingOnly failingSub firstPostSub).1 1).trans rfl,
    (disposal_keeps_keys failingOnly failingSub firstPostSub).2.2.2.2.1 ⟨10, failing⟩ rfl rfl⟩

/-! ### C17: a storage object is stored once, and is gone after removal -/

/-- C18, as amended: the destruction of a subscription works on the registry that
`E::getRegistry()` returns. For a subscription that another instance issued at the
address `addr`:
* the other instance is left unchanged, its vector of the tag still ends with the slot,
  every dispatch on it gives what it gave before the destruction, and a dispatch to the
  tag that ends without an exception calls the slot;
* the registry of `E::getRegistry()` is left unchanged as well when it holds no storage
  object at `addr` under the tag, so that nothing is removed anywhere.

For a subscription that the registry of `E::getRegistry()` issued at an address not yet
in its vector of the tag, the destruction takes the slot out of that registry again.
This holds for `PreSubscription` and `preHandlers` and for `PostSubscription` and
`postHandlers`. -/
theorem disposal_acts_on_getRegistry {E W X : Type} (i : Instances E W X) (tag : BusTag)
    (cbPre : PreHandler E W X) (cbPost : PostHandler E W X) (addr : Nat) :
    (∀ i1 sub, i.subscribeBeforeOnOther tag cbPre addr = (i1, sub) →
      (i1.destroyPre sub).other = i1.other ∧
      (i1.destroyPre sub).other.preHandlers tag =
        some (i.other.preHandlers.handlers tag ++ [⟨addr, cbPre⟩]) ∧
      (∀ (execute : Execute E W X) (env : Environment) (bus : BusTag) (event : E) (w : W),
        executeEvent (i1.destroyPre sub).other execute env bus event w =
          executeEvent i1.other execute env bus event w) ∧
      (∀ (execute : Execute E W X) (env : Environment) (event : E) (w : W),
        (executeEvent (i1.destroyPre sub).other execute env tag event w).thrown = none →
        Call.pre ⟨addr, cbPre⟩ ∈
          (executeEvent (i1.destroyPre sub).other execute env tag event w).trace) ∧
      ((∀ h ∈ i.getRegistry.preHandlers.handlers tag, h.addr ≠ addr) →
        (i1.destroyPre sub).getRegistry = i.getRegistry)) ∧
    (∀ i1 sub, i.subscribeAfterOnOther tag cbPost addr = (i1, sub) →
      (i1.destroyPost sub).other = i1.other ∧
      (i1.destroyPost sub).other.postHandlers tag =
        some (i.other.postHandlers.handlers tag ++ [⟨addr, cbPost⟩]) ∧
      (∀ (execute : Execute E W X) (env : Environment) (bus : BusTag) (event : E) (w : W),
        executeEvent (i1.destroyPost sub).other execute env bus event w =
          executeEvent i1.other execute env bus event w) ∧
      (∀ (execute : Execute E W X) (env : Environment) (event : E) (w : W),
        (executeEvent (i1.destroyPost sub).other execute env tag event w).thrown = none →
        Call.post ⟨addr, cbPost⟩ ∈
          (executeEvent (i1.destroyPost sub).other execute env tag event w).trace) ∧
      ((∀ h ∈ i.getRegistry.postHandlers.handlers tag, h.addr ≠ addr) →
        (i1.destroyPost sub).getRegistry = i.getRegistry)) ∧
    (∀ i1 sub, i.subscribeBeforeOnGetRegistry tag cbPre addr = (i1, sub) →
      (∀ h ∈ i.getRegistry.preHandlers.handlers tag, h.addr ≠ addr) →
      (∀ t, (i1.destroyPre sub).getRegistry.preHandlers.handlers t =
        i.getRegistry.preHandlers.handlers t) ∧
      (i1.destroyPre sub).other = i.other) ∧
    (∀ i1 sub, i.subscribeAfterOnGetRegistry tag cbPost addr = (i1, sub) →
      (∀ h ∈ i.getRegistry.postHandlers.handlers tag, h.addr ≠ addr) →
      (∀ t, (i1.destroyPost sub).getRegistry.postHandlers.handlers t =
        i.getRegistry.postHandlers.handlers t) ∧
      (i1.destroyPost sub).other = i.other) := by
  refine ⟨?_, ?_, ?_, ?_⟩
  · intro i1 sub heq
    obtain ⟨h1, h2⟩ := Prod.mk.inj heq
    subst h1 h2
    have hkey : (subscribeBefore i.other tag cbPre addr).1.preHandlers tag =
        some (i.other.preHandlers.handlers tag ++ [⟨addr, cbPre⟩]) := by
      simp [subscribeBefore]
    refine ⟨rfl, hkey, fun _ _ _ _ _ => rfl, ?_, ?_⟩
    · intro execute env event w hok
      have htrace := executeEvent_trace_complete
        (subscribeBefore i.other tag cbPre addr).1 execute env tag event w hok
      have hmem : Call.pre (⟨addr, cbPre⟩ : PreHandlerStorage E W X) ∈
          (executeEvent (subscribeBefore i.other tag cbPre addr).1 execute env tag event
            w).trace := by
        rw [htrace]
        simp [fullTrace, HandlerMap.handlers, hkey]
      exact hmem
    · intro hfresh
      exact preDestructor_absent _ i.getRegistry hfresh
  · intro i1 sub heq
    obtain ⟨h1, h2⟩ := Prod.mk.inj heq
    subst h1 h2
    have hkey : (subscribeAfter i.other tag cbPost addr).1.postHandlers tag =
        some (i.other.postHandlers.handlers tag ++ [⟨addr, cbPost⟩]) := by
      simp [subscribeAfter]
    refine ⟨rfl, hkey, fun _ _ _ _ _ => rfl, ?_, ?_⟩
    · intro execute env event w hok
      have htrace := executeEvent_trace_complete
        (subscribeAfter i.other tag cbPost addr).1 execute env tag event w hok
      have hmem : Call.post (⟨addr, cbPost⟩ : PostHandlerStorage E W X) ∈
          (executeEvent (subscribeAfter i.other tag cbPost addr).1 execute env tag event
            w).trace := by
        rw [htrace]
        simp [fullTrace, HandlerMap.handlers, hkey]
      exact hmem
    · intro hfresh
      exact postDestructor_absent _ i.getRegistry hfresh
  · intro i1 sub heq hfresh
    obtain ⟨h1, h2⟩ := Prod.mk.inj heq
    subst h1 h2
    exact ⟨subscribeBeforeThenDispose_handlers i.getRegistry tag cbPre addr hfresh, rfl⟩
  · intro i1 sub heq hfresh
    obtain ⟨h1, h2⟩ := Prod.mk.inj heq
    subst h1 h2
    exact ⟨subscribeAfterThenDispose_handlers i.getRegistry tag cbPost addr hfresh, rfl⟩

/-- C18 at `twoInstances`: `incr` is subscribed before under tag `1` at `30` on the
other instance and the subscription is destroyed; the other instance still holds the
slot, the dispatch of `double` to tag `1` on it ends without an exception and calls the
slot, and the registry of `E::getRegistry()` is as before. -/
theorem disposal_acts_on_getRegistry_witness :
    (((twoInstances.subscribeBeforeOnOther 1 incr 30).1.destroyPre
      (twoInstances.subscribeBeforeOnOther 1 incr 30).2).other.preHandlers 1 =
        some (twoInstances.other.preHandlers.handlers 1 ++ [⟨30, incr⟩])) ∧
    (executeEvent ((twoInstances.subscribeBeforeOnOther 1 incr 30).1.destroyPre
      (twoInstances.subscribeBeforeOnOther 1 incr 30).2).other double 0 1 5 0).thrown
        = none ∧
    Call.pre ⟨30, incr⟩ ∈
      (executeEvent ((twoInstances.subscribeBeforeOnOther 1 incr 30).1.destroyPre
        (twoInstances.subscribeBeforeOnOther 1 incr 30).2).other double 0 1 5 0).trace ∧
    ((twoInstances.subscribeBeforeOnOther 1 incr 30).1.destroyPre
      (twoInstances.subscribeBeforeOnOther 1 incr 30).2).getRegistry =
        twoInstances.getRegistry :=
  ⟨((disposal_acts_on_getRegistry twoInstances 1 incr observe 30).1 _ _ rfl).2.1,
    rfl,
    ((disposal_acts_on_getRegistry twoInstances 1 incr observe 30).1 _ _ rfl).2.2.2.1
      double 0 5 0 rfl,
    ((disposal_acts_on_getRegistry twoInstances 1 incr observe 30).1 _ _ rfl).2.2.2.2
      (by intro h hh; cases hh)⟩

/-- C18 as stated fails: in `failingInstances` the other instance holds `failing` at
`10` under tag `1`. `incr` is subscribed before under tag `1` at `30` on the other
instance and the subscription is destroyed. The other instance is left as it was and
holds the slots at `10` and `30`, but its next dispatch to tag `1` calls the slot at
`10` only, which throws: the handler of the destroyed subscription does not fire. -/
theorem issuing_instance_handler_not_called :
    ((failingInstances.subscribeBeforeOnOther 1 incr 30).1.destroyPre
      (failingInstances.subscribeBeforeOnOther 1 incr 30).2).other =
        (failingInstances.subscribeBeforeOnOther 1 incr 30).1.other ∧
    (((failingInstances.subscribeBeforeOnOther 1 incr 30).1.destroyPre
      (failingInstances.subscribeBeforeOnOther 1 incr 30).2).other.preHandlers.handlers
        1).map HandlerStorage.addr = [10, 30] ∧
    (executeEvent ((failingInstances.subscribeBeforeOnOther 1 incr 30).1.destroyPre
      (failingInstances.subscribeBeforeOnOther 1 incr 30).2).other double 0 1 5 0).thrown
        = some 7 ∧
    (executeEvent ((failingInstances.subscribeBeforeOnOther 1 incr 30).1.destroyPre
      (failingInstances.subscribeBeforeOnOther 1 incr 30).2).other double 0 1 5
        0).trace.map Call.id = [CallId.pre 10] ∧
    CallId.pre 30 ∉
      (executeEvent ((failingInstances.subscribeBeforeOnOther 1 incr 30).1.destroyPre
        (failingInstances.subscribeBeforeOnOther 1 incr 30).2).other double 0 1 5
          0).trace.map Call.id := by
  refine ⟨rfl, rfl, rfl, rfl, ?_⟩
  decide

end events
